import Mathlib

/-! # GnuPG agent command handlers and keyboxd frontend

A shallow embedding of `agent/command.c` (the gpg-agent Assuan command
handlers) and `kbx/frontend.c` (the keyboxd database frontend), followed by
theorems about the embedded functions.

Conventions of the embedding.

* A C string is a `List Char`; reading the byte under a pointer that has
  reached the end of the string yields NUL (`deref`).
* Byte buffers (`keygrip`, `digest.value`) are `List Nat`; `buf[n] = v` is
  `List.set`.
* Collaborators that live outside the two files (trust list, key store,
  libgcrypt, the keybox backends) are oracles.  Every call made to them is
  appended to a call log, and an oracle sees the log of the calls made before,
  so that its answers may depend on anything that happened earlier.
-/

set_option autoImplicit false

namespace Command

/-! ## Character helpers used by the handlers -/

/-- The NUL byte terminating a C string. -/
def NUL : Char := Char.ofNat 0

/-- The byte under the pointer `p`: the head of the remaining string, NUL at
its end. -/
def deref (p : List Char) : Char := p.headD NUL

/-- Modelled from the spec: the `spacep` helper of the missing util header,
true on a space or a tab. -/
def spacep (c : Char) : Bool := c == ' ' || c == '\t'

/-- Modelled from the spec: the `digitp` helper of the missing util header,
true on `0`..`9`. -/
def digitp (c : Char) : Bool := decide ('0'.toNat ≤ c.toNat) && decide (c.toNat ≤ '9'.toNat)

/-- Modelled from the spec: the `hexdigitp` helper of the missing util header,
true on a hex digit of either letter case. -/
def hexdigitp (c : Char) : Bool :=
  digitp c
  || (decide ('A'.toNat ≤ c.toNat) && decide (c.toNat ≤ 'F'.toNat))
  || (decide ('a'.toNat ≤ c.toNat) && decide (c.toNat ≤ 'f'.toNat))

/-- Modelled from the spec: the `xtoi_1` helper of the missing util header,
the value of one hex digit. -/
def xtoi_1 (c : Char) : Nat :=
  if c.toNat ≤ '9'.toNat then c.toNat - '0'.toNat
  else if c.toNat ≤ 'F'.toNat then c.toNat - 'A'.toNat + 10
  else c.toNat - 'a'.toNat + 10

/-- Modelled from the spec: the `xtoi_2` helper of the missing util header,
the byte encoded by the two hex digits at `p` and `p+1`. -/
def xtoi_2 (p : List Char) : Nat :=
  xtoi_1 (deref p) * 16 + xtoi_1 (deref (p.drop 1))

/-- The scan `for (p=line,n=0; hexdigitp (p); p++, n++);` returns the
count `n` of leading hex digits. -/
def scan_hex_n (line : List Char) : Nat := (line.takeWhile hexdigitp).length

/-- The scan `for (p=line,n=0; hexdigitp (p); p++, n++);` leaves `p` on the
first byte that is no hex digit. -/
def scan_hex_p (line : List Char) : List Char := line.dropWhile hexdigitp

/-- The loop `for (p=..., n=...; n < limit; p += 2, n++) buf[n] = xtoi_2 (p);`
with `count = limit - n` iterations left. -/
def store_hex (buf : List Nat) (p : List Char) (n : Nat) : Nat → List Nat
  | 0 => buf
  | count + 1 => store_hex (buf.set n (xtoi_2 p)) (p.drop 2) (n + 1) count

/-- The loop `for (; n < limit; n++) buf[n] = 0;` with `count = limit - n`
iterations left. -/
def zero_fill (buf : List Nat) (n : Nat) : Nat → List Nat
  | 0 => buf
  | count + 1 => zero_fill (buf.set n 0) (n + 1) count

/-- The expression `*p >= 'a'? (*p & 0xdf): *p` of the fingerprint copy
loops. -/
def upcase (c : Char) : Char :=
  if 'a'.toNat ≤ c.toNat then Char.ofNat (c.toNat &&& 0xdf) else c

/-! ## The C library's `strtoul` -/

/-- The C library's `isspace` in the C locale. -/
def isspace (c : Char) : Bool :=
  c == ' ' || c == '\t' || c == '\n' || c == Char.ofNat 11 || c == Char.ofNat 12 || c == '\r'

/-- The largest `unsigned long` (64 bits). -/
def ULONG_MAX : Nat := 2 ^ 64 - 1

/-- The value of a run of decimal digits. -/
def decimal_value (digits : List Char) : Nat :=
  digits.foldl (fun acc c => acc * 10 + (c.toNat - '0'.toNat)) 0

/-- The C library's `strtoul (s, &endp, 10)`: skips white space, accepts a
sign, converts the decimal digits (saturating at `ULONG_MAX`, negating
modulo `2^64` after a minus sign) and returns the value with `endp`; without
any digit the value is 0 and `endp` is `s` itself. -/
def strtoul (s : List Char) : Nat × List Char :=
  let s1 := s.dropWhile isspace
  let neg := deref s1 == '-'
  let s2 := if deref s1 == '-' || deref s1 == '+' then s1.drop 1 else s1
  let digits := s2.takeWhile digitp
  if digits.isEmpty then (0, s)
  else
    let v := decimal_value digits
    let v := if ULONG_MAX < v then ULONG_MAX
             else if neg then (2 ^ 64 - v) % 2 ^ 64 else v
    (v, s2.dropWhile digitp)

/-- The conversion `(int) v` of an `unsigned long` to a 32 bit `int`. -/
def to_int (v : Nat) : Int :=
  let w : Nat := v % 2 ^ 32
  if w < 2 ^ 31 then Int.ofNat w else Int.ofNat w - 2 ^ 32

/-! ## Session state -/

/-- The Assuan status codes the handlers return; `Other` stands for the codes
that `map_to_assuan_status` may produce besides them. -/
inductive AssuanStatus where
  | OK
  | Parameter_Error
  | Unsupported_Algorithm
  | Not_Trusted
  | No_Secret_Key
  | Out_Of_Core
  | Invalid_Option
  | Other (code : Int)
  deriving DecidableEq, Repr

/-- The member `digest` of `struct server_control_s`. -/
structure digest_s where
  algo : Int
  value : List Nat
  valuelen : Nat
  deriving DecidableEq, Repr

/-- The local server data `struct server_local_s`; the Assuan context it
points back to is not represented. -/
structure server_local_s where
  message_fd : Int
  deriving DecidableEq, Repr

/-- The session context `struct server_control_s` (type `CTRL`). -/
structure server_control_s where
  server_local : Option server_local_s
  digest : digest_s
  keygrip : List Nat
  have_keygrip : Bool
  deriving DecidableEq, Repr

/-- The members of the global option record `opt` that the option handler
sets; `none` is a NULL pointer. -/
structure opt_s where
  display : Option String
  ttyname : Option String
  ttytype : Option String
  lc_ctype : Option String
  lc_messages : Option String
  deriving DecidableEq, Repr

/-- A call made by a handler to a collaborator outside `command.c`. -/
inductive Call where
  | agent_istrusted (fpr : List Char)
  | agent_marktrusted (name : List Char) (fpr : List Char) (flag : Char)
  | agent_key_available (grip : List Nat)
  | agent_get_cache (key : List Char)
  | agent_put_cache (key : List Char) (data : Option (List Char)) (ttl : Int)
  | agent_get_passphrase (desc : Option (List Char)) (prompt : Option (List Char))
      (errtext : Option (List Char))
  | assuan_begin_confidential
  | assuan_set_okay_line (line : List Char)
  | agent_handle_learn (send : Bool)
  deriving DecidableEq, Repr

/-- Everything a handler can read or change: the session context, the global
options and the log of collaborator calls (oldest first). -/
structure AgentState where
  ctrl : server_control_s
  opt : opt_s
  calls : List Call
  deriving DecidableEq, Repr

/-- The collaborators and constants of `command.c` that are defined
elsewhere.  Each oracle receives the log of the calls made before it. -/
structure Env where
  /-- The constant `MAX_DIGEST_LEN` of the missing agent header. -/
  MAX_DIGEST_LEN : Nat
  gcry_md_test_algo : Int → Int
  agent_istrusted : List Call → List Char → Int
  agent_marktrusted : List Call → List Char → List Char → Char → Int
  agent_key_available : List Call → List Nat → Int
  map_to_assuan_status : Int → AssuanStatus
  /-- The lookup `agent_get_cache (key)`; `none` is a NULL result. -/
  agent_get_cache : List Call → List Char → Option (List Char)
  /-- The return code and the response of
  `agent_get_passphrase (&response, desc, prompt, errtext)`. -/
  agent_get_passphrase :
    List Call → Option (List Char) → Option (List Char) → Option (List Char) → Int × List Char
  assuan_set_okay_line : List Call → List Char → Int
  /-- Whether `strdup` of an option value succeeds. -/
  strdup_ok : String → Bool
  /-- The result of `agent_handle_learn (sink)`; the argument tells whether
  the sink is the Assuan context (`true`) or NULL (`false`). -/
  agent_handle_learn : List Call → Bool → Int

/-- What a handler hands back to the dispatcher: its return code, the error
text left by `assuan_set_error` (if any) and the state afterwards. -/
structure Result where
  rc : AssuanStatus
  err_text : Option String
  st : AgentState

/-- The macro `set_error (e, t)`: record the text and return the code. -/
def set_error (st : AgentState) (e : AssuanStatus) (t : Option String) : Result :=
  { rc := e, err_text := t, st := st }

/-- A plain `return rc;`. -/
def ret (st : AgentState) (rc : AssuanStatus) : Result :=
  { rc := rc, err_text := none, st := st }

/-- The session context after `memset (&ctrl, 0, sizeof ctrl)` in
`start_command_handler`. -/
def zero_ctrl (env : Env) : server_control_s :=
  { server_local := none
    digest := { algo := 0, value := List.replicate env.MAX_DIGEST_LEN 0, valuelen := 0 }
    keygrip := List.replicate 20 0
    have_keygrip := false }

/-! ## The handlers -/

/-- The reset hook `reset_notify`. -/
def reset_notify (st : AgentState) : AgentState :=
  { st with
    ctrl := { st.ctrl with
      keygrip := List.replicate 20 0
      have_keygrip := false
      digest := { st.ctrl.digest with valuelen := 0 } } }

/-- The handler `cmd_istrusted` (ISTRUSTED). -/
def cmd_istrusted (env : Env) (st : AgentState) (line : List Char) : Result :=
  let n := scan_hex_n line
  let p := scan_hex_p line
  if deref p ≠ NUL || !(n == 40 || n == 32) then
    set_error st .Parameter_Error (some "invalid fingerprint")
  else
    let fpr0 : List Char := if n = 32 then "00000000".toList else []
    let i := fpr0.length
    let fpr := fpr0 ++ (line.take (40 - i)).map upcase
    let rc := env.agent_istrusted st.calls fpr
    let st1 := { st with calls := st.calls ++ [Call.agent_istrusted fpr] }
    if rc = 0 then ret st1 .OK
    else if rc = -1 then ret st1 .Not_Trusted
    else ret st1 (env.map_to_assuan_status rc)

/-- The handler `cmd_marktrusted` (MARKTRUSTED). -/
def cmd_marktrusted (env : Env) (st : AgentState) (line : List Char) : Result :=
  let n := scan_hex_n line
  let p := scan_hex_p line
  if !spacep (deref p) || !(n == 40 || n == 32) then
    set_error st .Parameter_Error (some "invalid fingerprint")
  else
    let fpr0 : List Char := if n = 32 then "00000000".toList else []
    let i := fpr0.length
    let fpr := fpr0 ++ (line.take (40 - i)).map upcase
    let p := line.drop (40 - i)
    let p := p.dropWhile spacep
    let flag := deref p
    let p := p.drop 1
    if (flag ≠ 'S' && flag ≠ 'P') || !spacep (deref p) then
      set_error st .Parameter_Error (some "invalid flag - must be P or S")
    else
      let p := p.dropWhile spacep
      let rc := env.agent_marktrusted st.calls p fpr flag
      let st1 := { st with calls := st.calls ++ [Call.agent_marktrusted p fpr flag] }
      ret st1 (env.map_to_assuan_status rc)

/-- The handler `cmd_havekey` (HAVEKEY). -/
def cmd_havekey (env : Env) (st : AgentState) (line : List Char) : Result :=
  let n := scan_hex_n line
  let p := scan_hex_p line
  if deref p ≠ NUL then set_error st .Parameter_Error (some "invalid hexstring")
  else if n % 2 = 1 then set_error st .Parameter_Error (some "odd number of digits")
  else if n / 2 ≠ 20 then set_error st .Parameter_Error (some "invalid length of keygrip")
  else
    let buf := store_hex (List.replicate 20 0) line 0 20
    let rc := env.agent_key_available st.calls buf
    let st1 := { st with calls := st.calls ++ [Call.agent_key_available buf] }
    if rc ≠ 0 then ret st1 .No_Secret_Key
    else ret st1 .OK

/-- The handler `cmd_sigkey` (SIGKEY and SETKEY). -/
def cmd_sigkey (_env : Env) (st : AgentState) (line : List Char) : Result :=
  let n := scan_hex_n line
  let p := scan_hex_p line
  if deref p ≠ NUL then set_error st .Parameter_Error (some "invalid hexstring")
  else if n % 2 = 1 then set_error st .Parameter_Error (some "odd number of digits")
  else if n / 2 ≠ 20 then set_error st .Parameter_Error (some "invalid length of keygrip")
  else
    let buf := store_hex st.ctrl.keygrip line 0 20
    ret { st with ctrl := { st.ctrl with keygrip := buf, have_keygrip := true } } .OK

/-- The handler `cmd_sethash` (SETHASH). -/
def cmd_sethash (env : Env) (st : AgentState) (line : List Char) : Result :=
  let algo := to_int (strtoul line).1
  let line := (strtoul line).2.dropWhile spacep
  if algo = 0 || env.gcry_md_test_algo algo ≠ 0 then
    set_error st .Unsupported_Algorithm none
  else
    let st := { st with ctrl := { st.ctrl with digest := { st.ctrl.digest with algo := algo } } }
    let n := scan_hex_n line
    let p := scan_hex_p line
    if deref p ≠ NUL then set_error st .Parameter_Error (some "invalid hexstring")
    else if n % 2 = 1 then set_error st .Parameter_Error (some "odd number of digits")
    else
      let n := n / 2
      if n ≠ 16 && n ≠ 20 && n ≠ 24 && n ≠ 32 then
        set_error st .Parameter_Error (some "unsupported length of hash")
      else if n > env.MAX_DIGEST_LEN then
        set_error st .Parameter_Error (some "hash value to long")
      else
        let buf := store_hex st.ctrl.digest.value line 0 n
        let buf := zero_fill buf n (n - n)
        ret { st with ctrl := { st.ctrl with
                digest := { st.ctrl.digest with value := buf, valuelen := n } } } .OK

/-! ## Passphrases -/

/-- The function `plus_to_blank`: every `+` of the string becomes a blank, up
to the terminating NUL. -/
def plus_to_blank : List Char → List Char
  | [] => []
  | c :: s =>
    if c = NUL then c :: s
    else (if c = '+' then ' ' else c) :: plus_to_blank s

/-- The loops `for (p=line; *p == ' '; p++);` and `while (*p == ' ') p++;`. -/
def skip_blanks (p : List Char) : List Char := p.dropWhile (fun c => c == ' ')

/-- The call `strchr (s, ' ')`: the string from its first blank on, `none`
(NULL) when the string ends without one. -/
def strchr_blank (s : List Char) : Option (List Char) :=
  let r := s.dropWhile (fun c => c != ' ' && c != NUL)
  if deref r == ' ' then some r else none

/-- The string at `s` once the blank found by `strchr (s, ' ')`, if any, has
been overwritten with NUL: the bytes of `s` before its first blank or NUL. -/
def field (s : List Char) : List Char := s.takeWhile (fun c => c != ' ' && c != NUL)

/-- The four pointers `cacheid`, `errtext`, `prompt` and `desc` of
`cmd_get_passphrase`, each given as the string it points to after parsing;
`none` is a NULL pointer. -/
structure passphrase_args where
  cacheid : List Char
  errtext : Option (List Char)
  prompt : Option (List Char)
  desc : Option (List Char)
  deriving DecidableEq, Repr

/-- The block "parse the stuff" of `cmd_get_passphrase`. -/
def parse_passphrase_args (line : List Char) : passphrase_args :=
  let cacheid := skip_blanks line
  match strchr_blank cacheid with
  | none => { cacheid := field cacheid, errtext := none, prompt := none, desc := none }
  | some p =>
    let errtext := skip_blanks (p.drop 1)
    match strchr_blank errtext with
    | none =>
      { cacheid := field cacheid, errtext := some (field errtext), prompt := none,
        desc := none }
    | some p =>
      let prompt := skip_blanks (p.drop 1)
      match strchr_blank prompt with
      | none =>
        { cacheid := field cacheid, errtext := some (field errtext),
          prompt := some (field prompt), desc := none }
      | some p =>
        let desc := skip_blanks (p.drop 1)
        { cacheid := field cacheid, errtext := some (field errtext),
          prompt := some (field prompt), desc := some (field desc) }

/-- The statement `if (!strcmp (s, "X")) s = NULL;`. -/
def null_if_X (s : Option (List Char)) : Option (List Char) :=
  if s = some "X".toList then none else s

/-- The statement `if (s) plus_to_blank (s);`. -/
def plus_to_blank_opt (s : Option (List Char)) : Option (List Char) :=
  s.map plus_to_blank

/-- The state after a call to a collaborator has been logged. -/
def log_call (st : AgentState) (c : Call) : AgentState :=
  { st with calls := st.calls ++ [c] }

/-- The handler `cmd_get_passphrase` (GET_PASSPHRASE). -/
def cmd_get_passphrase (env : Env) (st : AgentState) (line : List Char) : Result :=
  let a := parse_passphrase_args line
  if a.cacheid.isEmpty || decide (a.cacheid.length > 50) then
    set_error st .Parameter_Error (some "invalid length of cacheID")
  else if a.desc.isNone then
    set_error st .Parameter_Error (some "no description given")
  else
    let cacheid := null_if_X (some a.cacheid)
    let errtext := null_if_X a.errtext
    let prompt := null_if_X a.prompt
    let desc := null_if_X a.desc
    let pw := match cacheid with
      | some key => env.agent_get_cache st.calls key
      | none => none
    let st := match cacheid with
      | some key => log_call st (.agent_get_cache key)
      | none => st
    match pw with
    | some pw =>
      let st := log_call st .assuan_begin_confidential
      let rc := env.assuan_set_okay_line st.calls pw
      let st := log_call st (.assuan_set_okay_line pw)
      ret st (env.map_to_assuan_status rc)
    | none =>
      let errtext := plus_to_blank_opt errtext
      let prompt := plus_to_blank_opt prompt
      let desc := plus_to_blank_opt desc
      let r := env.agent_get_passphrase st.calls desc prompt errtext
      let st := log_call st (.agent_get_passphrase desc prompt errtext)
      if r.1 = 0 then
        let st := match cacheid with
          | some key => log_call st (.agent_put_cache key (some r.2) 0)
          | none => st
        let st := log_call st .assuan_begin_confidential
        let rc := env.assuan_set_okay_line st.calls r.2
        let st := log_call st (.assuan_set_okay_line r.2)
        ret st (env.map_to_assuan_status rc)
      else ret st (env.map_to_assuan_status r.1)

/-- The handler `cmd_clear_passphrase` (CLEAR_PASSPHRASE). -/
def cmd_clear_passphrase (_env : Env) (st : AgentState) (line : List Char) : Result :=
  let cacheid := field (skip_blanks line)
  if cacheid.isEmpty || decide (cacheid.length > 50) then
    set_error st .Parameter_Error (some "invalid length of cacheID")
  else
    ret (log_call st (.agent_put_cache cacheid none 0)) .OK

/-! ## Options -/

/-- The statements `if (opt.x) free (opt.x); opt.x = strdup (value);`: the new
content of the option member, `none` (NULL) when `strdup` fails. -/
def strdup (env : Env) (value : String) : Option String :=
  if env.strdup_ok value then some value else none

/-- The tail `if (!opt.x) return ASSUAN_Out_Of_Core;` of a branch of
`option_handler`, followed by its final `return 0;`. -/
def option_result (st : AgentState) (stored : Option String) : Result :=
  if stored.isNone then ret st .Out_Of_Core else ret st .OK

/-- The function `option_handler`. -/
def option_handler (env : Env) (st : AgentState) (key value : String) : Result :=
  if key = "display" then
    option_result { st with opt := { st.opt with display := strdup env value } }
      (strdup env value)
  else if key = "ttyname" then
    option_result { st with opt := { st.opt with ttyname := strdup env value } }
      (strdup env value)
  else if key = "ttytype" then
    option_result { st with opt := { st.opt with ttytype := strdup env value } }
      (strdup env value)
  else if key = "lc-ctype" then
    option_result { st with opt := { st.opt with lc_ctype := strdup env value } }
      (strdup env value)
  else if key = "lc-messages" then
    option_result { st with opt := { st.opt with lc_messages := strdup env value } }
      (strdup env value)
  else ret st .Invalid_Option

/-! ## Options on a command line -/

/-- The C library's `strstr (haystack, needle)` searching from the offset `k`
of the haystack on: the offset of the first occurrence of the needle, `none`
for a NULL result.  The needle is given by its content (no NUL); the search
of the haystack ends at a NUL. -/
def strstr_from (needle : List Char) : List Char → Nat → Option Nat
  | [], k => if needle.isEmpty then some k else none
  | c :: s, k =>
    if needle.isPrefixOf (c :: s) then some k
    else if c = NUL then none
    else strstr_from needle s (k + 1)

/-- The C library's `strstr (haystack, needle)` as the offset of the first
occurrence. -/
def strstr (haystack needle : List Char) : Option Nat := strstr_from needle haystack 0

/-- The function `has_option (line, name)`: with `s` the first occurrence of
`name` in `line` at offset `k`, the test
`s && (s == line || spacep (s-1)) && (!s[n] || spacep (s+n))`. -/
def has_option (line name : List Char) : Bool :=
  let n := name.length
  match strstr line name with
  | none => false
  | some k =>
    (k == 0 || spacep (deref (line.drop (k - 1))))
    && (deref (line.drop (k + n)) == NUL || spacep (deref (line.drop (k + n))))

/-- The handler `cmd_learn` (LEARN). -/
def cmd_learn (env : Env) (st : AgentState) (line : List Char) : Result :=
  let send := has_option line "--send".toList
  let rc := env.agent_handle_learn st.calls send
  ret (log_call st (.agent_handle_learn send)) (env.map_to_assuan_status rc)

/-! ## The command table -/

/-- The handler functions named in the table of `register_commands`. -/
inductive handler_t where
  | cmd_istrusted | cmd_havekey | cmd_sigkey | cmd_sethash | cmd_pksign
  | cmd_pkdecrypt | cmd_genkey | cmd_get_passphrase | cmd_clear_passphrase
  | cmd_listtrusted | cmd_marktrusted | cmd_learn
  deriving DecidableEq, Repr

/-- The named entries of the static table in `register_commands`. -/
def table : List (String × handler_t) :=
  [ ("ISTRUSTED", .cmd_istrusted),
    ("HAVEKEY", .cmd_havekey),
    ("SIGKEY", .cmd_sigkey),
    ("SETKEY", .cmd_sigkey),
    ("SETHASH", .cmd_sethash),
    ("PKSIGN", .cmd_pksign),
    ("PKDECRYPT", .cmd_pkdecrypt),
    ("GENKEY", .cmd_genkey),
    ("GET_PASSPHRASE", .cmd_get_passphrase),
    ("CLEAR_PASSPHRASE", .cmd_clear_passphrase),
    ("LISTTRUSTED", .cmd_listtrusted),
    ("MARKTRUSTED", .cmd_marktrusted),
    ("LEARN", .cmd_learn) ]

/-- The handler registered for a verb. -/
def registered (verb : String) : Option handler_t :=
  (table.find? (fun e => e.1 == verb)).map (fun e => e.2)

/-! ## Notions used to state the properties of the handlers -/

/-- The value of a hex digit of either letter case, by table. -/
def hex_digit_value (c : Char) : Nat :=
  match c with
  | '0' => 0 | '1' => 1 | '2' => 2 | '3' => 3 | '4' => 4
  | '5' => 5 | '6' => 6 | '7' => 7 | '8' => 8 | '9' => 9
  | 'a' => 10 | 'b' => 11 | 'c' => 12 | 'd' => 13 | 'e' => 14 | 'f' => 15
  | 'A' => 10 | 'B' => 11 | 'C' => 12 | 'D' => 13 | 'E' => 14 | 'F' => 15
  | _ => 0

/-- The `len` bytes a hex string encodes: byte `i` is the value of the hex
digits `2i` and `2i+1`. -/
def decode_hex (g : List Char) (len : Nat) : List Nat :=
  (List.range len).map
    (fun i => hex_digit_value (g.getD (2 * i) NUL) * 16 + hex_digit_value (g.getD (2 * i + 1) NUL))

/-- The algorithm number `a` of a SETHASH line `a h`. -/
def sethash_algo (line : List Char) : Int := to_int (strtoul line).1

/-- The hash argument `h` of a SETHASH line `a h`: what follows the algorithm
number and the blanks after it. -/
def sethash_hash (line : List Char) : List Char := (strtoul line).2.dropWhile spacep

/-- A hash argument `h` is well formed when it is a hex string of even length
with `len(h)/2` one of 16, 20, 24, 32. -/
def good_hash (h : List Char) : Prop :=
  (∀ c ∈ h, hexdigitp c = true) ∧ h.length % 2 = 0 ∧ h.length / 2 ∈ [16, 20, 24, 32]

/-- The invariant of the pending digest: its length is one of 0, 16, 20, 24,
32 and at most `MAX_DIGEST_LEN`. -/
def digest_inv (env : Env) (S : AgentState) : Prop :=
  S.ctrl.digest.valuelen ∈ [0, 16, 20, 24, 32] ∧ S.ctrl.digest.valuelen ≤ env.MAX_DIGEST_LEN

/-- The session state right after `start_command_handler` has zeroed the
session context, with no option set and no collaborator called yet. -/
def zero_state (env : Env) : AgentState :=
  { ctrl := zero_ctrl env
    opt := { display := none, ttyname := none, ttytype := none,
             lc_ctype := none, lc_messages := none }
    calls := [] }

/-- Modelled from the spec: the passphrase cache of the missing cache module,
as the value it holds under `key` after the logged calls.  A put with data
stores the data under its key until the daemon exits, a put without data
invalidates the key, and nothing else changes the cache. -/
def cache_get (calls : List Call) (key : List Char) : Option (List Char) :=
  calls.foldl
    (fun held c =>
      match c with
      | .agent_put_cache k data _ => if k = key then data else held
      | _ => held)
    none

/-- The lookups of an environment are those of the passphrase cache of the
spec. -/
def cache_as_specified (env : Env) : Prop :=
  ∀ calls key, env.agent_get_cache calls key = cache_get calls key

/-- The space-separated tokens of a line, with `cur` the token being read. -/
def tokens_from : List Char → List Char → List (List Char)
  | [], cur => if cur.isEmpty then [] else [cur]
  | c :: s, cur =>
    if c = ' ' then
      (if cur.isEmpty then tokens_from s [] else cur :: tokens_from s [])
    else tokens_from s (cur ++ [c])

/-- The space-separated tokens of a line. -/
def tokens (line : List Char) : List (List Char) := tokens_from line []

/-- A `+` stands for a blank; every other character stands for itself. -/
def blank_for_plus (c : Char) : Char := if c = '+' then ' ' else c

/-- What the ask service is to receive for a token of a GET_PASSPHRASE line:
nothing when the token is `X`, else the token with a blank for every `+`. -/
def ask_field (tok : List Char) : Option (List Char) :=
  if tok = "X".toList then none else some (tok.map blank_for_plus)

/-- The call log when `cmd_get_passphrase` turns to the ask service: the
session log, followed by the cache lookup unless the cacheid is `X`. -/
def calls_before_ask (S : AgentState) (cacheid : List Char) : List Call :=
  if cacheid = "X".toList then S.calls else S.calls ++ [.agent_get_cache cacheid]

/-- Whether `name` occurs in `line` at the offset `k` bounded by white space:
the occurrence starts at the beginning of the line or right after a space or
tab, and ends at the end of the line or right before a space or tab. -/
def bounded_at (line name : List Char) (k : Nat) : Bool :=
  ((line.drop k).take name.length == name)
  && (k == 0 || line.getD (k - 1) NUL == ' ' || line.getD (k - 1) NUL == '\t')
  && (k + name.length == line.length
      || line.getD (k + name.length) NUL == ' ' || line.getD (k + name.length) NUL == '\t')

/-- Whether `line` contains an occurrence of `name` that is bounded by white
space. -/
def bounded_occurrence (line name : List Char) : Bool :=
  (List.range (line.length + 1)).any (bounded_at line name)

/-- The decimal digits that `strtoul` converts: those that follow the leading
white space and an optional sign. -/
def leading_digits (line : List Char) : List Char :=
  let s1 := line.dropWhile isspace
  let s2 := if deref s1 == '-' || deref s1 == '+' then s1.drop 1 else s1
  s2.takeWhile digitp

/-- The option keys that `option_handler` recognises. -/
def option_keys : List String := ["display", "ttyname", "ttytype", "lc-ctype", "lc-messages"]

/-- The value stored for an option key; `none` when the option is not set or
the key is not one of `option_keys`. -/
def option_value (o : opt_s) (key : String) : Option String :=
  if key = "display" then o.display
  else if key = "ttyname" then o.ttyname
  else if key = "ttytype" then o.ttytype
  else if key = "lc-ctype" then o.lc_ctype
  else if key = "lc-messages" then o.lc_messages
  else none

/-- A sample environment: `MAX_DIGEST_LEN` is 24, digest algorithm 2 is the
only supported one, every fingerprint is trusted and every key available, the
passphrase cache is the one of the spec, the passphrase prompt answers
`68756e74657232`, and no allocation fails. -/
def sample_env : Env where
  MAX_DIGEST_LEN := 24
  gcry_md_test_algo := fun a => if a = 2 then 0 else 1
  agent_istrusted := fun _ _ => 0
  agent_marktrusted := fun _ _ _ _ => 0
  agent_key_available := fun _ _ => 0
  map_to_assuan_status := fun c => if c = 0 then .OK else .Other c
  agent_get_cache := cache_get
  agent_get_passphrase := fun _ _ _ _ => (0, "68756e74657232".toList)
  assuan_set_okay_line := fun _ _ => 0
  strdup_ok := fun _ => true
  agent_handle_learn := fun _ _ => 0

/-- A sample environment like `sample_env` in which `strdup` fails. -/
def no_memory_env : Env := { sample_env with strdup_ok := fun _ => false }

end Command

namespace Frontend

/-! ## Data model of the keyboxd frontend -/

/-- The database types `enum database_types` of a table slot;
`DB_TYPE_NONE` (value 0) marks an empty slot. -/
inductive database_types where
  | DB_TYPE_NONE
  | DB_TYPE_CACHE
  | DB_TYPE_KBX
  deriving DecidableEq, Repr

/-- One slot `struct db_desc_s` of the table `databases`; the table itself is a
list whose length is `no_of_databases`. -/
structure db_desc_s where
  db_type : database_types
  backend_handle : Nat
  deriving DecidableEq, Repr

/-- The error codes of `gpg_error_t` that the frontend produces or tests for;
`GPG_ERR_OTHER` stands for every other code.  The error source bits are not
represented, so `gpg_err_code` is the identity. -/
inductive gpg_error_t where
  | GPG_ERR_NO_ERROR
  | GPG_ERR_EOF
  | GPG_ERR_NOT_FOUND
  | GPG_ERR_CONFLICT
  | GPG_ERR_NOT_INITIALIZED
  | GPG_ERR_INTERNAL
  | GPG_ERR_NOT_SUPPORTED
  | GPG_ERR_BUG
  | GPG_ERR_OTHER (code : Nat)
  deriving DecidableEq, Repr

/-- An opaque search descriptor `KEYDB_SEARCH_DESC`; an array `(desc, ndesc)`
is a list of them. -/
abbrev KEYDB_SEARCH_DESC := Nat

/-- Modelled from the spec: the request object `struct db_request_s` of the
missing backend header, with the fields the frontend and the cache use. -/
structure db_request_s where
  any_search : Bool
  any_found : Bool
  next_dbidx : Nat
  last_cached_valid : Bool
  last_cached_final : Bool
  last_cached_ubid : List Nat
  deriving DecidableEq, Repr

/-- Modelled from the spec: the store modes `enum kbxd_store_modes` of the
missing frontend header (any, insert only, update only). -/
inductive kbxd_store_modes where
  | KBXD_STORE_AUTO
  | KBXD_STORE_INSERT
  | KBXD_STORE_UPDATE
  deriving DecidableEq, Repr

/-- A call from the frontend into a backend. -/
inductive be_call where
  | be_cache_search (handle : Nat) (desc : List KEYDB_SEARCH_DESC)
  | be_cache_not_found (desc : List KEYDB_SEARCH_DESC)
  | be_cache_mark_final
  | be_kbx_search (handle : Nat) (desc : Option (List KEYDB_SEARCH_DESC))
  | be_kbx_seek (handle : Nat) (ubid : List Nat)
  | be_kbx_insert (handle : Nat) (pktype : Nat) (blob : List Nat)
  | be_kbx_update (handle : Nat) (pktype : Nat) (blob : List Nat)
  | be_kbx_delete (handle : Nat)
  deriving DecidableEq, Repr

/-- What a backend call leaves behind: its return value (ignored for the
functions returning void) and the resume hint it leaves in the request
object. -/
structure be_reply where
  err : gpg_error_t
  last_cached_valid : Bool
  last_cached_final : Bool
  last_cached_ubid : List Nat
  deriving DecidableEq, Repr

/-- A logged backend call with its reply.  The field `slot` is the index
`dbidx` of the table slot whose backend is called (`none` for the two calls
into the cache that are not bound to a slot); it is recorded for the log only
and is not passed to the backend. -/
structure be_event where
  slot : Option Nat
  call : be_call
  reply : be_reply
  deriving DecidableEq, Repr

/-- The collaborators of `frontend.c`.  The backends answer a call knowing the
log of all earlier calls and the request object they are handed. -/
structure Env where
  backend : List be_event → db_request_s → be_call → be_reply
  /-- The result `(err, pktype, ubid)` of the probe `be_ubid_from_blob`. -/
  be_ubid_from_blob : List Nat → gpg_error_t × Nat × List Nat
  /-- Whether `xtrycalloc` of a request object succeeds. -/
  xtrycalloc_ok : Bool
  /-- The value of `gpg_error_from_syserror ()` after a failed allocation. -/
  syserror : gpg_error_t

/-- The session context `ctrl` as far as the frontend uses it: the request
object `opgp_req` (`none` is NULL) and the log of backend calls so far. -/
structure ctrl_s where
  opgp_req : Option db_request_s
  log : List be_event
  deriving DecidableEq, Repr

/-- The state a frontend function works on once the request object exists. -/
structure session where
  request : db_request_s
  log : List be_event
  deriving DecidableEq, Repr

/-- A request object fresh from `xtrycalloc (1, sizeof *ctrl->opgp_req)`. -/
def calloc_request : db_request_s :=
  { any_search := false, any_found := false, next_dbidx := 0,
    last_cached_valid := false, last_cached_final := false, last_cached_ubid := [] }

/-- The block "Allocate a handle object if none exists for this context":
the session to work on, or `none` when the allocation fails. -/
def get_request (env : Env) (ctrl : ctrl_s) : Option session :=
  match ctrl.opgp_req with
  | some request => some { request := request, log := ctrl.log }
  | none => if env.xtrycalloc_ok then some { request := calloc_request, log := ctrl.log }
            else none

/-- The session context holding the request object and log of a session. -/
def to_ctrl (st : session) : ctrl_s :=
  { opgp_req := some st.request, log := st.log }

/-- The request object after a backend call has left its hint in it. -/
def store_hint (request : db_request_s) (r : be_reply) : db_request_s :=
  { request with
    last_cached_valid := r.last_cached_valid
    last_cached_final := r.last_cached_final
    last_cached_ubid := r.last_cached_ubid }

/-- One backend call: ask the backend, log the call with its reply and store
the hint the backend leaves in the request object. -/
def invoke (env : Env) (st : session) (slot : Option Nat) (c : be_call) :
    gpg_error_t × session :=
  let r := env.backend st.log st.request c
  (r.err,
   { request := store_hint st.request r
     log := st.log ++ [{ slot := slot, call := c, reply := r }] })

/-! ## Searching -/

/-- The reset loop of `kbxd_search` over the table slots from index `dbidx`
on: the first error of a backend reset ends it. -/
def reset_loop (env : Env) : List db_desc_s → Nat → session → gpg_error_t × session
  | [], _, st => (.GPG_ERR_NO_ERROR, st)
  | db :: rest, dbidx, st =>
    match db.db_type with
    | .DB_TYPE_NONE => reset_loop env rest (dbidx + 1) st
    | .DB_TYPE_CACHE => reset_loop env rest (dbidx + 1) st
    | .DB_TYPE_KBX =>
      let r := invoke env st (some dbidx) (.be_kbx_search db.backend_handle none)
      if r.1 ≠ .GPG_ERR_NO_ERROR then r else reset_loop env rest (dbidx + 1) r.2

/-- The switch "Divert to the backend for the actual search" of
`kbxd_search` for the slot `db` at index `dbidx`. -/
def divert (env : Env) (desc : List KEYDB_SEARCH_DESC) (db : db_desc_s) (dbidx : Nat)
    (start_at_ubid : Bool) (st : session) : gpg_error_t × session :=
  match db.db_type with
  | .DB_TYPE_NONE => (.GPG_ERR_INTERNAL, st)
  | .DB_TYPE_CACHE => invoke env st (some dbidx) (.be_cache_search db.backend_handle desc)
  | .DB_TYPE_KBX =>
    let r1 := if start_at_ubid then
                invoke env st (some dbidx)
                  (.be_kbx_seek db.backend_handle st.request.last_cached_ubid)
              else (.GPG_ERR_NO_ERROR, st)
    if start_at_ubid && r1.1 ≠ .GPG_ERR_NO_ERROR then r1
    else
      let r2 := invoke env r1.2 (some dbidx) (.be_kbx_search db.backend_handle (some desc))
      if start_at_ubid && r2.1 = .GPG_ERR_EOF then
        (r2.1, (invoke env r2.2 none .be_cache_mark_final).2)
      else r2

/-- The loop of `kbxd_search` from the label `next_db` on.  The first argument
is the part of the table from index `dbidx` on, so it is empty exactly when
`dbidx < no_of_databases` fails; an empty slot at its head is one step of the
for loop that moves to the next non-empty slot. -/
def next_db (env : Env) (desc : List KEYDB_SEARCH_DESC) :
    List db_desc_s → Nat → Bool → session → gpg_error_t × session
  | [], dbidx, _, st =>
    let st := { st with request := { st.request with next_dbidx := dbidx } }
    let r := invoke env st none (.be_cache_not_found desc)
    (.GPG_ERR_NOT_FOUND, r.2)
  | db :: rest, dbidx, start_at_ubid, st =>
    if db.db_type = .DB_TYPE_NONE then next_db env desc rest (dbidx + 1) start_at_ubid st
    else
      let st := { st with request := { st.request with next_dbidx := dbidx } }
      let r := divert env desc db dbidx start_at_ubid st
      let err := r.1
      let st := { r.2 with request := { r.2.request with any_search := true } }
      if err = .GPG_ERR_NO_ERROR then
        (err, { st with request := { st.request with any_found := true } })
      else if err = .GPG_ERR_EOF then
        if db.db_type = .DB_TYPE_CACHE && st.request.last_cached_valid then
          if st.request.last_cached_final then (err, st)
          else
            next_db env desc rest (dbidx + 1) true
              { st with request := { st.request with next_dbidx := dbidx + 1 } }
        else
          next_db env desc rest (dbidx + 1) false
            { st with request := { st.request with next_dbidx := dbidx + 1 } }
      else (err, st)

/-- The assignments `any_search = 0`, `any_found = 0` and `next_dbidx = 0` that
follow the reset loop of `kbxd_search`. -/
def reset_cursor (request : db_request_s) : db_request_s :=
  { request with any_search := false, any_found := false, next_dbidx := 0 }

/-- The part of `kbxd_search` from the label `next_db` to its return: the
scan starts at the slot `request->next_dbidx` with `start_at_ubid` clear. -/
def scan (env : Env) (databases : List db_desc_s) (desc : List KEYDB_SEARCH_DESC)
    (st : session) : gpg_error_t × ctrl_s :=
  let r := next_db env desc (databases.drop st.request.next_dbidx)
             st.request.next_dbidx false st
  (r.1, to_ctrl r.2)

/-- The function `kbxd_search (ctrl, desc, ndesc, reset)`; `desc = none` is a
NULL descriptor array. -/
def kbxd_search (env : Env) (databases : List db_desc_s) (ctrl : ctrl_s)
    (desc : Option (List KEYDB_SEARCH_DESC)) (reset : Bool) : gpg_error_t × ctrl_s :=
  match get_request env ctrl with
  | none => (env.syserror, ctrl)
  | some st =>
    if desc.isNone || reset then
      let r := reset_loop env databases 0 st
      if r.1 ≠ .GPG_ERR_NO_ERROR then (r.1, to_ctrl r.2)
      else
        let st := { r.2 with request := reset_cursor r.2.request }
        match desc with
        | none => (.GPG_ERR_NO_ERROR, to_ctrl st)
        | some d => scan env databases d st
    else
      match desc with
      | none => (.GPG_ERR_NO_ERROR, to_ctrl st)
      | some d => scan env databases d st

/-! ## The search loop, pass by pass -/

/-- The for loop at the label `next_db`,
`for (dbidx = request->next_dbidx; dbidx < no_of_databases
&& !databases[dbidx].db_type; dbidx++);`, as the value of `dbidx` after at
most `count` iterations. -/
def skip_empty (databases : List db_desc_s) : Nat → Nat → Nat
  | 0, dbidx => dbidx
  | count + 1, dbidx =>
    match databases[dbidx]? with
    | some db =>
      if db.db_type = .DB_TYPE_NONE then skip_empty databases count (dbidx + 1) else dbidx
    | none => dbidx

/-- How one pass through the code after the label `next_db` ends: with
`goto next_db` or at the label `leave`. -/
inductive pass_result where
  | goto_next_db (start_at_ubid : Bool) (st : session)
  | leave (err : gpg_error_t) (st : session)

/-- One pass of `kbxd_search` from the label `next_db` to the next
`goto next_db` or to `leave`, on the whole table and with the cursor read from
`request->next_dbidx`. -/
def next_db_pass (env : Env) (databases : List db_desc_s) (desc : List KEYDB_SEARCH_DESC)
    (start_at_ubid : Bool) (st : session) : pass_result :=
  let dbidx := skip_empty databases (databases.length - st.request.next_dbidx)
    st.request.next_dbidx
  let st := { st with request := { st.request with next_dbidx := dbidx } }
  match databases[dbidx]? with
  | none => .leave .GPG_ERR_NOT_FOUND (invoke env st none (.be_cache_not_found desc)).2
  | some db =>
    let r := divert env desc db dbidx start_at_ubid st
    let err := r.1
    let st := { r.2 with request := { r.2.request with any_search := true } }
    if err = .GPG_ERR_NO_ERROR then
      .leave err { st with request := { st.request with any_found := true } }
    else if err = .GPG_ERR_EOF then
      if db.db_type = .DB_TYPE_CACHE && st.request.last_cached_valid then
        if st.request.last_cached_final then .leave err st
        else
          .goto_next_db true
            { st with request := { st.request with
                next_dbidx := st.request.next_dbidx + 1 } }
      else
        .goto_next_db false
          { st with request := { st.request with next_dbidx := st.request.next_dbidx + 1 } }
    else .leave err st

/-- The loop of `kbxd_search` from the label `next_db` on, run pass by pass
for at most `fuel` passes; `none` when the passes are used up before the loop
has left. -/
def next_db_run (env : Env) (databases : List db_desc_s) (desc : List KEYDB_SEARCH_DESC) :
    Nat → Bool → session → Option (gpg_error_t × session)
  | 0, _, _ => none
  | fuel + 1, start_at_ubid, st =>
    match next_db_pass env databases desc start_at_ubid st with
    | .goto_next_db start st1 => next_db_run env databases desc fuel start st1
    | .leave err st1 => some (err, st1)

/-- The function `kbxd_search` with its loop run pass by pass for at most
`fuel` passes. -/
def kbxd_search_run (env : Env) (databases : List db_desc_s) (ctrl : ctrl_s)
    (desc : Option (List KEYDB_SEARCH_DESC)) (reset : Bool) (fuel : Nat) :
    Option (gpg_error_t × ctrl_s) :=
  match get_request env ctrl with
  | none => some (env.syserror, ctrl)
  | some st =>
    if desc.isNone || reset then
      let r := reset_loop env databases 0 st
      if r.1 ≠ .GPG_ERR_NO_ERROR then some (r.1, to_ctrl r.2)
      else
        let st := { r.2 with request := reset_cursor r.2.request }
        match desc with
        | none => some (.GPG_ERR_NO_ERROR, to_ctrl st)
        | some d =>
          (next_db_run env databases d fuel false st).map (fun r => (r.1, to_ctrl r.2))
    else
      match desc with
      | none => some (.GPG_ERR_NO_ERROR, to_ctrl st)
      | some d =>
        (next_db_run env databases d fuel false st).map (fun r => (r.1, to_ctrl r.2))

/-! ## Storing and deleting -/

/-- The loop "We force the use of the KBX backend" over the table slots from
index `dbidx` on: the index and the content of the first slot of type
`DB_TYPE_KBX`, or `none` when the loop runs off the table. -/
def first_kbx : List db_desc_s → Nat → Option (Nat × db_desc_s)
  | [], _ => none
  | db :: rest, dbidx =>
    if db.db_type = .DB_TYPE_KBX then some (dbidx, db) else first_kbx rest (dbidx + 1)

/-- The function `kbxd_store (ctrl, blob, bloblen, mode)`. -/
def kbxd_store (env : Env) (databases : List db_desc_s) (ctrl : ctrl_s)
    (blob : List Nat) (mode : kbxd_store_modes) : gpg_error_t × ctrl_s :=
  match get_request env ctrl with
  | none => (env.syserror, ctrl)
  | some st =>
    let probe := env.be_ubid_from_blob blob
    let pktype := probe.2.1
    let ubid := probe.2.2
    if probe.1 ≠ .GPG_ERR_NO_ERROR then (probe.1, to_ctrl st)
    else
      match first_kbx databases 0 with
      | none => (.GPG_ERR_NOT_INITIALIZED, to_ctrl st)
      | some (dbidx, db) =>
        let r := invoke env st (some dbidx) (.be_kbx_seek db.backend_handle ubid)
        if r.1 ≠ .GPG_ERR_NO_ERROR && r.1 ≠ .GPG_ERR_EOF then (r.1, to_ctrl r.2)
        else
          let insert := decide (r.1 = .GPG_ERR_EOF)
          if insert then
            if mode = .KBXD_STORE_UPDATE then (.GPG_ERR_CONFLICT, to_ctrl r.2)
            else
              let r := invoke env r.2 (some dbidx) (.be_kbx_insert db.backend_handle pktype blob)
              (r.1, to_ctrl r.2)
          else
            if mode = .KBXD_STORE_INSERT then (.GPG_ERR_CONFLICT, to_ctrl r.2)
            else
              let r := invoke env r.2 (some dbidx) (.be_kbx_update db.backend_handle pktype blob)
              (r.1, to_ctrl r.2)

/-- The function `kbxd_delete (ctrl, ubid)`. -/
def kbxd_delete (env : Env) (databases : List db_desc_s) (ctrl : ctrl_s)
    (ubid : List Nat) : gpg_error_t × ctrl_s :=
  match get_request env ctrl with
  | none => (env.syserror, ctrl)
  | some st =>
    match first_kbx databases 0 with
    | none => (.GPG_ERR_NOT_INITIALIZED, to_ctrl st)
    | some (dbidx, db) =>
      let r := invoke env st (some dbidx) (.be_kbx_seek db.backend_handle ubid)
      if r.1 = .GPG_ERR_NO_ERROR then
        let r := invoke env r.2 (some dbidx) (.be_kbx_delete db.backend_handle)
        (r.1, to_ctrl r.2)
      else if r.1 = .GPG_ERR_EOF then (.GPG_ERR_NOT_FOUND, to_ctrl r.2)
      else (r.1, to_ctrl r.2)


/-! ## Adding a resource -/

/-- A call from `kbxd_add_resource` into the backends. -/
inductive resource_call where
  | be_cache_initialize
  | be_cache_add_resource
  | be_kbx_add_resource (filename : List Char) (readonly : Bool)
  | be_generic_release_backend (handle : Nat)
  deriving DecidableEq, Repr

/-- The collaborators and constants of `kbxd_add_resource` that are defined
elsewhere.  A backend that adds a resource returns its error code and the
handle it stores through `&handle`; the handle 0 is NULL. -/
structure resource_env where
  DIRSEP_C : Char
  gnupg_homedir : List Char
  GNUPG_PUBLIC_KEYS_DIR : List Char
  /-- The file name `make_filename (part, ..., NULL)` builds from its parts. -/
  make_filename : List (List Char) → List Char
  be_cache_initialize : List resource_call → gpg_error_t
  be_cache_add_resource : List resource_call → gpg_error_t × Nat
  be_kbx_add_resource : List resource_call → List Char → Bool → gpg_error_t × Nat
  /-- Whether `xtrycalloc` of a table of the given number of slots succeeds. -/
  xtrycalloc_ok : Nat → Bool
  syserror : gpg_error_t

/-- The static table `databases` with the log of the calls made by
`kbxd_add_resource`.  The table is a list of `no_of_databases` slots; the
empty list is the state before the first allocation, in which `databases` is
NULL and `no_of_databases` is 0. -/
structure resource_state where
  databases : List db_desc_s
  calls : List resource_call
  deriving DecidableEq, Repr

/-- A table slot fresh from `xtrycalloc`: type `DB_TYPE_NONE`, handle NULL. -/
def empty_slot : db_desc_s := { db_type := .DB_TYPE_NONE, backend_handle := 0 }

/-- The state after a call of `kbxd_add_resource` has been logged. -/
def log_resource (st : resource_state) (c : resource_call) : resource_state :=
  { st with calls := st.calls ++ [c] }

/-- The exit at the label `leave` of `kbxd_add_resource`: on an error the
backend handle is released. -/
def add_leave (err : gpg_error_t) (handle : Nat) (st : resource_state) :
    gpg_error_t × resource_state :=
  if err ≠ .GPG_ERR_NO_ERROR then (err, log_resource st (.be_generic_release_backend handle))
  else (err, st)

/-- The assignments `databases[dbidx].db_type = db_type;` and
`databases[dbidx].backend_handle = handle;`. -/
def put_entry (databases : List db_desc_s) (dbidx : Nat) (db_type : database_types)
    (handle : Nat) : List db_desc_s :=
  databases.set dbidx { db_type := db_type, backend_handle := handle }

/-- The function `kbxd_add_resource (ctrl, filename_arg, readonly)`.  The
result is `none` when the table has to grow and the allocation of the larger
table fails: the code then tests `databases` instead of `newdb` and copies
the slots through the NULL pointer `newdb`. -/
def kbxd_add_resource (env : resource_env) (st : resource_state) (filename_arg : List Char)
    (readonly : Bool) : Option (gpg_error_t × resource_state) :=
  let is_cache := decide (filename_arg = "[cache]".toList)
  let filename :=
    if is_cache then filename_arg
    else if filename_arg.contains env.DIRSEP_C then env.make_filename [filename_arg]
    else env.make_filename [env.gnupg_homedir, env.GNUPG_PUBLIC_KEYS_DIR, filename_arg]
  let db_type : database_types := if is_cache then .DB_TYPE_CACHE else .DB_TYPE_NONE
  let first := decide (st.databases.length = 0) && decide (db_type = .DB_TYPE_NONE)
  let err :=
    if first then resource_env.be_cache_initialize env st.calls else .GPG_ERR_NO_ERROR
  let st1 := if first then log_resource st resource_call.be_cache_initialize else st
  if first && decide (err ≠ .GPG_ERR_NO_ERROR) then some (add_leave err 0 st1)
  else
    let n := filename.length
    if db_type = .DB_TYPE_NONE
        && !(decide (n > 4) && decide (filename.drop (n - 4) = ".kbx".toList)) then
      some (add_leave .GPG_ERR_NOT_SUPPORTED 0 st1)
    else
      let db_type : database_types :=
        if db_type = .DB_TYPE_NONE then .DB_TYPE_KBX else db_type
      let r : gpg_error_t × Nat × resource_state :=
        match db_type with
        | .DB_TYPE_NONE => (.GPG_ERR_BUG, 0, st1)
        | .DB_TYPE_CACHE =>
          ((env.be_cache_add_resource st1.calls).1, (env.be_cache_add_resource st1.calls).2,
           log_resource st1 .be_cache_add_resource)
        | .DB_TYPE_KBX =>
          ((env.be_kbx_add_resource st1.calls filename readonly).1,
           (env.be_kbx_add_resource st1.calls filename readonly).2,
           log_resource st1 (.be_kbx_add_resource filename readonly))
      let err := r.1
      let handle := r.2.1
      let st2 := r.2.2
      if err ≠ .GPG_ERR_NO_ERROR then some (add_leave err handle st2)
      else
        let no_of_databases := st2.databases.length
        let dbidx := st2.databases.findIdx (fun db => db.db_type == .DB_TYPE_NONE)
        if dbidx = no_of_databases then
          if no_of_databases = 0 then
            if env.xtrycalloc_ok 4 then
              let table := put_entry (List.replicate 4 empty_slot) 0 db_type handle
              some (add_leave .GPG_ERR_NO_ERROR 0 { st2 with databases := table })
            else some (add_leave env.syserror handle st2)
          else
            let size := no_of_databases + (if no_of_databases = 4 then 12 else 16)
            if env.xtrycalloc_ok size then
              let newdb := st2.databases ++ List.replicate (size - no_of_databases) empty_slot
              let table := put_entry newdb no_of_databases db_type handle
              some (add_leave .GPG_ERR_NO_ERROR 0 { st2 with databases := table })
            else none
        else
          let table := put_entry st2.databases dbidx db_type handle
          some (add_leave .GPG_ERR_NO_ERROR 0 { st2 with databases := table })
/-! ## Notions used to state the properties of the frontend -/

/-- The backend calls a frontend function has added to a log that was
`before` when it started. -/
def new_events (before : List be_event) (after : ctrl_s) : List be_event :=
  after.log.drop before.length

/-- Whether a call is `be_cache_not_found`, the negative-result mark. -/
def is_mark_not_found : be_call → Bool
  | .be_cache_not_found _ => true
  | _ => false

/-- A logged call went the way of a scan in which every backend reports eof:
a search with a descriptor returned eof, a seek succeeded or returned eof, and
a reset (a search without descriptor) succeeded. -/
def answers_eof (e : be_event) : Prop :=
  match e.call with
  | .be_cache_search _ _ => e.reply.err = .GPG_ERR_EOF
  | .be_kbx_search _ (some _) => e.reply.err = .GPG_ERR_EOF
  | .be_kbx_search _ none => e.reply.err = .GPG_ERR_NO_ERROR
  | .be_kbx_seek _ _ => e.reply.err = .GPG_ERR_NO_ERROR ∨ e.reply.err = .GPG_ERR_EOF
  | _ => True

/-- A cache lookup that left a valid hint marked final in the request. -/
def final_hint (e : be_event) : Prop :=
  match e.call with
  | .be_cache_search _ _ =>
    e.reply.last_cached_valid = true ∧ e.reply.last_cached_final = true
  | _ => False

instance (e : be_event) : Decidable (answers_eof e) := by
  unfold answers_eof
  split <;> infer_instance

instance (e : be_event) : Decidable (final_hint e) := by
  unfold final_hint
  split <;> infer_instance

/-- Whether a call is a search with a descriptor, in the cache or in a keybox
file. -/
def is_search : be_call → Bool
  | .be_cache_search _ _ => true
  | .be_kbx_search _ (some _) => true
  | _ => false

/-- Whether a call queries a backend during a scan: a search with a
descriptor or the seek that precedes one. -/
def is_query : be_call → Bool
  | .be_cache_search _ _ => true
  | .be_kbx_search _ (some _) => true
  | .be_kbx_seek _ _ => true
  | _ => false

/-- The cursor `next_dbidx` of a session; a session without request object
has not started a scan. -/
def cursor (ctrl : ctrl_s) : Nat :=
  match ctrl.opgp_req with
  | some request => request.next_dbidx
  | none => 0

/-- Successive searches without reset, one for each descriptor array. -/
def search_seq (env : Env) (databases : List db_desc_s) :
    ctrl_s → List (List KEYDB_SEARCH_DESC) → ctrl_s
  | ctrl, [] => ctrl
  | ctrl, d :: ds =>
    search_seq env databases (kbxd_search env databases ctrl (some d) false).2 ds

/-- The seek that `kbxd_store` issues for `blob` on the backend `db` of slot
`i`, with the reply it gets in the session `st`. -/
def store_seek (env : Env) (st : session) (i : Nat) (db : db_desc_s) (blob : List Nat) :
    be_event :=
  { slot := some i
    call := .be_kbx_seek db.backend_handle (env.be_ubid_from_blob blob).2.2
    reply := env.backend st.log st.request
      (.be_kbx_seek db.backend_handle (env.be_ubid_from_blob blob).2.2) }

/-- The identifier at which the next on-disk scan has to resume, judging by
the call made just before: `some U` when that call was a cache lookup that
returned eof and left a valid hint `U` not marked final, `none` otherwise. -/
def resume_ubid : Option be_event → Option (List Nat)
  | some c =>
    match c.call with
    | .be_cache_search _ _ =>
      if c.reply.err = .GPG_ERR_EOF ∧ c.reply.last_cached_valid = true
          ∧ c.reply.last_cached_final = false then
        some c.reply.last_cached_ubid
      else none
    | _ => none
  | none => none

/-- The backend handle and the slot of a call, when that call is a seek that
succeeded. -/
def seek_ok : Option be_event → Option (Nat × Option Nat)
  | some s =>
    match s.call with
    | .be_kbx_seek h _ => if s.reply.err = .GPG_ERR_NO_ERROR then some (h, s.slot) else none
    | _ => none
  | none => none

/-- Whether a call is a keybox search with a descriptor that returned eof. -/
def search_eof : Option be_event → Prop
  | some x =>
    match x.call with
    | .be_kbx_search _ (some _) => x.reply.err = .GPG_ERR_EOF
    | _ => False
  | none => False

instance (p : Option be_event) : Decidable (search_eof p) := by
  unfold search_eof
  split
  · split <;> infer_instance
  · infer_instance

/-- The rule a backend call `e` of a scan for `d` obeys, where `p1` is the call
made just before it and `p2` the one before that:
a seek is for the identifier `U` that the cache lookup just before left as a
hint to resume at, and is issued only then;
a keybox search with a descriptor is for `d`, and does not directly follow a
cache lookup that left such a hint;
the final mark follows a seek that succeeded and a search that returned eof;
right after a seek that succeeded comes the search in the same backend and
slot; and right after a seek that succeeded and a search that returned eof
comes the final mark. -/
def call_ok (d : List KEYDB_SEARCH_DESC) (p2 p1 : Option be_event) (e : be_event) : Prop :=
  (match e.call with
   | .be_kbx_seek _ U => resume_ubid p1 = some U
   | .be_kbx_search _ (some d') => d' = d ∧ resume_ubid p1 = none
   | .be_cache_mark_final => (seek_ok p2).isSome = true ∧ search_eof p1
   | _ => True) ∧
  (match seek_ok p1 with
   | some (h, slot) => e.call = .be_kbx_search h (some d) ∧ e.slot = slot
   | none => True) ∧
  ((seek_ok p2).isSome = true → search_eof p1 → e.call = .be_cache_mark_final)

instance (d : List KEYDB_SEARCH_DESC) (p2 p1 : Option be_event) (e : be_event) :
    Decidable (call_ok d p2 p1 e) := by
  unfold call_ok
  refine @instDecidableAnd _ _ ?_ (@instDecidableAnd _ _ ?_ ?_)
  · split <;> infer_instance
  · split <;> infer_instance
  · infer_instance

/-- The rule at the end of a scan: no seek that succeeded is left without its
search, and no seek and search that call for the final mark are left without
it. -/
def end_ok (p2 p1 : Option be_event) : Prop :=
  seek_ok p1 = none ∧ ¬ ((seek_ok p2).isSome = true ∧ search_eof p1)

/-- The resume protocol over the backend calls of a scan for `d`, given the
two calls `p2`, `p1` made before them (`none` where there is none): every call
obeys `call_ok` and the end obeys `end_ok`. -/
def resume_protocol (d : List KEYDB_SEARCH_DESC) :
    Option be_event → Option be_event → List be_event → Prop
  | p2, p1, [] => end_ok p2 p1
  | p2, p1, e :: rest => call_ok d p2 p1 e ∧ resume_protocol d p1 (some e) rest

instance (p2 p1 : Option be_event) : Decidable (end_ok p2 p1) := by
  unfold end_ok
  infer_instance

/-- Deciding the resume protocol on a given list of calls. -/
def resume_protocol_dec (d : List KEYDB_SEARCH_DESC) :
    (p2 p1 : Option be_event) → (evs : List be_event) → Decidable (resume_protocol d p2 p1 evs)
  | p2, p1, [] => inferInstanceAs (Decidable (end_ok p2 p1))
  | p2, p1, e :: rest =>
    @instDecidableAnd _ _ (inferInstanceAs (Decidable (call_ok d p2 p1 e)))
      (resume_protocol_dec d p1 (some e) rest)

instance (d : List KEYDB_SEARCH_DESC) (p2 p1 : Option be_event) (evs : List be_event) :
    Decidable (resume_protocol d p2 p1 evs) :=
  resume_protocol_dec d p2 p1 evs

/-- The table slots to which a list of backend calls dispatches a search with
a descriptor, in the order of the calls. -/
def search_slots (evs : List be_event) : List Nat :=
  evs.filterMap (fun e => if is_search e.call then e.slot else none)

/-- The backend call is the search that the dispatch switch of `kbxd_search`
issues for a slot of this type and handle. -/
def search_of (db : db_desc_s) (c : be_call) : Prop :=
  match c with
  | .be_cache_search h _ => db.db_type = .DB_TYPE_CACHE ∧ h = db.backend_handle
  | .be_kbx_search h (some _) => db.db_type = .DB_TYPE_KBX ∧ h = db.backend_handle
  | _ => False

/-- The order of dispatch in the backend calls `evs` of a scan over the table
part `dbs` that starts at slot `dbidx` and returns `err`: the searches go to
slots of strictly increasing index; each goes to a slot of the table part that
is not empty and is the search for the backend in that slot; and the scan
returns the Internal error only if a backend call has returned it. -/
def scan_order (dbs : List db_desc_s) (dbidx : Nat) (evs : List be_event)
    (err : gpg_error_t) : Prop :=
  (search_slots evs).Pairwise (fun i j => i < j) ∧
  (∀ e ∈ evs, is_search e.call = true →
    ∃ j db, e.slot = some j ∧ dbidx ≤ j ∧ dbs[j - dbidx]? = some db ∧
      db.db_type ≠ .DB_TYPE_NONE ∧ search_of db e.call) ∧
  (err = .GPG_ERR_INTERNAL → ∃ e ∈ evs, e.reply.err = .GPG_ERR_INTERNAL)

/-- A sample table: the cache, an empty slot, two keybox files and another
empty slot. -/
def sample_table : List db_desc_s :=
  [ { db_type := .DB_TYPE_CACHE, backend_handle := 0 },
    { db_type := .DB_TYPE_NONE, backend_handle := 0 },
    { db_type := .DB_TYPE_KBX, backend_handle := 1 },
    { db_type := .DB_TYPE_KBX, backend_handle := 2 },
    { db_type := .DB_TYPE_NONE, backend_handle := 0 } ]

/-- A sample environment in which the cache misses with a valid hint that is
marked final and every other call returns eof. -/
def final_env : Env where
  backend := fun _ request c =>
    match c with
    | .be_cache_search _ _ =>
      { err := .GPG_ERR_EOF, last_cached_valid := true, last_cached_final := true,
        last_cached_ubid := [7] }
    | _ =>
      { err := .GPG_ERR_EOF, last_cached_valid := request.last_cached_valid,
        last_cached_final := request.last_cached_final,
        last_cached_ubid := request.last_cached_ubid }
  be_ubid_from_blob := fun blob => (.GPG_ERR_NO_ERROR, 1, blob.take 20)
  xtrycalloc_ok := true
  syserror := .GPG_ERR_OTHER 12

/-- A sample environment in which the cache misses with a valid hint that is
not final, every seek succeeds and every other call returns eof. -/
def resume_env : Env where
  backend := fun _ request c =>
    match c with
    | .be_cache_search _ _ =>
      { err := .GPG_ERR_EOF, last_cached_valid := true, last_cached_final := false,
        last_cached_ubid := [7] }
    | .be_kbx_seek _ _ =>
      { err := .GPG_ERR_NO_ERROR, last_cached_valid := request.last_cached_valid,
        last_cached_final := request.last_cached_final,
        last_cached_ubid := request.last_cached_ubid }
    | _ =>
      { err := .GPG_ERR_EOF, last_cached_valid := request.last_cached_valid,
        last_cached_final := request.last_cached_final,
        last_cached_ubid := request.last_cached_ubid }
  be_ubid_from_blob := fun blob => (.GPG_ERR_NO_ERROR, 1, blob.take 20)
  xtrycalloc_ok := true
  syserror := .GPG_ERR_OTHER 12

/-- A sample environment in which every backend call succeeds and leaves no
hint. -/
def found_env : Env where
  backend := fun _ _ _ =>
    { err := .GPG_ERR_NO_ERROR, last_cached_valid := false, last_cached_final := false,
      last_cached_ubid := [] }
  be_ubid_from_blob := fun blob => (.GPG_ERR_NO_ERROR, 1, blob.take 20)
  xtrycalloc_ok := true
  syserror := .GPG_ERR_OTHER 12

/-- A sample environment like `resume_env` in which no request object can be
allocated. -/
def oom_env : Env := { resume_env with xtrycalloc_ok := false }

/-- A session context without request object and with an empty log. -/
def fresh_ctrl : ctrl_s := { opgp_req := none, log := [] }


/-- A sample environment for `kbxd_add_resource`: every call succeeds, the
cache backend gets the handle 1 and a keybox file the handle 2, and file names
are joined with a slash. -/
def sample_resource_env : resource_env where
  DIRSEP_C := '/'
  gnupg_homedir := "/home/u/.gnupg".toList
  GNUPG_PUBLIC_KEYS_DIR := "public-keys-v1.d".toList
  make_filename := fun parts => (parts.intersperse "/".toList).flatten
  be_cache_initialize := fun _ => .GPG_ERR_NO_ERROR
  be_cache_add_resource := fun _ => (.GPG_ERR_NO_ERROR, 1)
  be_kbx_add_resource := fun _ _ _ => (.GPG_ERR_NO_ERROR, 2)
  xtrycalloc_ok := fun _ => true
  syserror := .GPG_ERR_OTHER 12

/-- The table before the first call of `kbxd_add_resource`. -/
def no_resources : resource_state := { databases := [], calls := [] }

end Frontend

namespace Command

/-! ## Lemmas on hex digits and the parsing loops -/

theorem hexdigitp_mem (c : Char) (h : hexdigitp c = true) :
    c ∈ "0123456789ABCDEFabcdef".toList := by
  have hc : c = Char.ofNat c.toNat := (Char.ofNat_toNat c).symm
  have hb : (48 ≤ c.toNat ∧ c.toNat ≤ 57) ∨ (65 ≤ c.toNat ∧ c.toNat ≤ 70)
      ∨ (97 ≤ c.toNat ∧ c.toNat ≤ 102) := by
    simp only [hexdigitp, digitp, Bool.or_eq_true, Bool.and_eq_true, decide_eq_true_eq] at h
    have e0 : '0'.toNat = 48 := by decide
    have e9 : '9'.toNat = 57 := by decide
    have eA : 'A'.toNat = 65 := by decide
    have eF : 'F'.toNat = 70 := by decide
    have ea : 'a'.toNat = 97 := by decide
    have ef : 'f'.toNat = 102 := by decide
    rw [e0, e9, eA, eF, ea, ef] at h
    tauto
  rcases hb with ⟨h1, h2⟩ | ⟨h1, h2⟩ | ⟨h1, h2⟩ <;>
    (interval_cases hn : c.toNat <;> (rw [hc]; decide))

/-- A property that holds for the 22 hex digit characters holds for every
character accepted by `hexdigitp`. -/
theorem hexdigitp_forall (P : Char → Prop)
    (hP : ∀ c ∈ "0123456789ABCDEFabcdef".toList, P c) (c : Char)
    (h : hexdigitp c = true) : P c :=
  hP c (hexdigitp_mem c h)

theorem xtoi_1_eq (c : Char) (h : hexdigitp c = true) : xtoi_1 c = hex_digit_value c :=
  hexdigitp_forall (fun c => xtoi_1 c = hex_digit_value c) (by decide) c h

theorem hexdigitp_ne_NUL (c : Char) (h : hexdigitp c = true) : c ≠ NUL :=
  hexdigitp_forall (fun c => c ≠ NUL) (by decide) c h

theorem scan_hex_n_all (g : List Char) (h : ∀ c ∈ g, hexdigitp c = true) :
    scan_hex_n g = g.length := by
  unfold scan_hex_n
  rw [List.takeWhile_eq_self_iff.mpr h]

theorem scan_hex_p_all (g : List Char) (h : ∀ c ∈ g, hexdigitp c = true) :
    scan_hex_p g = [] := by
  unfold scan_hex_p
  exact List.dropWhile_eq_nil_iff.mpr h

theorem store_hex_length (count : Nat) : ∀ (buf : List Nat) (p : List Char) (n : Nat),
    (store_hex buf p n count).length = buf.length := by
  induction count with
  | zero => intro buf p n; rfl
  | succ k ih => intro buf p n; simp [store_hex, ih]

theorem store_hex_getElem? (count : Nat) : ∀ (buf : List Nat) (p : List Char) (n j : Nat),
    (store_hex buf p n count)[j]? =
      if n ≤ j ∧ j < n + count ∧ j < buf.length then some (xtoi_2 (p.drop (2 * (j - n))))
      else buf[j]? := by
  induction count with
  | zero =>
    intro buf p n j
    have : ¬ (n ≤ j ∧ j < n + 0 ∧ j < buf.length) := by omega
    rw [store_hex, if_neg this]
  | succ k ih =>
    intro buf p n j
    rw [store_hex, ih]
    by_cases h1 : n + 1 ≤ j ∧ j < n + 1 + k ∧ j < (buf.set n (xtoi_2 p)).length
    · rw [if_pos h1]
      have h2 : n ≤ j ∧ j < n + (k + 1) ∧ j < buf.length := by
        simp only [List.length_set] at h1; omega
      rw [if_pos h2, List.drop_drop]
      have : 2 + 2 * (j - (n + 1)) = 2 * (j - n) := by omega
      rw [this]
    · rw [if_neg h1, List.getElem?_set]
      simp only [List.length_set] at h1
      by_cases h3 : n = j
      · subst h3
        by_cases h4 : n < buf.length
        · have h2 : n ≤ n ∧ n < n + (k + 1) ∧ n < buf.length := by omega
          simp [h4, h2]
        · have h2 : ¬ (n ≤ n ∧ n < n + (k + 1) ∧ n < buf.length) := by omega
          have h5 : buf.length ≤ n := by omega
          simp [h4, h2, List.getElem?_eq_none h5]
      · have h2 : ¬ (n ≤ j ∧ j < n + (k + 1) ∧ j < buf.length) := by omega
        simp [h3, h2]

/-- Writing `len` bytes into a buffer of exactly `len` bytes from a string of
hex digits leaves the bytes the string encodes. -/
theorem store_hex_decode (g : List Char) (buf : List Nat) (len : Nat)
    (hbuf : buf.length = len) (hg : 2 * len ≤ g.length)
    (hhex : ∀ c ∈ g, hexdigitp c = true) :
    store_hex buf g 0 len = decode_hex g len := by
  apply List.ext_getElem?
  intro j
  rw [store_hex_getElem?]
  by_cases hj : j < len
  · have h1 : 0 ≤ j ∧ j < 0 + len ∧ j < buf.length := by omega
    rw [if_pos h1]
    have ha : 2 * j < g.length := by omega
    have hb : 2 * j + 1 < g.length := by omega
    simp only [decode_hex, List.getElem?_map, List.getElem?_range hj, Option.map_some',
      Nat.sub_zero, xtoi_2, deref, List.getD_eq_getElem?_getD]
    have e1 : (List.drop (2 * j) g).headD NUL = g[2 * j] := by
      rw [List.drop_eq_getElem_cons ha]; rfl
    have e2 : (List.drop 1 (List.drop (2 * j) g)).headD NUL = g[2 * j + 1] := by
      rw [List.drop_drop, List.drop_eq_getElem_cons hb]; rfl
    rw [e1, e2, List.getElem?_eq_getElem ha, List.getElem?_eq_getElem hb]
    simp only [Option.getD_some]
    rw [xtoi_1_eq _ (hhex _ (List.getElem_mem ha)), xtoi_1_eq _ (hhex _ (List.getElem_mem hb))]
  · have h1 : ¬ (0 ≤ j ∧ j < 0 + len ∧ j < buf.length) := by omega
    rw [if_neg h1]
    have h2 : buf.length ≤ j := by omega
    have h3 : (decode_hex g len).length ≤ j := by simp [decode_hex]; omega
    rw [List.getElem?_eq_none h2, List.getElem?_eq_none h3]

/-! ## Reset -/

/-- Claim C1: after `reset_notify` the flag `have_keygrip` is false, the 20
keygrip bytes are zero and the digest length is 0, while the digest algorithm
id, the digest bytes, the local server data, the options and the call log are
what they were before. -/
theorem reset_notify_clears (S : AgentState) :
    (reset_notify S).ctrl.have_keygrip = false ∧
    (reset_notify S).ctrl.keygrip = List.replicate 20 0 ∧
    (reset_notify S).ctrl.digest.valuelen = 0 ∧
    (reset_notify S).ctrl.digest.algo = S.ctrl.digest.algo ∧
    (reset_notify S).ctrl.digest.value = S.ctrl.digest.value ∧
    (reset_notify S).ctrl.server_local = S.ctrl.server_local ∧
    (reset_notify S).opt = S.opt ∧
    (reset_notify S).calls = S.calls :=
  ⟨rfl, rfl, rfl, rfl, rfl, rfl, rfl, rfl⟩

/-! ## SIGKEY and SETKEY -/

/-- Claim C2: SIGKEY and SETKEY are both bound to `cmd_sigkey`, and on an
argument of exactly 40 hex digits the handler returns OK, sets `have_keygrip`,
leaves in `keygrip` the 20 bytes the argument encodes and does not change the
pending digest. -/
theorem sigkey_sets_keygrip (env : Env) (S : AgentState) (g : List Char)
    (hS : S.ctrl.keygrip.length = 20) (hlen : g.length = 40)
    (hhex : ∀ c ∈ g, hexdigitp c = true) :
    registered "SIGKEY" = some handler_t.cmd_sigkey ∧
    registered "SETKEY" = some handler_t.cmd_sigkey ∧
    (cmd_sigkey env S g).rc = AssuanStatus.OK ∧
    (cmd_sigkey env S g).st.ctrl.have_keygrip = true ∧
    (cmd_sigkey env S g).st.ctrl.keygrip = decode_hex g 20 ∧
    (cmd_sigkey env S g).st.ctrl.digest = S.ctrl.digest := by
  have hn : scan_hex_n g = 40 := by rw [scan_hex_n_all g hhex, hlen]
  have hp : scan_hex_p g = [] := scan_hex_p_all g hhex
  have hd : store_hex S.ctrl.keygrip g 0 20 = decode_hex g 20 :=
    store_hex_decode g S.ctrl.keygrip 20 hS (by omega) hhex
  refine ⟨by decide, by decide, ?_, ?_, ?_, ?_⟩ <;>
    simp [cmd_sigkey, hn, hp, deref, ret, hd]

/-- Witness for `sigkey_sets_keygrip`: a 40 digit keygrip in mixed case on a
fresh session. -/
theorem sigkey_sets_keygrip_witness :
    (cmd_sigkey sample_env (zero_state sample_env)
        "00112233445566778899aAbBcCdDeEfF01020304".toList).st.ctrl.keygrip
      = decode_hex "00112233445566778899aAbBcCdDeEfF01020304".toList 20 :=
  (sigkey_sets_keygrip sample_env (zero_state sample_env)
    "00112233445566778899aAbBcCdDeEfF01020304".toList (by decide) (by decide)
    (by decide)).2.2.2.2.1

/-! ## SETHASH with a malformed hash -/

theorem strtoul_suffix (line : List Char) : (strtoul line).2 <:+ line := by
  unfold strtoul
  simp only
  split_ifs <;>
    first
    | exact List.suffix_refl _
    | exact (List.dropWhile_suffix _).trans
        ((List.drop_suffix _ _).trans (List.dropWhile_suffix _))
    | exact (List.dropWhile_suffix _).trans (List.dropWhile_suffix _)

theorem sethash_hash_suffix (line : List Char) : sethash_hash line <:+ line :=
  (List.dropWhile_suffix _).trans (strtoul_suffix line)

/-- The byte on which the hex digit scan stops is NUL only at the end of the
string, and then every byte scanned was a hex digit. -/
theorem scan_hex_stop (h : List Char) (hnul : NUL ∉ h) :
    deref (scan_hex_p h) = NUL ↔ ∀ c ∈ h, hexdigitp c = true := by
  constructor
  · intro hd
    cases hq : scan_hex_p h with
    | nil => exact List.dropWhile_eq_nil_iff.mp hq
    | cons c cs =>
      exfalso
      rw [hq] at hd
      have hc : c ∈ h := (List.dropWhile_suffix hexdigitp).subset (by
        show c ∈ List.dropWhile hexdigitp h
        have : List.dropWhile hexdigitp h = c :: cs := hq
        rw [this]; exact List.mem_cons_self _ _)
      have : c = NUL := hd
      exact hnul (this ▸ hc)
  · intro hall
    rw [scan_hex_p_all h hall]; rfl

/-- Claim C3 fails as stated: the hash argument `zz` is malformed, yet with
algorithm number 0 SETHASH answers Unsupported_Algorithm, and with the
supported algorithm 2 it answers Parameter_Error after having overwritten the
algorithm id of the pending digest. -/
theorem sethash_bad_hash_counterexample :
    sethash_hash "0 zz".toList = "zz".toList ∧
    sethash_hash "2 zz".toList = "zz".toList ∧
    ¬ good_hash "zz".toList ∧
    (cmd_sethash sample_env (zero_state sample_env) "0 zz".toList).rc
      = AssuanStatus.Unsupported_Algorithm ∧
    (cmd_sethash sample_env (zero_state sample_env) "2 zz".toList).rc
      = AssuanStatus.Parameter_Error ∧
    (cmd_sethash sample_env (zero_state sample_env) "2 zz".toList).st.ctrl.digest
      ≠ (zero_state sample_env).ctrl.digest := by
  refine ⟨by decide, by decide, ?_, by decide, by decide, by decide⟩
  unfold good_hash
  decide

/-- Claim C3, amended: when the algorithm number of a SETHASH line is non-zero
and supported and its hash argument is not a hex string of even length with
`len/2` in 16, 20, 24, 32, the handler returns Parameter_Error and the length
and the bytes of the pending digest are what they were before. -/
theorem sethash_bad_hash_rejected (env : Env) (S : AgentState) (line : List Char)
    (hnul : NUL ∉ line) (ha : sethash_algo line ≠ 0)
    (hs : env.gcry_md_test_algo (sethash_algo line) = 0)
    (hbad : ¬ good_hash (sethash_hash line)) :
    (cmd_sethash env S line).rc = AssuanStatus.Parameter_Error ∧
    (cmd_sethash env S line).st.ctrl.digest.valuelen = S.ctrl.digest.valuelen ∧
    (cmd_sethash env S line).st.ctrl.digest.value = S.ctrl.digest.value := by
  have hnul2 : NUL ∉ sethash_hash line := fun h => hnul ((sethash_hash_suffix line).subset h)
  have hstop := scan_hex_stop (sethash_hash line) hnul2
  unfold sethash_algo at ha hs
  unfold sethash_hash at hbad hstop
  unfold cmd_sethash
  simp only [ha, hs, decide_False, Bool.or_self, Bool.false_eq_true, if_false, ne_eq,
    not_true_eq_false]
  by_cases hall : ∀ c ∈ (strtoul line).2.dropWhile spacep, hexdigitp c = true
  · have hd := hstop.mpr hall
    have hn := scan_hex_n_all _ hall
    rw [hd, hn]
    simp only [decide_True, not_true_eq_false, decide_False, if_false, Bool.false_eq_true]
    unfold good_hash at hbad
    by_cases hodd : ((strtoul line).2.dropWhile spacep).length % 2 = 1
    · simp [hodd, set_error]
    · have hev : ((strtoul line).2.dropWhile spacep).length % 2 = 0 := by omega
      have hlen : ((strtoul line).2.dropWhile spacep).length / 2 ∉ [16, 20, 24, 32] :=
        fun h => hbad ⟨hall, hev, h⟩
      simp only [List.mem_cons, List.mem_singleton, List.not_mem_nil, or_false, not_or] at hlen
      simp [hodd, hlen, set_error]
  · have hd : ¬ deref (scan_hex_p ((strtoul line).2.dropWhile spacep)) = NUL :=
      fun h => hall (hstop.mp h)
    simp [hd, set_error]

/-- Witness for `sethash_bad_hash_rejected`: the line `2 zz` on a fresh
session. -/
theorem sethash_bad_hash_rejected_witness :
    (cmd_sethash sample_env (zero_state sample_env) "2 zz".toList).rc
      = AssuanStatus.Parameter_Error ∧
    (cmd_sethash sample_env (zero_state sample_env) "2 zz".toList).st.ctrl.digest.valuelen
      = 0 ∧
    (cmd_sethash sample_env (zero_state sample_env) "2 zz".toList).st.ctrl.digest.value
      = List.replicate 24 0 :=
  sethash_bad_hash_rejected sample_env (zero_state sample_env) "2 zz".toList
    (by decide) (by decide) (by decide) (by unfold good_hash; decide)

/-! ## The digest length invariant -/

/-- Claim C4: the digest length is one of 0, 16, 20, 24, 32 and at most
`MAX_DIGEST_LEN` in the zero-initialised session, and this is preserved by
`reset_notify` and by the handlers of SETHASH, SIGKEY/SETKEY, HAVEKEY,
ISTRUSTED and MARKTRUSTED on every line, whatever they return. -/
theorem digest_length_invariant (env : Env) :
    (∀ S0 : AgentState, S0.ctrl = zero_ctrl env → digest_inv env S0) ∧
    (∀ (S : AgentState) (line : List Char), digest_inv env S →
      digest_inv env (reset_notify S) ∧
      digest_inv env (cmd_sethash env S line).st ∧
      digest_inv env (cmd_sigkey env S line).st ∧
      digest_inv env (cmd_havekey env S line).st ∧
      digest_inv env (cmd_istrusted env S line).st ∧
      digest_inv env (cmd_marktrusted env S line).st) := by
  refine ⟨?_, ?_⟩
  · intro S0 h0
    simp [digest_inv, h0, zero_ctrl]
  · intro S line hinv
    refine ⟨?_, ?_, ?_, ?_, ?_, ?_⟩
    · simp [digest_inv, reset_notify]
    · unfold cmd_sethash
      simp only [set_error, ret]
      split_ifs with h1 h2 h3 h4 h5
      · exact hinv
      · exact hinv
      · exact hinv
      · exact hinv
      · exact hinv
      · simp only [digest_inv]
        simp only [ne_eq, Bool.and_eq_true, decide_eq_true_eq, not_and, not_not, Bool.not_eq_true,
          Bool.decide_eq_false, Bool.not_eq_true', decide_eq_false_iff_not] at h4
        refine ⟨?_, by simpa using h5⟩
        simp only [List.mem_cons, List.mem_singleton, List.not_mem_nil, or_false]
        by_cases a : scan_hex_n (List.dropWhile spacep (strtoul line).2) / 2 = 16
        · exact Or.inr (Or.inl a)
        · by_cases b : scan_hex_n (List.dropWhile spacep (strtoul line).2) / 2 = 20
          · exact Or.inr (Or.inr (Or.inl b))
          · by_cases c : scan_hex_n (List.dropWhile spacep (strtoul line).2) / 2 = 24
            · exact Or.inr (Or.inr (Or.inr (Or.inl c)))
            · exact Or.inr (Or.inr (Or.inr (Or.inr (h4 ⟨⟨a, b⟩, c⟩))))
    · unfold cmd_sigkey
      simp only [set_error, ret]
      split_ifs <;> (simp only [digest_inv] at hinv ⊢; exact hinv)
    · unfold cmd_havekey
      simp only [set_error, ret]
      split_ifs <;> (simp only [digest_inv] at hinv ⊢; exact hinv)
    · unfold cmd_istrusted
      simp only [set_error, ret]
      split_ifs <;> (simp only [digest_inv] at hinv ⊢; exact hinv)
    · unfold cmd_marktrusted
      simp only [set_error, ret]
      split_ifs <;> (simp only [digest_inv] at hinv ⊢; exact hinv)

/-- Witness for `digest_length_invariant`: the invariant holds after a
successful SETHASH on a fresh session. -/
theorem digest_length_invariant_witness :
    digest_inv sample_env
      (cmd_sethash sample_env (zero_state sample_env)
        "2 00112233445566778899aabbccddeeff01020304".toList).st :=
  ((digest_length_invariant sample_env).2 (zero_state sample_env)
    "2 00112233445566778899aabbccddeeff01020304".toList
    ((digest_length_invariant sample_env).1 (zero_state sample_env) rfl)).2.1

/-! ## Fingerprint canonicalisation in ISTRUSTED and MARKTRUSTED -/

/-- Claim C19: on a line that consists of an odd number of hex digits HAVEKEY
and SIGKEY return Parameter_Error with the text "odd number of digits" and
leave the whole state as it was: HAVEKEY logs no call to the key store and
SIGKEY changes neither `keygrip` nor `have_keygrip`. -/
theorem odd_digits_rejected (env : Env) (S : AgentState) (line : List Char)
    (hhex : ∀ c ∈ line, hexdigitp c = true) (hodd : line.length % 2 = 1) :
    (cmd_havekey env S line).rc = AssuanStatus.Parameter_Error ∧
    (cmd_havekey env S line).err_text = some "odd number of digits" ∧
    (cmd_havekey env S line).st.calls = S.calls ∧
    (cmd_havekey env S line).st = S ∧
    (cmd_sigkey env S line).rc = AssuanStatus.Parameter_Error ∧
    (cmd_sigkey env S line).err_text = some "odd number of digits" ∧
    (cmd_sigkey env S line).st.ctrl.keygrip = S.ctrl.keygrip ∧
    (cmd_sigkey env S line).st.ctrl.have_keygrip = S.ctrl.have_keygrip ∧
    (cmd_sigkey env S line).st = S := by
  have hn : scan_hex_n line = line.length := scan_hex_n_all line hhex
  have hp : scan_hex_p line = [] := scan_hex_p_all line hhex
  refine ⟨?_, ?_, ?_, ?_, ?_, ?_, ?_, ?_, ?_⟩ <;>
    simp [cmd_havekey, cmd_sigkey, hn, hp, deref, hodd, set_error]

/-- Witness for `odd_digits_rejected`: 39 hex digits. -/
theorem odd_digits_rejected_witness :
    (cmd_havekey sample_env (zero_state sample_env)
        "00112233445566778899aabbccddeeff0102030".toList).err_text
      = some "odd number of digits" :=
  (odd_digits_rejected sample_env (zero_state sample_env)
    "00112233445566778899aabbccddeeff0102030".toList (by decide) (by decide)).2.1

/-! ## SETHASH with an unsupported algorithm -/

/-- Claim C20: when the algorithm number of a SETHASH line is 0, as it is for
every line without leading decimal digits, or is rejected by the digest
algorithm test, the handler returns Unsupported_Algorithm whatever follows the
number and leaves the whole state, the digest and the keygrip included, as it
was. -/
theorem sethash_unsupported_algo (env : Env) (S : AgentState) (line : List Char) :
    (leading_digits line = [] → sethash_algo line = 0) ∧
    (sethash_algo line = 0 ∨ env.gcry_md_test_algo (sethash_algo line) ≠ 0 →
      (cmd_sethash env S line).rc = AssuanStatus.Unsupported_Algorithm ∧
      (cmd_sethash env S line).st.ctrl.digest = S.ctrl.digest ∧
      (cmd_sethash env S line).st.ctrl.keygrip = S.ctrl.keygrip ∧
      (cmd_sethash env S line).st.ctrl.have_keygrip = S.ctrl.have_keygrip ∧
      (cmd_sethash env S line).st = S) := by
  constructor
  · intro h
    unfold leading_digits at h
    simp only at h
    unfold sethash_algo strtoul
    simp only [h, List.isEmpty_nil, if_true]
    decide
  · intro h
    unfold sethash_algo at h
    have hc : (decide (to_int (strtoul line).1 = 0) ||
        decide (env.gcry_md_test_algo (to_int (strtoul line).1) ≠ 0)) = true := by
      rcases h with h | h <;> simp [h]
    unfold cmd_sethash
    simp only [hc, if_true, set_error, and_self]

/-- Witness for `sethash_unsupported_algo`: algorithm number 0 in front of a
well-formed hash of 40 hex digits. -/
theorem sethash_unsupported_algo_witness :
    (cmd_sethash sample_env (zero_state sample_env)
        "0 00112233445566778899aabbccddeeff01020304".toList).rc
      = AssuanStatus.Unsupported_Algorithm :=
  ((sethash_unsupported_algo sample_env (zero_state sample_env)
    "0 00112233445566778899aabbccddeeff01020304".toList).2 (Or.inl (by decide))).1

/-! ## The option handler -/

/-- Claim C17 fails as stated: with `display` set to `:0`, setting it again
while `strdup` fails returns Out_Of_Core and leaves `display` unset, not as it
was before the call. -/
theorem option_no_memory_counterexample :
    (option_handler sample_env (zero_state sample_env) "display" ":0").st.opt.display
      = some ":0" ∧
    (option_handler no_memory_env
        (option_handler sample_env (zero_state sample_env) "display" ":0").st
        "display" ":1").rc = AssuanStatus.Out_Of_Core ∧
    (option_handler no_memory_env
        (option_handler sample_env (zero_state sample_env) "display" ":0").st
        "display" ":1").st.opt.display = none := by
  refine ⟨by decide, by decide, by decide⟩

/-- Claim C17, amended: for a recognised key, when the copy of the new value
cannot be allocated the option handler returns Out_Of_Core, the option is left
unset, and the other options, the session context and the call log are what
they were before. -/
theorem option_no_memory (env : Env) (S : AgentState) (key value : String)
    (hkey : key ∈ option_keys) (hfail : env.strdup_ok value = false) :
    (option_handler env S key value).rc = AssuanStatus.Out_Of_Core ∧
    option_value (option_handler env S key value).st.opt key = none ∧
    (∀ key', key' ≠ key →
      option_value (option_handler env S key value).st.opt key' = option_value S.opt key') ∧
    (option_handler env S key value).st.ctrl = S.ctrl ∧
    (option_handler env S key value).st.calls = S.calls := by
  simp only [option_keys, List.mem_cons, List.mem_singleton, List.not_mem_nil, or_false] at hkey
  rcases hkey with h | h | h | h | h <;> subst h <;>
    (refine ⟨?_, ?_, ?_, ?_, ?_⟩ <;>
      first
      | (intro key' hne
         simp [option_handler, option_value, strdup, option_result, ret, hfail]
         split_ifs <;> simp_all)
      | simp [option_handler, option_value, strdup, option_result, ret, hfail])

/-- Witness for `option_no_memory`: setting `ttyname` while `strdup` fails. -/
theorem option_no_memory_witness :
    (option_handler no_memory_env (zero_state sample_env) "ttyname" "/dev/pts/1").rc
      = AssuanStatus.Out_Of_Core :=
  (option_no_memory no_memory_env (zero_state sample_env) "ttyname" "/dev/pts/1"
    (by decide) (by decide)).1

/-- Claim C18: when the copy of the value can be allocated, the option handler
returns OK for a recognised key, stores the value (the empty string when the
value is empty) for that key and leaves the other options as they were; for
every other key it returns Invalid_Option and changes nothing.  The session
context and the call log stay as they were in both cases. -/
theorem option_sets_one (env : Env) (S : AgentState) (key value : String)
    (hok : env.strdup_ok value = true) :
    (key ∈ option_keys →
      (option_handler env S key value).rc = AssuanStatus.OK ∧
      option_value (option_handler env S key value).st.opt key = some value ∧
      (∀ key', key' ≠ key →
        option_value (option_handler env S key value).st.opt key'
          = option_value S.opt key') ∧
      (option_handler env S key value).st.ctrl = S.ctrl ∧
      (option_handler env S key value).st.calls = S.calls) ∧
    (key ∉ option_keys →
      (option_handler env S key value).rc = AssuanStatus.Invalid_Option ∧
      (option_handler env S key value).st = S) := by
  constructor
  · intro hkey
    simp only [option_keys, List.mem_cons, List.mem_singleton, List.not_mem_nil,
      or_false] at hkey
    rcases hkey with h | h | h | h | h <;> subst h <;>
      (refine ⟨?_, ?_, ?_, ?_, ?_⟩ <;>
        first
        | (intro key' hne
           simp [option_handler, option_value, strdup, option_result, ret, hok]
           split_ifs <;> simp_all)
        | simp [option_handler, option_value, strdup, option_result, ret, hok])
  · intro hkey
    simp only [option_keys, List.mem_cons, List.mem_singleton, List.not_mem_nil, or_false,
      not_or] at hkey
    obtain ⟨h1, h2, h3, h4, h5⟩ := hkey
    simp [option_handler, h1, h2, h3, h4, h5, ret]

/-- Witness for `option_sets_one`: `ttyname` set to the empty string. -/
theorem option_sets_one_witness :
    (option_handler sample_env (zero_state sample_env) "ttyname" "").rc = AssuanStatus.OK ∧
    (option_handler sample_env (zero_state sample_env) "ttyname" "").st.opt.ttyname
      = some "" :=
  ⟨((option_sets_one sample_env (zero_state sample_env) "ttyname" "" (by decide)).1
      (by decide)).1, by decide⟩

/-! ## The passphrase cache -/

theorem cache_get_snoc (calls : List Call) (c : Call) (key : List Char) :
    cache_get (calls ++ [c]) key =
      match c with
      | .agent_put_cache k data _ => if k = key then data else cache_get calls key
      | _ => cache_get calls key := by
  simp only [cache_get, List.foldl_append, List.foldl_cons, List.foldl_nil]

/-- Claim C14: a CLEAR_PASSPHRASE line whose cacheid token `k` has 1 to 50
characters returns OK in every cache state, its only call invalidates `k`, and
afterwards the cache holds nothing under `k`; running the same line once more
gives the same reply and the same cache content under every key. -/
theorem clear_passphrase_idempotent (env : Env) (S : AgentState) (line k : List Char)
    (hk : field (skip_blanks line) = k) (h1 : 1 ≤ k.length) (h2 : k.length ≤ 50) :
    (cmd_clear_passphrase env S line).rc = AssuanStatus.OK ∧
    (cmd_clear_passphrase env S line).err_text = none ∧
    (cmd_clear_passphrase env S line).st.calls
      = S.calls ++ [Call.agent_put_cache k none 0] ∧
    cache_get (cmd_clear_passphrase env S line).st.calls k = none ∧
    (∀ key, key ≠ k →
      cache_get (cmd_clear_passphrase env S line).st.calls key = cache_get S.calls key) ∧
    (cmd_clear_passphrase env (cmd_clear_passphrase env S line).st line).rc
      = (cmd_clear_passphrase env S line).rc ∧
    (cmd_clear_passphrase env (cmd_clear_passphrase env S line).st line).err_text
      = (cmd_clear_passphrase env S line).err_text ∧
    (∀ key,
      cache_get (cmd_clear_passphrase env (cmd_clear_passphrase env S line).st line).st.calls key
        = cache_get (cmd_clear_passphrase env S line).st.calls key) := by
  have hne : k.isEmpty = false := by
    cases k with
    | nil => simp at h1
    | cons c cs => rfl
  have hlen : ¬ (k.length > 50) := by omega
  have hrun : ∀ T : AgentState, cmd_clear_passphrase env T line
      = ret (log_call T (.agent_put_cache k none 0)) .OK := by
    intro T
    simp [cmd_clear_passphrase, hk, hne, hlen]
  rw [hrun, hrun]
  refine ⟨rfl, rfl, rfl, ?_, ?_, rfl, rfl, ?_⟩
  · simp [ret, log_call, cache_get_snoc]
  · intro key hkey
    simp only [ret, log_call, cache_get_snoc]
    rw [if_neg (Ne.symm hkey)]
  · intro key
    simp only [ret, log_call, cache_get_snoc]
    split_ifs <;> rfl

/-- Witness for `clear_passphrase_idempotent`: the key `mykey` is cleared after
a GET_PASSPHRASE that has cached a passphrase under it. -/
theorem clear_passphrase_idempotent_witness :
    cache_get (cmd_get_passphrase sample_env (zero_state sample_env)
        "mykey X X Please".toList).st.calls "mykey".toList
      = some "68756e74657232".toList ∧
    cache_get (cmd_clear_passphrase sample_env
        (cmd_get_passphrase sample_env (zero_state sample_env)
          "mykey X X Please".toList).st "mykey".toList).st.calls "mykey".toList = none :=
  ⟨by decide,
   (clear_passphrase_idempotent sample_env
      (cmd_get_passphrase sample_env (zero_state sample_env) "mykey X X Please".toList).st
      "mykey".toList "mykey".toList (by decide) (by decide) (by decide)).2.2.2.1⟩

/-! ## The arguments of GET_PASSPHRASE -/

theorem tokens_from_field (s : List Char) (hnul : NUL ∉ s) : ∀ cur : List Char,
    tokens_from s cur
      = (if (cur ++ field s).isEmpty then [] else [cur ++ field s])
        ++ tokens_from ((s.dropWhile (fun c => c != ' ' && c != NUL)).drop 1) [] := by
  induction s with
  | nil => intro cur; simp [tokens_from, field]
  | cons c t ih =>
    intro cur
    have hc : c ≠ NUL := fun h => hnul (by simp [h])
    have ht : NUL ∉ t := fun h => hnul (by simp [h])
    by_cases hb : c = ' '
    · subst hb
      cases cur <;> simp [tokens_from, field]
    · rw [tokens_from, if_neg hb, ih ht]
      simp [field, hb, hc, List.takeWhile_cons, List.dropWhile_cons]

theorem tokens_skip_blanks (s : List Char) : tokens (skip_blanks s) = tokens s := by
  induction s with
  | nil => rfl
  | cons c t ih =>
    by_cases hb : c = ' '
    · subst hb
      simpa [skip_blanks, tokens, tokens_from, List.dropWhile_cons] using ih
    · simp [skip_blanks, List.dropWhile_cons, hb]

theorem skip_blanks_suffix (s : List Char) : skip_blanks s <:+ s :=
  List.dropWhile_suffix _

/-- One step of the parser of `cmd_get_passphrase` against the tokens of the
line: the field read is the first token, the rest of the line holds the other
tokens, and `strchr` finds a blank when there are other tokens. -/
theorem token_step (s : List Char) (hnul : NUL ∉ s) (t : List Char) (ts : List (List Char))
    (h : tokens s = t :: ts) :
    field (skip_blanks s) = t ∧ t ≠ [] ∧
    tokens (((skip_blanks s).dropWhile (fun c => c != ' ' && c != NUL)).drop 1) = ts ∧
    NUL ∉ ((skip_blanks s).dropWhile (fun c => c != ' ' && c != NUL)).drop 1 ∧
    (ts ≠ [] → strchr_blank (skip_blanks s)
        = some ((skip_blanks s).dropWhile (fun c => c != ' ' && c != NUL))) := by
  have hn1 : NUL ∉ skip_blanks s := fun hm => hnul ((skip_blanks_suffix s).subset hm)
  have hn2 : NUL ∉ (skip_blanks s).dropWhile (fun c => c != ' ' && c != NUL) :=
    fun hm => hn1 ((List.dropWhile_suffix _).subset hm)
  have hn3 : NUL ∉ ((skip_blanks s).dropWhile (fun c => c != ' ' && c != NUL)).drop 1 :=
    fun hm => hn2 ((List.drop_suffix _ _).subset hm)
  rw [← tokens_skip_blanks, tokens, tokens_from_field _ hn1] at h
  simp only [List.nil_append] at h
  by_cases he : (field (skip_blanks s)).isEmpty = true
  · exfalso
    rw [if_pos he, List.nil_append] at h
    have hs : skip_blanks s = [] := by
      cases hs : skip_blanks s with
      | nil => rfl
      | cons c r =>
        exfalso
        have hc : c ≠ ' ' := by
          intro hc
          have := List.head_dropWhile_not (fun c => c == ' ') s (by
            show skip_blanks s ≠ []
            rw [hs]; simp)
          have h2 : (List.dropWhile (fun c => c == ' ') s) = c :: r := hs
          simp [h2, hc] at this
        have hc2 : c ≠ NUL := fun h => hn1 (by rw [hs]; simp [h])
        rw [hs] at he
        simp [field, List.takeWhile_cons, hc, hc2] at he
    rw [hs] at h
    simp [tokens_from] at h
  · rw [if_neg he] at h
    simp only [List.singleton_append, List.cons.injEq] at h
    have hne : t ≠ [] := by
      intro ht
      rw [h.1, ht] at he
      exact he rfl
    refine ⟨h.1, hne, h.2, hn3, ?_⟩
    intro hts
    cases hd : (skip_blanks s).dropWhile (fun c => c != ' ' && c != NUL) with
    | nil =>
      exfalso
      rw [hd] at h
      exact hts (by simpa [tokens_from] using h.2.symm)
    | cons c r =>
      have hne : (skip_blanks s).dropWhile (fun c => c != ' ' && c != NUL) ≠ [] := by
        rw [hd]; simp
      have := List.head_dropWhile_not (fun c => c != ' ' && c != NUL) (skip_blanks s) hne
      have hc2 : c ≠ NUL := fun h => hn2 (by rw [hd]; simp [h])
      simp only [hd, List.head_cons] at this
      have hc : c = ' ' := by
        by_contra hc
        simp [hc, hc2] at this
      simp [strchr_blank, hd, deref, hc]

/-- A line with at least four tokens parses into its first four tokens; what
follows them is ignored. -/
theorem parse_four_tokens (line : List Char) (hnul : NUL ∉ line)
    (c e p d : List Char) (more : List (List Char))
    (h : tokens line = c :: e :: p :: d :: more) :
    parse_passphrase_args line = ⟨c, some e, some p, some d⟩ ∧ c ≠ [] := by
  obtain ⟨hc, hne, h1, n1, s1⟩ := token_step line hnul c _ h
  obtain ⟨he, -, h2, n2, s2⟩ := token_step _ n1 e _ h1
  obtain ⟨hp, -, h3, n3, s3⟩ := token_step _ n2 p _ h2
  obtain ⟨hd, -, -, -, -⟩ := token_step _ n3 d _ h3
  refine ⟨?_, hne⟩
  simp only [parse_passphrase_args, s1 (by simp), s2 (by simp), s3 (by simp), hc, he, hp, hd]

/-- The tokens of a line without NUL hold no NUL. -/
theorem tokens_no_NUL (line : List Char) (hnul : NUL ∉ line)
    (c e p d : List Char) (more : List (List Char))
    (h : tokens line = c :: e :: p :: d :: more) :
    NUL ∉ e ∧ NUL ∉ p ∧ NUL ∉ d := by
  have key : ∀ s : List Char, NUL ∉ field s := by
    intro s hm
    have := List.mem_takeWhile_imp hm
    simp at this
  obtain ⟨-, -, h1, n1, -⟩ := token_step line hnul c _ h
  obtain ⟨he, -, h2, n2, -⟩ := token_step _ n1 e _ h1
  obtain ⟨hp, -, h3, n3, -⟩ := token_step _ n2 p _ h2
  obtain ⟨hd, -, -, -, -⟩ := token_step _ n3 d _ h3
  exact ⟨he ▸ key _, hp ▸ key _, hd ▸ key _⟩

/-! ## GET_PASSPHRASE -/

theorem plus_to_blank_map (s : List Char) (hnul : NUL ∉ s) :
    plus_to_blank s = s.map blank_for_plus := by
  induction s with
  | nil => rfl
  | cons c t ih =>
    have hc : c ≠ NUL := fun h => hnul (by simp [h])
    have ht : NUL ∉ t := fun h => hnul (by simp [h])
    simp [plus_to_blank, hc, ih ht, blank_for_plus]

theorem plus_to_blank_length (s : List Char) : (plus_to_blank s).length = s.length := by
  induction s with
  | nil => rfl
  | cons c t ih =>
    by_cases hc : c = NUL
    · simp [plus_to_blank, hc]
    · simp [plus_to_blank, hc, ih]

theorem plus_to_blank_idem (s : List Char) :
    plus_to_blank (plus_to_blank s) = plus_to_blank s := by
  induction s with
  | nil => rfl
  | cons c t ih =>
    by_cases hc : c = NUL
    · simp [plus_to_blank, hc]
    · by_cases hp : c = '+'
      · subst hp
        have h1 : ¬ ('+' : Char) = NUL := by decide
        have h2 : ¬ (' ' : Char) = NUL := by decide
        have h3 : ¬ (' ' : Char) = '+' := by decide
        simp [plus_to_blank, h1, h2, h3, ih]
      · simp [plus_to_blank, hc, hp, ih]

theorem plus_to_blank_no_plus (s : List Char) :
    '+' ∉ (plus_to_blank s).takeWhile (fun c => c != NUL) := by
  induction s with
  | nil => simp [plus_to_blank]
  | cons c t ih =>
    by_cases hc : c = NUL
    · simp [plus_to_blank, hc, List.takeWhile_cons]
    · by_cases hp : c = '+'
      · subst hp
        have h2 : ¬ (' ' : Char) = NUL := by decide
        have h3 : ¬ ('+' : Char) = ' ' := by decide
        simp [plus_to_blank, hc, List.takeWhile_cons, h2, h3]
        exact ih
      · simp [plus_to_blank, hc, hp, List.takeWhile_cons]
        exact ⟨fun h => hp h.symm, ih⟩

theorem ask_field_eq (t : List Char) (hnul : NUL ∉ t) :
    plus_to_blank_opt (null_if_X (some t)) = ask_field t := by
  have hXl : "X".toList = ['X'] := rfl
  rw [null_if_X, ask_field, plus_to_blank_opt, hXl]
  by_cases hX : t = ['X']
  · simp [hX]
  · simp [hX, plus_to_blank_map t hnul]

/-- Claim C12: for a GET_PASSPHRASE line with four fields whose cacheid `c` is
not `X` and for which the cache lookup answers a value `v`, the handler makes
exactly three calls: the lookup of `c`, the switch to confidential mode and the
OK line with text `v`; the ask service is not called and nothing is put into
the cache.  The session context and the options are unchanged, and the reply
is OK when setting the OK line succeeds. -/
theorem get_passphrase_cached (env : Env) (S : AgentState) (line c e p d v : List Char)
    (more : List (List Char)) (hnul : NUL ∉ line)
    (htok : tokens line = c :: e :: p :: d :: more)
    (hlen : c.length ≤ 50) (hX : c ≠ "X".toList)
    (hv : env.agent_get_cache S.calls c = some v) :
    (cmd_get_passphrase env S line).st.calls
      = S.calls ++ [Call.agent_get_cache c, Call.assuan_begin_confidential,
          Call.assuan_set_okay_line v] ∧
    (cmd_get_passphrase env S line).st.ctrl = S.ctrl ∧
    (cmd_get_passphrase env S line).st.opt = S.opt ∧
    (cmd_get_passphrase env S line).err_text = none ∧
    (cmd_get_passphrase env S line).rc
      = env.map_to_assuan_status (env.assuan_set_okay_line
          (S.calls ++ [Call.agent_get_cache c, Call.assuan_begin_confidential]) v) ∧
    (env.assuan_set_okay_line
        (S.calls ++ [Call.agent_get_cache c, Call.assuan_begin_confidential]) v = 0 →
      env.map_to_assuan_status 0 = AssuanStatus.OK →
      (cmd_get_passphrase env S line).rc = AssuanStatus.OK) := by
  obtain ⟨hparse, hne⟩ := parse_four_tokens line hnul c e p d more htok
  have hne2 : c.isEmpty = false := by
    cases c with
    | nil => exact absurd rfl hne
    | cons _ _ => rfl
  have hlen2 : ¬ (c.length > 50) := by omega
  have hX2 : ¬ c = ['X'] := hX
  have hrun : cmd_get_passphrase env S line
      = ret (log_call (log_call (log_call S (.agent_get_cache c)) .assuan_begin_confidential)
              (.assuan_set_okay_line v))
          (env.map_to_assuan_status (env.assuan_set_okay_line
            (S.calls ++ [Call.agent_get_cache c, Call.assuan_begin_confidential]) v)) := by
    simp [cmd_get_passphrase, hparse, hne2, hlen2, null_if_X, hX2, hv, log_call]
  rw [hrun]
  refine ⟨by simp [ret, log_call], rfl, rfl, rfl, rfl, ?_⟩
  intro h0 hm
  simp [ret, h0, hm]


/-- Witness for `get_passphrase_cached`: `GET_PASSPHRASE mykey X X X` after a
first call has cached a passphrase under `mykey`. -/
theorem get_passphrase_cached_witness :
    (cmd_get_passphrase sample_env
        (cmd_get_passphrase sample_env (zero_state sample_env)
          "mykey X X Please".toList).st "mykey X X X".toList).st.calls
      = (cmd_get_passphrase sample_env (zero_state sample_env)
          "mykey X X Please".toList).st.calls
        ++ [Call.agent_get_cache "mykey".toList, Call.assuan_begin_confidential,
            Call.assuan_set_okay_line "68756e74657232".toList] :=
  (get_passphrase_cached sample_env
    (cmd_get_passphrase sample_env (zero_state sample_env) "mykey X X Please".toList).st
    "mykey X X X".toList "mykey".toList "X".toList "X".toList "X".toList
    "68756e74657232".toList [] (by decide) (by decide) (by decide) (by decide)
    (by decide)).1


/-- The run of `cmd_get_passphrase` on a line with four fields when the cache
has nothing to offer: the ask service is called once, with the fields as
`ask_field` gives them, and its response is cached unless the cacheid is `X`. -/
theorem get_passphrase_ask_run (env : Env) (S : AgentState) (line c e p d : List Char)
    (more : List (List Char)) (hnul : NUL ∉ line)
    (htok : tokens line = c :: e :: p :: d :: more)
    (hlen : c.length ≤ 50)
    (hmiss : c ≠ "X".toList → env.agent_get_cache S.calls c = none) :
    cmd_get_passphrase env S line
      = if (env.agent_get_passphrase (calls_before_ask S c)
              (ask_field d) (ask_field p) (ask_field e)).1 = 0 then
          ret { S with calls := calls_before_ask S c
                ++ [Call.agent_get_passphrase (ask_field d) (ask_field p) (ask_field e)]
                ++ (if c = "X".toList then []
                    else [Call.agent_put_cache c
                      (some (env.agent_get_passphrase (calls_before_ask S c)
                        (ask_field d) (ask_field p) (ask_field e)).2) 0])
                ++ [Call.assuan_begin_confidential,
                    Call.assuan_set_okay_line (env.agent_get_passphrase (calls_before_ask S c)
                        (ask_field d) (ask_field p) (ask_field e)).2] }
            (env.map_to_assuan_status (env.assuan_set_okay_line
              (calls_before_ask S c
                ++ [Call.agent_get_passphrase (ask_field d) (ask_field p) (ask_field e)]
                ++ (if c = "X".toList then []
                    else [Call.agent_put_cache c
                      (some (env.agent_get_passphrase (calls_before_ask S c)
                        (ask_field d) (ask_field p) (ask_field e)).2) 0])
                ++ [Call.assuan_begin_confidential])
              (env.agent_get_passphrase (calls_before_ask S c)
                (ask_field d) (ask_field p) (ask_field e)).2))
        else
          ret { S with calls := calls_before_ask S c
                ++ [Call.agent_get_passphrase (ask_field d) (ask_field p) (ask_field e)] }
            (env.map_to_assuan_status (env.agent_get_passphrase (calls_before_ask S c)
              (ask_field d) (ask_field p) (ask_field e)).1) := by
  obtain ⟨hparse, hne⟩ := parse_four_tokens line hnul c e p d more htok
  obtain ⟨ne, np, nd⟩ := tokens_no_NUL line hnul c e p d more htok
  have hne2 : c.isEmpty = false := by
    cases c with
    | nil => exact absurd rfl hne
    | cons _ _ => rfl
  have hlen2 : ¬ (c.length > 50) := by omega
  have he := ask_field_eq e ne
  have hp := ask_field_eq p np
  have hd := ask_field_eq d nd
  have hXl : "X".toList = ['X'] := rfl
  simp only [cmd_get_passphrase, hparse, hne2, hlen2, decide_False, Bool.or_self,
    Bool.false_eq_true, if_false, Option.isNone_some, he, hp, hd]
  simp only [calls_before_ask, null_if_X, hXl] at hmiss ⊢
  by_cases hX : c = ['X']
  · simp only [Option.some.injEq, hX, if_true, log_call]
    split_ifs <;> simp
  · simp only [Option.some.injEq, hX, if_false, hmiss hX, log_call]
    split_ifs <;> simp

/-- Claim C13: on a GET_PASSPHRASE line with four fields for which the cache
has no value and the ask service succeeds with response `r`: if the cacheid
`c` is not `X`, the handler looks `c` up, asks, puts `r` under `c` and sends `r`
on the confidential OK line, and afterwards the cache of the spec holds `r`
under `c` (so a lookup that follows the spec returns `r`); if the cacheid is
`X`, the handler only asks and sends `r`, with no cache lookup and no cache
put, and the cache content is unchanged under every key. -/
theorem prompt_result_cached (env : Env) (S : AgentState) (line c e p d r : List Char)
    (more : List (List Char)) (hnul : NUL ∉ line)
    (htok : tokens line = c :: e :: p :: d :: more)
    (hlen : c.length ≤ 50)
    (hmiss : c ≠ "X".toList → env.agent_get_cache S.calls c = none)
    (hask : env.agent_get_passphrase (calls_before_ask S c)
        (ask_field d) (ask_field p) (ask_field e) = (0, r)) :
    (c ≠ "X".toList →
      (cmd_get_passphrase env S line).st.calls
        = S.calls ++ [Call.agent_get_cache c,
            Call.agent_get_passphrase (ask_field d) (ask_field p) (ask_field e),
            Call.agent_put_cache c (some r) 0,
            Call.assuan_begin_confidential, Call.assuan_set_okay_line r] ∧
      cache_get (cmd_get_passphrase env S line).st.calls c = some r ∧
      (cache_as_specified env →
        env.agent_get_cache (cmd_get_passphrase env S line).st.calls c = some r)) ∧
    (c = "X".toList →
      (cmd_get_passphrase env S line).st.calls
        = S.calls ++ [Call.agent_get_passphrase (ask_field d) (ask_field p) (ask_field e),
            Call.assuan_begin_confidential, Call.assuan_set_okay_line r] ∧
      ∀ key, cache_get (cmd_get_passphrase env S line).st.calls key
        = cache_get S.calls key) := by
  have hrun := get_passphrase_ask_run env S line c e p d more hnul htok hlen hmiss
  rw [hask] at hrun
  simp only [if_true] at hrun
  rw [hrun]
  constructor
  · intro hX
    have hcalls : (ret { S with calls := calls_before_ask S c
                ++ [Call.agent_get_passphrase (ask_field d) (ask_field p) (ask_field e)]
                ++ (if c = "X".toList then [] else [Call.agent_put_cache c (some r) 0])
                ++ [Call.assuan_begin_confidential, Call.assuan_set_okay_line r] }
          (env.map_to_assuan_status (env.assuan_set_okay_line
            (calls_before_ask S c
                ++ [Call.agent_get_passphrase (ask_field d) (ask_field p) (ask_field e)]
                ++ (if c = "X".toList then [] else [Call.agent_put_cache c (some r) 0])
                ++ [Call.assuan_begin_confidential]) r))).st.calls
        = ((((S.calls ++ [Call.agent_get_cache c])
            ++ [Call.agent_get_passphrase (ask_field d) (ask_field p) (ask_field e)])
            ++ [Call.agent_put_cache c (some r) 0])
            ++ [Call.assuan_begin_confidential]) ++ [Call.assuan_set_okay_line r] := by
      simp only [ret, calls_before_ask, if_neg hX, List.append_assoc, List.cons_append,
        List.nil_append]
    have hget : cache_get (((((S.calls ++ [Call.agent_get_cache c])
            ++ [Call.agent_get_passphrase (ask_field d) (ask_field p) (ask_field e)])
            ++ [Call.agent_put_cache c (some r) 0])
            ++ [Call.assuan_begin_confidential]) ++ [Call.assuan_set_okay_line r]) c
        = some r := by
      rw [cache_get_snoc, cache_get_snoc, cache_get_snoc]
      simp
    rw [hcalls]
    refine ⟨by simp, hget, fun hspec => ?_⟩
    rw [hspec]
    exact hget
  · intro hX
    have hcalls : (ret { S with calls := calls_before_ask S c
                ++ [Call.agent_get_passphrase (ask_field d) (ask_field p) (ask_field e)]
                ++ (if c = "X".toList then [] else [Call.agent_put_cache c (some r) 0])
                ++ [Call.assuan_begin_confidential, Call.assuan_set_okay_line r] }
          (env.map_to_assuan_status (env.assuan_set_okay_line
            (calls_before_ask S c
                ++ [Call.agent_get_passphrase (ask_field d) (ask_field p) (ask_field e)]
                ++ (if c = "X".toList then [] else [Call.agent_put_cache c (some r) 0])
                ++ [Call.assuan_begin_confidential]) r))).st.calls
        = ((S.calls
            ++ [Call.agent_get_passphrase (ask_field d) (ask_field p) (ask_field e)])
            ++ [Call.assuan_begin_confidential]) ++ [Call.assuan_set_okay_line r] := by
      simp only [ret, calls_before_ask, if_pos hX, List.append_assoc, List.cons_append,
        List.nil_append]
    rw [hcalls]
    refine ⟨by simp, fun key => ?_⟩
    rw [cache_get_snoc, cache_get_snoc, cache_get_snoc]

/-- Witness for `prompt_result_cached`: `GET_PASSPHRASE mykey X X Please` on
a fresh session caches the response of the prompt under `mykey`. -/
theorem prompt_result_cached_witness :
    cache_get (cmd_get_passphrase sample_env (zero_state sample_env)
        "mykey X X Please".toList).st.calls "mykey".toList
      = some "68756e74657232".toList :=
  ((prompt_result_cached sample_env (zero_state sample_env) "mykey X X Please".toList
      "mykey".toList "X".toList "X".toList "Please".toList "68756e74657232".toList []
      (by decide) (by decide) (by decide) (by decide) (by decide)).1 (by decide)).2.1

/-- Claim C16: whenever a GET_PASSPHRASE line with four fields reaches the ask
service, the service is called once, and each of errtext, prompt and desc is
passed as `ask_field` gives it: absent when the token is `X`, else the token
with a blank for every `+`, every other character (a percent escape too) as it
is and the length kept.  For every string, `plus_to_blank` keeps the length,
leaves no `+` before the terminating NUL, is the character-wise replacement on
a string without NUL, and applying it twice equals applying it once. -/
theorem ask_fields_plus_to_blank (env : Env) (S : AgentState) (line c e p d : List Char)
    (more : List (List Char)) (hnul : NUL ∉ line)
    (htok : tokens line = c :: e :: p :: d :: more)
    (hlen : c.length ≤ 50)
    (hmiss : c ≠ "X".toList → env.agent_get_cache S.calls c = none) :
    (∃ post, (cmd_get_passphrase env S line).st.calls
        = calls_before_ask S c
          ++ Call.agent_get_passphrase (ask_field d) (ask_field p) (ask_field e) :: post ∧
      ∀ x ∈ post, ∀ a b t, x ≠ Call.agent_get_passphrase a b t) ∧
    (∀ t : List Char, (ask_field t = none ↔ t = "X".toList) ∧
      ∀ u, ask_field t = some u → u.length = t.length ∧
        ∀ i : Nat, u[i]? = t[i]?.map blank_for_plus) ∧
    (∀ s : List Char, (plus_to_blank s).length = s.length ∧
      '+' ∉ (plus_to_blank s).takeWhile (fun x => x != NUL) ∧
      (NUL ∉ s → plus_to_blank s = s.map blank_for_plus) ∧
      plus_to_blank (plus_to_blank s) = plus_to_blank s) := by
  refine ⟨?_, ?_, fun s => ⟨plus_to_blank_length s, plus_to_blank_no_plus s,
    plus_to_blank_map s, plus_to_blank_idem s⟩⟩
  · rw [get_passphrase_ask_run env S line c e p d more hnul htok hlen hmiss]
    generalize env.agent_get_passphrase (calls_before_ask S c)
      (ask_field d) (ask_field p) (ask_field e) = r
    split_ifs with h0 hX
    · exact ⟨[Call.assuan_begin_confidential, Call.assuan_set_okay_line r.2],
        by simp [ret], by simp⟩
    · exact ⟨[Call.agent_put_cache c (some r.2) 0, Call.assuan_begin_confidential,
        Call.assuan_set_okay_line r.2], by simp [ret], by simp⟩
    · exact ⟨[], by simp [ret], by simp⟩
  · intro t
    by_cases hX : t = "X".toList
    · simp [ask_field, hX]
    · refine ⟨by simp [ask_field, hX], ?_⟩
      intro u hu
      simp only [ask_field, if_neg hX, Option.some.injEq] at hu
      subst hu
      exact ⟨by simp, fun i => by simp⟩

/-- Witness for `ask_fields_plus_to_blank`: the prompt `Enter+PIN` and the
description `Key%3A+1` reach the ask service as `Enter PIN` and `Key%3A 1`, and
the error text `X` as absent. -/
theorem ask_fields_plus_to_blank_witness :
    (cmd_get_passphrase sample_env (zero_state sample_env)
        "X X Enter+PIN Key%3A+1".toList).st.calls
      = [Call.agent_get_passphrase (some "Key%3A 1".toList) (some "Enter PIN".toList) none,
         Call.assuan_begin_confidential,
         Call.assuan_set_okay_line "68756e74657232".toList] ∧
    plus_to_blank "Key%3A+1".toList = "Key%3A+1".toList.map blank_for_plus :=
  ⟨by decide,
   ((ask_fields_plus_to_blank sample_env (zero_state sample_env)
      "X X Enter+PIN Key%3A+1".toList "X".toList "X".toList "Enter+PIN".toList
      "Key%3A+1".toList [] (by decide) (by decide) (by decide) (by decide)).2.2
      "Key%3A+1".toList).2.2.1 (by decide)⟩

/-- Claim C15: the line `id err prompt ` has three tokens only, yet
`cmd_get_passphrase` does not return Parameter_Error: the blank after the
third token makes `desc` point at an empty string, which the test `!desc` lets
pass, so the handler looks `id` up in the cache, calls the ask service with an
empty description, puts the response into the cache and returns OK. -/
theorem get_passphrase_empty_desc :
    tokens "id err prompt ".toList = ["id".toList, "err".toList, "prompt".toList] ∧
    parse_passphrase_args "id err prompt ".toList
      = ⟨"id".toList, some "err".toList, some "prompt".toList, some []⟩ ∧
    (cmd_get_passphrase sample_env (zero_state sample_env) "id err prompt ".toList).rc
      = AssuanStatus.OK ∧
    (cmd_get_passphrase sample_env (zero_state sample_env) "id err prompt ".toList).st.calls
      = [Call.agent_get_cache "id".toList,
         Call.agent_get_passphrase (some []) (some "prompt".toList) (some "err".toList),
         Call.agent_put_cache "id".toList (some "68756e74657232".toList) 0,
         Call.assuan_begin_confidential,
         Call.assuan_set_okay_line "68756e74657232".toList] := by
  decide

/-- When the parser finds no start of a description, `cmd_get_passphrase`
returns Parameter_Error and calls no collaborator. -/
theorem missing_desc_rejected (env : Env) (S : AgentState) (line : List Char)
    (h : (parse_passphrase_args line).desc = none) :
    (cmd_get_passphrase env S line).rc = AssuanStatus.Parameter_Error ∧
    (cmd_get_passphrase env S line).st = S := by
  simp only [cmd_get_passphrase, h]
  split_ifs <;> simp_all [set_error]

/-! ## SETHASH with a well-formed line -/

theorem digitp_mem (c : Char) (h : digitp c = true) : c ∈ "0123456789".toList := by
  have hx : hexdigitp c = true := by simp [hexdigitp, h]
  have hm := hexdigitp_mem c hx
  have : ∀ c ∈ "0123456789ABCDEFabcdef".toList, digitp c = true → c ∈ "0123456789".toList := by
    decide
  exact this c hm h

/-- The parse of a SETHASH line made of decimal digits, blanks or tabs and a
hash argument that starts with a hex digit: `strtoul` reads the digits and the
loop after it skips the separator. -/
theorem strtoul_digits (digits sep h : List Char) (hd : digits ≠ [])
    (hdig : ∀ c ∈ digits, digitp c = true) (hsmall : decimal_value digits < 2 ^ 31)
    (hsep : sep ≠ []) (hsp : ∀ c ∈ sep, c = ' ' ∨ c = '\t')
    (hhex : ∀ c ∈ h, hexdigitp c = true) :
    to_int (strtoul (digits ++ sep ++ h)).1 = (decimal_value digits : Int) ∧
    (strtoul (digits ++ sep ++ h)).2.dropWhile spacep = h := by
  obtain ⟨c, cs, rfl⟩ := List.exists_cons_of_ne_nil hd
  obtain ⟨b, bs, rfl⟩ := List.exists_cons_of_ne_nil hsep
  have hc : digitp c = true := hdig c (List.mem_cons_self _ _)
  have hcm := digitp_mem c hc
  have hc1 : isspace c = false :=
    (by decide : ∀ x ∈ "0123456789".toList, isspace x = false) c hcm
  have hc2 : (c == '-') = false :=
    (by decide : ∀ x ∈ "0123456789".toList, (x == '-') = false) c hcm
  have hc3 : (c == '+') = false :=
    (by decide : ∀ x ∈ "0123456789".toList, (x == '+') = false) c hcm
  have hb : digitp b = false := by
    rcases hsp b (List.mem_cons_self _ _) with h | h <;> subst h <;> decide
  have htake : (c :: cs ++ b :: bs ++ h).takeWhile digitp = c :: cs := by
    rw [List.append_assoc, List.takeWhile_append_of_pos hdig]
    simp [List.takeWhile_cons, hb]
  have hdrop : (c :: cs ++ b :: bs ++ h).dropWhile digitp = b :: bs ++ h := by
    rw [List.append_assoc, List.dropWhile_append_of_pos hdig]
    simp [List.dropWhile_cons, hb]
  have hs1 : (c :: cs ++ b :: bs ++ h).dropWhile isspace = c :: cs ++ b :: bs ++ h := by
    simp [List.dropWhile_cons, hc1]
  have hsp2 : ∀ x ∈ b :: bs, spacep x = true := by
    intro x hx
    rcases hsp x hx with h | h <;> subst h <;> decide
  have hh : h.dropWhile spacep = h := by
    cases h with
    | nil => rfl
    | cons x xs =>
      have hx : spacep x = false :=
        hexdigitp_forall (fun x => spacep x = false) (by decide) x
          (hhex x (List.mem_cons_self _ _))
      simp [List.dropWhile_cons, hx]
  have hval : ¬ ULONG_MAX < decimal_value (c :: cs) := by
    have : (2:Nat) ^ 31 ≤ ULONG_MAX := by decide
    omega
  have hst : strtoul (c :: cs ++ b :: bs ++ h) = (decimal_value (c :: cs), b :: bs ++ h) := by
    unfold strtoul
    simp only [hs1]
    have hderef : deref (c :: cs ++ b :: bs ++ h) = c := rfl
    simp only [hderef, hc2, hc3, Bool.or_self, Bool.false_eq_true, if_false, htake, hdrop,
      List.isEmpty_cons, hval]
  rw [hst]
  refine ⟨?_, ?_⟩
  · simp only [to_int]
    have h1 : decimal_value (c :: cs) % 2 ^ 32 = decimal_value (c :: cs) :=
      Nat.mod_eq_of_lt (by omega)
    rw [h1, if_pos hsmall]
    rfl
  · show (b :: bs ++ h).dropWhile spacep = h
    rw [List.dropWhile_append_of_pos hsp2, hh]

/-- Writing `len` bytes from a string of hex digits into a buffer of at least
`len` bytes leaves the bytes the string encodes, followed by the rest of the
buffer as it was. -/
theorem store_hex_prefix (g : List Char) (buf : List Nat) (len : Nat)
    (hbuf : len ≤ buf.length) (hg : 2 * len ≤ g.length)
    (hhex : ∀ c ∈ g, hexdigitp c = true) :
    store_hex buf g 0 len = decode_hex g len ++ buf.drop len := by
  have hdec := store_hex_decode g (buf.take len) len (by simp; omega) hg hhex
  have hdl : (decode_hex g len).length = len := by simp [decode_hex]
  apply List.ext_getElem?
  intro j
  rw [store_hex_getElem?]
  by_cases hj : j < len
  · have h1 : 0 ≤ j ∧ j < 0 + len ∧ j < buf.length := by omega
    rw [if_pos h1, List.getElem?_append_left (by omega), ← hdec, store_hex_getElem?]
    have h2 : 0 ≤ j ∧ j < 0 + len ∧ j < (buf.take len).length := by
      simp; omega
    rw [if_pos h2]
  · have h1 : ¬ (0 ≤ j ∧ j < 0 + len ∧ j < buf.length) := by omega
    rw [if_neg h1, List.getElem?_append_right (by omega), hdl, List.getElem?_drop]
    congr 1
    omega

theorem hex_value_of_toLower (a b : Char) (ha : hexdigitp a = true) (hb : hexdigitp b = true)
    (h : a.toLower = b.toLower) : hex_digit_value a = hex_digit_value b :=
  hexdigitp_forall
    (fun a => ∀ b ∈ "0123456789ABCDEFabcdef".toList,
      a.toLower = b.toLower → hex_digit_value a = hex_digit_value b)
    (by decide) a ha b (hexdigitp_mem b hb) h

/-- Hex strings that differ in letter case only encode the same bytes. -/
theorem decode_hex_toLower (g g2 : List Char) (len : Nat)
    (hg : ∀ c ∈ g, hexdigitp c = true) (hg2 : ∀ c ∈ g2, hexdigitp c = true)
    (hmap : g2.map Char.toLower = g.map Char.toLower) :
    decode_hex g2 len = decode_hex g len := by
  have hlen : g2.length = g.length := by
    have := congrArg List.length hmap
    simpa using this
  have key : ∀ k, hex_digit_value (g2.getD k NUL) = hex_digit_value (g.getD k NUL) := by
    intro k
    by_cases hk : k < g.length
    · have hk2 : k < g2.length := by omega
      have e := congrArg (fun l => l[k]?) hmap
      simp only [List.getElem?_map, List.getElem?_eq_getElem hk,
        List.getElem?_eq_getElem hk2, Option.map_some', Option.some.injEq] at e
      rw [List.getD_eq_getElem _ _ hk, List.getD_eq_getElem _ _ hk2]
      exact hex_value_of_toLower _ _ (hg2 _ (List.getElem_mem hk2))
        (hg _ (List.getElem_mem hk)) e
    · have h1 : g.getD k NUL = NUL := by
        rw [List.getD_eq_getElem?_getD, List.getElem?_eq_none (by omega)]; rfl
      have h2 : g2.getD k NUL = NUL := by
        rw [List.getD_eq_getElem?_getD, List.getElem?_eq_none (by omega)]; rfl
      rw [h1, h2]
  unfold decode_hex
  apply List.map_congr_left
  intro i _
  rw [key, key]

/-- The run of `cmd_sethash` on a line made of a supported algorithm number, a
separator of blanks or tabs and a well-formed hash. -/
theorem cmd_sethash_run (env : Env) (S : AgentState) (digits sep h : List Char)
    (hd : digits ≠ []) (hdig : ∀ c ∈ digits, digitp c = true)
    (ha : decimal_value digits ≠ 0) (hsmall : decimal_value digits < 2 ^ 31)
    (hsup : env.gcry_md_test_algo (decimal_value digits : Int) = 0)
    (hsep : sep ≠ []) (hsp : ∀ c ∈ sep, c = ' ' ∨ c = '\t')
    (hhex : ∀ c ∈ h, hexdigitp c = true) (hlen : h.length ∈ [32, 40, 48, 64])
    (hmax : h.length / 2 ≤ env.MAX_DIGEST_LEN)
    (hbuf : S.ctrl.digest.value.length = env.MAX_DIGEST_LEN) :
    cmd_sethash env S (digits ++ sep ++ h)
      = ret { S with ctrl := { S.ctrl with digest :=
                { algo := (decimal_value digits : Int)
                  value := decode_hex h (h.length / 2)
                    ++ S.ctrl.digest.value.drop (h.length / 2)
                  valuelen := h.length / 2 } } } .OK := by
  obtain ⟨halgo, hhash⟩ := strtoul_digits digits sep h hd hdig hsmall hsep hsp hhex
  have hn : scan_hex_n h = h.length := scan_hex_n_all h hhex
  have hp : scan_hex_p h = [] := scan_hex_p_all h hhex
  have ha2 : ¬ ((decimal_value digits : Int) = 0) := by exact_mod_cast ha
  have hst := store_hex_prefix h S.ctrl.digest.value (h.length / 2) (by omega) (by omega) hhex
  have hmod : h.length % 2 = 0 ∧ ¬ (h.length % 2 = 1) ∧
      (h.length / 2 = 16 ∨ h.length / 2 = 20 ∨ h.length / 2 = 24 ∨ h.length / 2 = 32) := by
    simp only [List.mem_cons, List.mem_singleton, List.not_mem_nil, or_false] at hlen
    rcases hlen with h | h | h | h <;> rw [h] <;> decide
  obtain ⟨-, hodd, hsize⟩ := hmod
  have hsize2 : (h.length / 2 != 16 && h.length / 2 != 20 && h.length / 2 != 24
      && h.length / 2 != 32) = false := by
    rcases hsize with h | h | h | h <;> rw [h] <;> decide
  have hmax2 : ¬ (h.length / 2 > env.MAX_DIGEST_LEN) := by omega
  unfold cmd_sethash
  simp only [halgo, hhash, hn, hp, ha2, hsup, deref, List.headD_nil, ne_eq, not_true_eq_false,
    decide_False, Bool.or_self, Bool.false_eq_true, if_false, hodd, hmax2, Nat.sub_self,
    zero_fill, hst]
  simp only [bne, ne_eq] at hsize2 ⊢
  simp [hsize2]
  rcases hsize with h | h | h | h <;> simp [h]

/-- Claim C21: on a SETHASH line made of the decimal digits of a non-zero
algorithm number `a` that fits an `int` and passes the digest-algorithm test,
a separator of blanks or tabs, and a hash `h` of 32, 40, 48 or 64 hex digits
with `len(h)/2` at most `MAX_DIGEST_LEN`, the handler returns OK; afterwards
the digest algorithm is `a`, the digest length is `len(h)/2`, the first
`len(h)/2` digest bytes are the bytes `h` encodes and the bytes behind them are
untouched, and `keygrip`, `have_keygrip`, the options and the call log are
unchanged.  A hash that differs from `h` in letter case only leaves the same
state. -/
theorem sethash_stores_digest (env : Env) (S : AgentState) (digits sep h : List Char)
    (hd : digits ≠ []) (hdig : ∀ c ∈ digits, digitp c = true)
    (ha : decimal_value digits ≠ 0) (hsmall : decimal_value digits < 2 ^ 31)
    (hsup : env.gcry_md_test_algo (decimal_value digits : Int) = 0)
    (hsep : sep ≠ []) (hsp : ∀ c ∈ sep, c = ' ' ∨ c = '\t')
    (hhex : ∀ c ∈ h, hexdigitp c = true) (hlen : h.length ∈ [32, 40, 48, 64])
    (hmax : h.length / 2 ≤ env.MAX_DIGEST_LEN)
    (hbuf : S.ctrl.digest.value.length = env.MAX_DIGEST_LEN) :
    (cmd_sethash env S (digits ++ sep ++ h)).rc = AssuanStatus.OK ∧
    (cmd_sethash env S (digits ++ sep ++ h)).st.ctrl.digest.algo
      = (decimal_value digits : Int) ∧
    (cmd_sethash env S (digits ++ sep ++ h)).st.ctrl.digest.valuelen = h.length / 2 ∧
    (cmd_sethash env S (digits ++ sep ++ h)).st.ctrl.digest.value.take (h.length / 2)
      = decode_hex h (h.length / 2) ∧
    (cmd_sethash env S (digits ++ sep ++ h)).st.ctrl.digest.value.drop (h.length / 2)
      = S.ctrl.digest.value.drop (h.length / 2) ∧
    (cmd_sethash env S (digits ++ sep ++ h)).st.ctrl.keygrip = S.ctrl.keygrip ∧
    (cmd_sethash env S (digits ++ sep ++ h)).st.ctrl.have_keygrip = S.ctrl.have_keygrip ∧
    (cmd_sethash env S (digits ++ sep ++ h)).st.opt = S.opt ∧
    (cmd_sethash env S (digits ++ sep ++ h)).st.calls = S.calls ∧
    (∀ h2 : List Char, (∀ c ∈ h2, hexdigitp c = true) →
      h2.map Char.toLower = h.map Char.toLower →
      (cmd_sethash env S (digits ++ sep ++ h2)).rc = AssuanStatus.OK ∧
      (cmd_sethash env S (digits ++ sep ++ h2)).st
        = (cmd_sethash env S (digits ++ sep ++ h)).st) := by
  have hrun := cmd_sethash_run env S digits sep h hd hdig ha hsmall hsup hsep hsp hhex hlen
    hmax hbuf
  have hdl : (decode_hex h (h.length / 2)).length = h.length / 2 := by simp [decode_hex]
  refine ⟨?_, ?_, ?_, ?_, ?_, ?_, ?_, ?_, ?_, ?_⟩
  · rw [hrun]; rfl
  · rw [hrun]; rfl
  · rw [hrun]; rfl
  · rw [hrun]
    show (decode_hex h (h.length / 2) ++ _).take (h.length / 2) = _
    rw [List.take_left' hdl]
  · rw [hrun]
    show (decode_hex h (h.length / 2) ++ _).drop (h.length / 2) = _
    rw [List.drop_left' hdl]
  · rw [hrun]; rfl
  · rw [hrun]; rfl
  · rw [hrun]; rfl
  · rw [hrun]; rfl
  · intro h2 hhex2 hmap
    have hl2 : h2.length = h.length := by
      have := congrArg List.length hmap
      simpa using this
    have hrun2 := cmd_sethash_run env S digits sep h2 hd hdig ha hsmall hsup hsep hsp hhex2
      (by rw [hl2]; exact hlen) (by rw [hl2]; exact hmax) hbuf
    rw [hrun2, hrun, hl2, decode_hex_toLower h h2 _ hhex hhex2 hmap]
    exact ⟨rfl, rfl⟩

/-- Witness for `sethash_stores_digest`: algorithm 2 and a hash of 40 hex
digits in mixed case, separated by a blank and a tab. -/
theorem sethash_stores_digest_witness :
    (cmd_sethash sample_env (zero_state sample_env)
        ("2".toList ++ " \t".toList
          ++ "00112233445566778899aAbBcCdDeEfF01020304".toList)).st.ctrl.digest.valuelen
      = 20 :=
  (sethash_stores_digest sample_env (zero_state sample_env) "2".toList " \t".toList
    "00112233445566778899aAbBcCdDeEfF01020304".toList (by decide) (by decide) (by decide)
    (by decide) (by decide) (by decide) (by decide) (by decide) (by decide) (by decide)
    (by decide)).2.2.1

/-! ## Options on a command line -/

theorem deref_drop (l : List Char) (i : Nat) : deref (l.drop i) = l.getD i NUL := by
  simp [deref, List.headD_eq_head?_getD, List.head?_drop, List.getD_eq_getElem?_getD]

/-- What `strstr` finds is an occurrence of the needle inside the haystack. -/
theorem strstr_from_spec (needle : List Char) : ∀ (l : List Char) (k j : Nat),
    strstr_from needle l k = some j →
    ∃ i, j = k + i ∧ i ≤ l.length ∧ needle.isPrefixOf (l.drop i) = true := by
  intro l
  induction l with
  | nil =>
    intro k j h
    simp only [strstr_from] at h
    split_ifs at h with he
    · simp only [Option.some.injEq] at h
      refine ⟨0, by omega, by simp, ?_⟩
      cases needle with
      | nil => rfl
      | cons _ _ => simp at he
  | cons c s ih =>
    intro k j h
    simp only [strstr_from] at h
    split_ifs at h with hp hc
    · simp only [Option.some.injEq] at h
      exact ⟨0, by omega, by simp, by simpa using hp⟩
    · obtain ⟨i, hj, hi, hpre⟩ := ih (k + 1) j h
      exact ⟨i + 1, by omega, by simp; omega, by simpa using hpre⟩

/-- The sound half of `has_option`: when it answers true, the line holds an
occurrence of the name bounded by white space. -/
theorem has_option_sound (line name : List Char) (hnul : NUL ∉ line)
    (h : has_option line name = true) : bounded_occurrence line name = true := by
  unfold has_option at h
  cases hs : strstr line name with
  | none => simp [hs] at h
  | some k =>
    simp only [hs, Bool.and_eq_true, Bool.or_eq_true, beq_iff_eq] at h
    obtain ⟨i, hk, hi, hpre⟩ := strstr_from_spec name line 0 k hs
    have hki : k = i := by omega
    subst hki
    have hpre2 : name <+: line.drop k := List.isPrefixOf_iff_prefix.mp hpre
    have htake : (line.drop k).take name.length = name := List.prefix_iff_eq_take.mp hpre2 ▸ rfl
    have hlen : k + name.length ≤ line.length := by
      have := hpre2.length_le
      simp only [List.length_drop] at this
      omega
    unfold bounded_occurrence
    rw [List.any_eq_true]
    refine ⟨k, List.mem_range.mpr (by omega), ?_⟩
    simp only [bounded_at, htake, beq_self_eq_true, Bool.true_and, Bool.and_eq_true,
      Bool.or_eq_true, beq_iff_eq]
    obtain ⟨h1, h2⟩ := h
    rw [deref_drop] at h1
    rw [deref_drop] at h2
    simp only [spacep, Bool.or_eq_true, beq_iff_eq] at h1 h2
    refine ⟨by tauto, ?_⟩
    rcases h2 with h2 | h2
    · left; left
      by_contra hne
      have hlt : k + name.length < line.length := by omega
      rw [List.getD_eq_getElem _ _ hlt] at h2
      exact hnul (h2 ▸ List.getElem_mem hlt)
    · tauto

/-- Claim C24: on the line `--sendx --send` the option `--send` occurs bounded
by white space, at offset 8, yet `has_option` answers false, because it tests
only the first occurrence that `strstr` finds, the one inside `--sendx`; LEARN
on this line calls `agent_handle_learn` without the sink for the
certificates. -/
theorem has_option_first_occurrence_only :
    has_option "--sendx --send".toList "--send".toList = false ∧
    strstr "--sendx --send".toList "--send".toList = some 0 ∧
    bounded_at "--sendx --send".toList "--send".toList 8 = true ∧
    bounded_occurrence "--sendx --send".toList "--send".toList = true ∧
    (cmd_learn sample_env (zero_state sample_env) "--sendx --send".toList).st.calls
      = [Call.agent_handle_learn false] ∧
    (cmd_learn sample_env (zero_state sample_env) "--send".toList).st.calls
      = [Call.agent_handle_learn true] := by
  decide

end Command

namespace Frontend

/-! ## The shape of one dispatch -/

theorem next_db_nil (env : Env) (d : List KEYDB_SEARCH_DESC) (dbidx : Nat) (start : Bool)
    (st : session) :
    next_db env d [] dbidx start st =
      (.GPG_ERR_NOT_FOUND,
       { request := store_hint { st.request with next_dbidx := dbidx }
           (env.backend st.log { st.request with next_dbidx := dbidx } (.be_cache_not_found d))
         log := st.log ++ [⟨none, .be_cache_not_found d,
           env.backend st.log { st.request with next_dbidx := dbidx }
             (.be_cache_not_found d)⟩] }) := rfl

theorem next_db_skip (env : Env) (d : List KEYDB_SEARCH_DESC) (db : db_desc_s)
    (rest : List db_desc_s) (dbidx : Nat) (start : Bool) (st : session)
    (h : db.db_type = .DB_TYPE_NONE) :
    next_db env d (db :: rest) dbidx start st = next_db env d rest (dbidx + 1) start st := by
  rw [next_db, if_pos h]

/-- The outcomes of the dispatch switch on a non-empty slot, with the calls it
logs: a cache lookup; a plain keybox search; a failed seek; a seek followed by
a search that does not end in eof; a seek followed by a search that ends in eof
and the final mark. -/
theorem divert_cases (env : Env) (d : List KEYDB_SEARCH_DESC) (db : db_desc_s) (dbidx : Nat)
    (start : Bool) (st : session) (hN : db.db_type ≠ .DB_TYPE_NONE) :
    (db.db_type = .DB_TYPE_CACHE ∧ ∃ rep : be_reply,
      divert env d db dbidx start st =
        (rep.err, { request := store_hint st.request rep,
                    log := st.log ++
                      [⟨some dbidx, .be_cache_search db.backend_handle d, rep⟩] })) ∨
    (db.db_type = .DB_TYPE_KBX ∧ start = false ∧ ∃ rep : be_reply,
      divert env d db dbidx start st =
        (rep.err, { request := store_hint st.request rep,
                    log := st.log ++
                      [⟨some dbidx, .be_kbx_search db.backend_handle (some d), rep⟩] })) ∨
    (db.db_type = .DB_TYPE_KBX ∧ start = true ∧ ∃ rep : be_reply,
      rep.err ≠ .GPG_ERR_NO_ERROR ∧
      divert env d db dbidx start st =
        (rep.err, { request := store_hint st.request rep,
                    log := st.log ++ [⟨some dbidx,
                      .be_kbx_seek db.backend_handle st.request.last_cached_ubid, rep⟩] })) ∨
    (db.db_type = .DB_TYPE_KBX ∧ start = true ∧ ∃ rep1 rep2 : be_reply,
      rep1.err = .GPG_ERR_NO_ERROR ∧ rep2.err ≠ .GPG_ERR_EOF ∧
      divert env d db dbidx start st =
        (rep2.err, { request := store_hint (store_hint st.request rep1) rep2,
                     log := st.log ++ [⟨some dbidx,
                       .be_kbx_seek db.backend_handle st.request.last_cached_ubid, rep1⟩,
                       ⟨some dbidx, .be_kbx_search db.backend_handle (some d), rep2⟩] })) ∨
    (db.db_type = .DB_TYPE_KBX ∧ start = true ∧ ∃ rep1 rep2 rep3 : be_reply,
      rep1.err = .GPG_ERR_NO_ERROR ∧ rep2.err = .GPG_ERR_EOF ∧
      divert env d db dbidx start st =
        (.GPG_ERR_EOF,
         { request := store_hint (store_hint (store_hint st.request rep1) rep2) rep3,
           log := st.log ++ [⟨some dbidx,
             .be_kbx_seek db.backend_handle st.request.last_cached_ubid, rep1⟩,
             ⟨some dbidx, .be_kbx_search db.backend_handle (some d), rep2⟩,
             ⟨none, .be_cache_mark_final, rep3⟩] })) := by
  cases ht : db.db_type with
  | DB_TYPE_NONE => exact absurd ht hN
  | DB_TYPE_CACHE =>
    left
    exact ⟨rfl, _, by simp only [divert, ht, invoke]; rfl⟩
  | DB_TYPE_KBX =>
    right
    cases start with
    | false =>
      left
      exact ⟨rfl, rfl, _, by simp only [divert, ht, invoke]; rfl⟩
    | true =>
      right
      obtain ⟨rep1, hr1⟩ : ∃ r, env.backend st.log st.request
          (.be_kbx_seek db.backend_handle st.request.last_cached_ubid) = r := ⟨_, rfl⟩
      obtain ⟨rep2, hr2⟩ : ∃ r, env.backend
          (st.log ++ [⟨some dbidx,
            .be_kbx_seek db.backend_handle st.request.last_cached_ubid, rep1⟩])
          (store_hint st.request rep1) (.be_kbx_search db.backend_handle (some d)) = r :=
        ⟨_, rfl⟩
      obtain ⟨rep3, hr3⟩ : ∃ r, env.backend
          (st.log ++ [⟨some dbidx,
            .be_kbx_seek db.backend_handle st.request.last_cached_ubid, rep1⟩,
            ⟨some dbidx, .be_kbx_search db.backend_handle (some d), rep2⟩])
          (store_hint (store_hint st.request rep1) rep2) .be_cache_mark_final = r := ⟨_, rfl⟩
      by_cases h1 : rep1.err = .GPG_ERR_NO_ERROR
      · right
        by_cases h2 : rep2.err = .GPG_ERR_EOF
        · right
          refine ⟨rfl, rfl, rep1, rep2, rep3, h1, h2, ?_⟩
          simp [divert, ht, invoke, hr1, hr2, hr3, h1, h2]
        · left
          refine ⟨rfl, rfl, rep1, rep2, h1, h2, ?_⟩
          simp [divert, ht, invoke, hr1, hr2, h1, h2]
      · left
        refine ⟨rfl, rfl, rep1, h1, ?_⟩
        simp [divert, ht, invoke, hr1, h1]

/-- One round of the loop on a non-empty slot, given what the dispatch switch
returned. -/
theorem next_db_step (env : Env) (d : List KEYDB_SEARCH_DESC) (db : db_desc_s)
    (rest : List db_desc_s) (dbidx : Nat) (start : Bool) (st : session)
    (hN : db.db_type ≠ .DB_TYPE_NONE) (err : gpg_error_t) (st1 : session)
    (hd : divert env d db dbidx start
            { st with request := { st.request with next_dbidx := dbidx } } = (err, st1)) :
    next_db env d (db :: rest) dbidx start st =
      if err = .GPG_ERR_NO_ERROR then
        (err, { st1 with request := { st1.request with any_search := true, any_found := true } })
      else if err = .GPG_ERR_EOF then
        if db.db_type = .DB_TYPE_CACHE ∧ st1.request.last_cached_valid = true then
          if st1.request.last_cached_final = true then
            (err, { st1 with request := { st1.request with any_search := true } })
          else
            next_db env d rest (dbidx + 1) true
              { st1 with request := { st1.request with
                  any_search := true, next_dbidx := dbidx + 1 } }
        else
          next_db env d rest (dbidx + 1) false
            { st1 with request := { st1.request with
                any_search := true, next_dbidx := dbidx + 1 } }
      else (err, { st1 with request := { st1.request with any_search := true } }) := by
  rw [next_db, if_neg hN]
  simp only [hd, Bool.and_eq_true, decide_eq_true_eq]

/-! ## A scan in which every backend reports eof -/

/-- Calls made before the rest of a scan, none of them the negative-result
mark, carry over what is known about the rest of the scan. -/
theorem all_eof_extend (d : List KEYDB_SEARCH_DESC) (r : gpg_error_t × session)
    (log evs1 : List be_event) (hb : ∀ e ∈ evs1, is_mark_not_found e.call = false)
    (h : ∃ evs, r.2.log = (log ++ evs1) ++ evs ∧
      ((∀ e ∈ evs, answers_eof e) → (∀ e ∈ evs, ¬ final_hint e) →
        r.1 = .GPG_ERR_NOT_FOUND ∧
        ∃ pre rep, evs = pre ++ [⟨none, .be_cache_not_found d, rep⟩] ∧
          ∀ e ∈ pre, is_mark_not_found e.call = false)) :
    ∃ evs, r.2.log = log ++ evs ∧
      ((∀ e ∈ evs, answers_eof e) → (∀ e ∈ evs, ¬ final_hint e) →
        r.1 = .GPG_ERR_NOT_FOUND ∧
        ∃ pre rep, evs = pre ++ [⟨none, .be_cache_not_found d, rep⟩] ∧
          ∀ e ∈ pre, is_mark_not_found e.call = false) := by
  obtain ⟨evs2, hlog, hc⟩ := h
  refine ⟨evs1 ++ evs2, by rw [hlog, List.append_assoc], fun H1 H2 => ?_⟩
  obtain ⟨hr, pre, rep, hpre, hnf⟩ :=
    hc (fun e he => H1 e (List.mem_append_right _ he))
       (fun e he => H2 e (List.mem_append_right _ he))
  refine ⟨hr, evs1 ++ pre, rep, by rw [hpre, List.append_assoc], ?_⟩
  intro e he
  rcases List.mem_append.mp he with h | h
  · exact hb e h
  · exact hnf e h

theorem all_eof_stop (d : List KEYDB_SEARCH_DESC) (r : gpg_error_t × session)
    (log evs1 : List be_event) (hlog : r.2.log = log ++ evs1)
    (hbad : ∃ e ∈ evs1, ¬ answers_eof e ∨ final_hint e) :
    ∃ evs, r.2.log = log ++ evs ∧
      ((∀ e ∈ evs, answers_eof e) → (∀ e ∈ evs, ¬ final_hint e) →
        r.1 = .GPG_ERR_NOT_FOUND ∧
        ∃ pre rep, evs = pre ++ [⟨none, .be_cache_not_found d, rep⟩] ∧
          ∀ e ∈ pre, is_mark_not_found e.call = false) := by
  refine ⟨evs1, hlog, fun H1 H2 => ?_⟩
  obtain ⟨e, he, hb⟩ := hbad
  rcases hb with hb | hb
  · exact absurd (H1 e he) hb
  · exact absurd hb (H2 e he)

theorem next_db_all_eof (env : Env) (d : List KEYDB_SEARCH_DESC) :
    ∀ (dbs : List db_desc_s) (dbidx : Nat) (start : Bool) (st : session),
    ∃ evs, (next_db env d dbs dbidx start st).2.log = st.log ++ evs ∧
      ((∀ e ∈ evs, answers_eof e) → (∀ e ∈ evs, ¬ final_hint e) →
        (next_db env d dbs dbidx start st).1 = .GPG_ERR_NOT_FOUND ∧
        ∃ pre rep, evs = pre ++ [⟨none, .be_cache_not_found d, rep⟩] ∧
          ∀ e ∈ pre, is_mark_not_found e.call = false) := by
  intro dbs
  induction dbs with
  | nil =>
    intro dbidx start st
    rw [next_db_nil]
    exact ⟨[_], rfl, fun _ _ => ⟨rfl, [], _, rfl, by simp⟩⟩
  | cons db rest ih =>
    intro dbidx start st
    by_cases hN : db.db_type = .DB_TYPE_NONE
    · rw [next_db_skip _ _ _ _ _ _ _ hN]
      exact ih _ _ _
    · have hstep := next_db_step env d db rest dbidx start st hN
      rcases divert_cases env d db dbidx start
          { st with request := { st.request with next_dbidx := dbidx } } hN with
        ⟨ht, rep, hr⟩ | ⟨ht, _, rep, hr⟩ | ⟨ht, _, rep, h1, hr⟩ |
        ⟨ht, _, rep1, rep2, h1, h2, hr⟩ | ⟨ht, _, rep1, rep2, rep3, h1, h2, hr⟩
      · -- cache lookup
        rw [hstep _ _ hr]
        by_cases e0 : rep.err = .GPG_ERR_NO_ERROR
        · rw [if_pos e0]
          exact all_eof_stop d _ _ _ rfl ⟨_, List.mem_singleton_self _,
            Or.inl (by simp [answers_eof, e0])⟩
        · rw [if_neg e0]
          by_cases e1 : rep.err = .GPG_ERR_EOF
          · rw [if_pos e1]
            by_cases hv : rep.last_cached_valid = true
            · by_cases hf : rep.last_cached_final = true
              · rw [if_pos ⟨ht, by simpa [store_hint] using hv⟩,
                  if_pos (by simpa [store_hint] using hf)]
                exact all_eof_stop d _ _ _ rfl ⟨_, List.mem_singleton_self _,
                  Or.inr (by simp [final_hint, hv, hf])⟩
              · rw [if_pos ⟨ht, by simpa [store_hint] using hv⟩,
                  if_neg (by simpa [store_hint] using hf)]
                exact all_eof_extend d _ _ _ (by simp [is_mark_not_found]) (ih _ _ _)
            · rw [if_neg (by simp [store_hint, hv])]
              exact all_eof_extend d _ _ _ (by simp [is_mark_not_found]) (ih _ _ _)
          · rw [if_neg e1]
            exact all_eof_stop d _ _ _ rfl ⟨_, List.mem_singleton_self _,
              Or.inl (by simp [answers_eof, e1])⟩
      · -- plain keybox search
        rw [hstep _ _ hr]
        by_cases e0 : rep.err = .GPG_ERR_NO_ERROR
        · rw [if_pos e0]
          exact all_eof_stop d _ _ _ rfl ⟨_, List.mem_singleton_self _,
            Or.inl (by simp [answers_eof, e0])⟩
        · rw [if_neg e0]
          by_cases e1 : rep.err = .GPG_ERR_EOF
          · rw [if_pos e1, if_neg (by simp [ht])]
            exact all_eof_extend d _ _ _ (by simp [is_mark_not_found]) (ih _ _ _)
          · rw [if_neg e1]
            exact all_eof_stop d _ _ _ rfl ⟨_, List.mem_singleton_self _,
              Or.inl (by simp [answers_eof, e1])⟩
      · -- failed seek
        rw [hstep _ _ hr, if_neg h1]
        by_cases e1 : rep.err = .GPG_ERR_EOF
        · rw [if_pos e1, if_neg (by simp [ht])]
          exact all_eof_extend d _ _ _ (by simp [is_mark_not_found]) (ih _ _ _)
        · rw [if_neg e1]
          exact all_eof_stop d _ _ _ rfl ⟨_, List.mem_singleton_self _,
            Or.inl (by simp [answers_eof, e1, h1])⟩
      · -- seek, then a search that does not end in eof
        rw [hstep _ _ hr, if_neg h2]
        by_cases e0 : rep2.err = .GPG_ERR_NO_ERROR
        · rw [if_pos e0]
          exact all_eof_stop d _ _ _ rfl ⟨_, List.mem_cons_of_mem _ (List.mem_singleton_self _),
            Or.inl (by simp [answers_eof, e0])⟩
        · rw [if_neg e0]
          exact all_eof_stop d _ _ _ rfl ⟨_, List.mem_cons_of_mem _ (List.mem_singleton_self _),
            Or.inl (by simp [answers_eof, h2])⟩
      · -- seek, search ending in eof, final mark
        rw [hstep _ _ hr, if_neg (by simp), if_pos rfl, if_neg (by simp [ht])]
        exact all_eof_extend d _ _ _ (by simp [is_mark_not_found]) (ih _ _ _)

theorem get_request_some (env : Env) (ctrl : ctrl_s)
    (hreq : ctrl.opgp_req ≠ none ∨ env.xtrycalloc_ok = true) :
    ∃ st, get_request env ctrl = some st ∧ st.log = ctrl.log := by
  unfold get_request
  cases h : ctrl.opgp_req with
  | some request => exact ⟨_, rfl, rfl⟩
  | none =>
    rcases hreq with h1 | h1
    · exact absurd h h1
    · simp only [h1, if_true]
      exact ⟨_, rfl, rfl⟩

theorem new_events_append (log evs : List be_event) (st : session)
    (h : st.log = log ++ evs) : new_events log (to_ctrl st) = evs := by
  unfold new_events to_ctrl
  simp only [h]
  exact List.drop_left' rfl

theorem reset_loop_log (env : Env) :
    ∀ (dbs : List db_desc_s) (dbidx : Nat) (st : session),
    ∃ evs, (reset_loop env dbs dbidx st).2.log = st.log ++ evs ∧
      (∀ e ∈ evs, ∃ h, e.call = .be_kbx_search h none) ∧
      ((∀ e ∈ evs, answers_eof e) → (reset_loop env dbs dbidx st).1 = .GPG_ERR_NO_ERROR) := by
  intro dbs
  induction dbs with
  | nil =>
    intro dbidx st
    exact ⟨[], by simp [reset_loop], by simp, fun _ => rfl⟩
  | cons db rest ih =>
    intro dbidx st
    cases ht : db.db_type with
    | DB_TYPE_NONE => simp only [reset_loop, ht]; exact ih _ _
    | DB_TYPE_CACHE => simp only [reset_loop, ht]; exact ih _ _
    | DB_TYPE_KBX =>
      simp only [reset_loop, ht]
      by_cases h0 : (invoke env st (some dbidx) (.be_kbx_search db.backend_handle none)).1
          = .GPG_ERR_NO_ERROR
      · rw [if_neg (by simpa using h0)]
        obtain ⟨evs, hlog, hc, he⟩ := ih (dbidx + 1)
          (invoke env st (some dbidx) (.be_kbx_search db.backend_handle none)).2
        refine ⟨(⟨some dbidx, .be_kbx_search db.backend_handle none,
          env.backend st.log st.request (.be_kbx_search db.backend_handle none)⟩ : be_event)
            :: evs, by rw [hlog]; simp [invoke], ?_, ?_⟩
        · intro e hm
          rcases List.mem_cons.mp hm with h | h
          · exact ⟨_, by rw [h]⟩
          · exact hc e h
        · intro H
          exact he (fun e hm => H e (List.mem_cons_of_mem _ hm))
      · rw [if_pos (by simpa using h0)]
        refine ⟨[_], rfl, ?_, ?_⟩
        · intro e hm
          exact ⟨_, by rw [List.mem_singleton.mp hm]⟩
        · intro H
          have := H _ (List.mem_singleton_self _)
          simp only [answers_eof] at this
          exact absurd this h0

theorem scan_all_eof (env : Env) (databases : List db_desc_s) (d : List KEYDB_SEARCH_DESC)
    (st : session) (log0 evs0 : List be_event) (hl : st.log = log0 ++ evs0)
    (hb : ∀ e ∈ evs0, is_mark_not_found e.call = false) :
    ∃ evs, new_events log0 (scan env databases d st).2 = evs ∧
      ((∀ e ∈ evs, answers_eof e) → (∀ e ∈ evs, ¬ final_hint e) →
        (scan env databases d st).1 = .GPG_ERR_NOT_FOUND ∧
        ∃ pre rep, evs = pre ++ [⟨none, .be_cache_not_found d, rep⟩] ∧
          ∀ e ∈ pre, is_mark_not_found e.call = false) := by
  have h := next_db_all_eof env d (databases.drop st.request.next_dbidx)
    st.request.next_dbidx false st
  rw [hl] at h
  obtain ⟨evs, hlog, hc⟩ := all_eof_extend d _ log0 evs0 hb h
  exact ⟨evs, new_events_append log0 evs _ hlog, hc⟩

/-- Claim C6 fails as stated, on the sample table.  First run: the cache, the
only backend queried, returns eof with a valid hint marked final, and
`kbxd_search` returns eof without any `be_cache_not_found`.  Second run: with
`reset` set the reset call of the first keybox file returns eof, which is
returned at once.  Third run: the request object cannot be allocated and no
backend is called at all. -/
theorem search_all_eof_counterexample :
    kbxd_search final_env sample_table fresh_ctrl (some [5]) false =
      (.GPG_ERR_EOF,
       { opgp_req := some { any_search := true, any_found := false, next_dbidx := 0,
                            last_cached_valid := true, last_cached_final := true,
                            last_cached_ubid := [7] },
         log := [⟨some 0, .be_cache_search 0 [5], ⟨.GPG_ERR_EOF, true, true, [7]⟩⟩] }) ∧
    kbxd_search resume_env sample_table fresh_ctrl (some [5]) true =
      (.GPG_ERR_EOF,
       { opgp_req := some calloc_request,
         log := [⟨some 2, .be_kbx_search 1 none, ⟨.GPG_ERR_EOF, false, false, []⟩⟩] }) ∧
    kbxd_search oom_env sample_table fresh_ctrl (some [5]) false =
      (.GPG_ERR_OTHER 12, fresh_ctrl) := by
  refine ⟨by decide, by decide, by decide⟩

/-- Claim C6, amended: when the request object exists or can be allocated, every
reset call succeeds, every backend that is queried returns eof and no cache
lookup leaves a valid hint marked final, `kbxd_search` with a descriptor
returns NotFound and the cache receives exactly one `be_cache_not_found`
call, for that descriptor, as the last backend call. -/
theorem search_all_eof_not_found (env : Env) (databases : List db_desc_s) (ctrl : ctrl_s)
    (d : List KEYDB_SEARCH_DESC) (reset : Bool)
    (hreq : ctrl.opgp_req ≠ none ∨ env.xtrycalloc_ok = true)
    (heof : ∀ e ∈ new_events ctrl.log (kbxd_search env databases ctrl (some d) reset).2,
      answers_eof e)
    (hfin : ∀ e ∈ new_events ctrl.log (kbxd_search env databases ctrl (some d) reset).2,
      ¬ final_hint e) :
    (kbxd_search env databases ctrl (some d) reset).1 = .GPG_ERR_NOT_FOUND ∧
    ∃ pre rep,
      new_events ctrl.log (kbxd_search env databases ctrl (some d) reset).2
        = pre ++ [⟨none, .be_cache_not_found d, rep⟩] ∧
      ∀ e ∈ pre, is_mark_not_found e.call = false := by
  obtain ⟨st, hst, hl⟩ := get_request_some env ctrl hreq
  cases reset with
  | false =>
    have hk : kbxd_search env databases ctrl (some d) false = scan env databases d st := by
      simp [kbxd_search, hst]
    rw [hk] at heof hfin ⊢
    obtain ⟨evs, hlog, hc⟩ := scan_all_eof env databases d st ctrl.log []
      (by rw [hl, List.append_nil]) (by simp)
    rw [hlog] at heof hfin ⊢
    exact hc heof hfin
  | true =>
    obtain ⟨evs0, hlog0, hcall0, hok0⟩ := reset_loop_log env databases 0 st
    rw [hl] at hlog0
    by_cases h0 : (reset_loop env databases 0 st).1 = .GPG_ERR_NO_ERROR
    · have hk : kbxd_search env databases ctrl (some d) true =
          scan env databases d
            { request := reset_cursor (reset_loop env databases 0 st).2.request,
              log := (reset_loop env databases 0 st).2.log } := by
        simp [kbxd_search, hst, h0]
      rw [hk] at heof hfin ⊢
      obtain ⟨evs, hlog, hc⟩ := scan_all_eof env databases d
        { request := reset_cursor (reset_loop env databases 0 st).2.request,
          log := (reset_loop env databases 0 st).2.log } ctrl.log evs0 hlog0
        (fun e he => by obtain ⟨h, hh⟩ := hcall0 e he; simp [hh, is_mark_not_found])
      rw [hlog] at heof hfin ⊢
      exact hc heof hfin
    · exfalso
      have hk : kbxd_search env databases ctrl (some d) true =
          ((reset_loop env databases 0 st).1, to_ctrl (reset_loop env databases 0 st).2) := by
        simp [kbxd_search, hst, h0]
      rw [hk] at heof
      simp only at heof
      rw [new_events_append ctrl.log evs0 _ hlog0] at heof
      exact h0 (hok0 heof)

/-- Witness for `search_all_eof_not_found`: on the sample table with a cache
hint that is not final every backend returns eof, and the scan ends with the
negative-result mark. -/
theorem search_all_eof_not_found_witness :
    (kbxd_search resume_env sample_table fresh_ctrl (some [5]) false).1
      = .GPG_ERR_NOT_FOUND :=
  (search_all_eof_not_found resume_env sample_table fresh_ctrl [5] false
    (Or.inr rfl) (by decide) (by decide)).1

/-! ## The cursor never regresses -/

theorem next_db_cursor (env : Env) (d : List KEYDB_SEARCH_DESC) :
    ∀ (dbs : List db_desc_s) (dbidx : Nat) (start : Bool) (st : session),
    ∃ evs, (next_db env d dbs dbidx start st).2.log = st.log ++ evs ∧
      dbidx ≤ (next_db env d dbs dbidx start st).2.request.next_dbidx ∧
      ∀ e ∈ evs, ∀ j, e.slot = some j → dbidx ≤ j := by
  intro dbs
  induction dbs with
  | nil =>
    intro dbidx start st
    rw [next_db_nil]
    exact ⟨[_], rfl, by simp [store_hint], by simp⟩
  | cons db rest ih =>
    intro dbidx start st
    by_cases hN : db.db_type = .DB_TYPE_NONE
    · rw [next_db_skip _ _ _ _ _ _ _ hN]
      obtain ⟨evs, h1, h2, h3⟩ := ih (dbidx + 1) start st
      exact ⟨evs, h1, by omega, fun e he j hj => by have := h3 e he j hj; omega⟩
    · have hstep := next_db_step env d db rest dbidx start st hN
      have hcont : ∀ (evs1 : List be_event) (b : Bool) (s1 : session),
          s1.log = st.log ++ evs1 → (∀ e ∈ evs1, ∀ j, e.slot = some j → dbidx ≤ j) →
          ∃ evs, (next_db env d rest (dbidx + 1) b s1).2.log = st.log ++ evs ∧
            dbidx ≤ (next_db env d rest (dbidx + 1) b s1).2.request.next_dbidx ∧
            ∀ e ∈ evs, ∀ j, e.slot = some j → dbidx ≤ j := by
        intro evs1 b s1 hl hs
        obtain ⟨evs, h1, h2, h3⟩ := ih (dbidx + 1) b s1
        refine ⟨evs1 ++ evs, by rw [h1, hl, List.append_assoc], by omega, ?_⟩
        intro e he j hj
        rcases List.mem_append.mp he with h | h
        · exact hs e h j hj
        · have := h3 e h j hj; omega
      rcases divert_cases env d db dbidx start
          { st with request := { st.request with next_dbidx := dbidx } } hN with
        ⟨_, rep, hr⟩ | ⟨_, _, rep, hr⟩ | ⟨_, _, rep, _, hr⟩ |
        ⟨_, _, rep1, rep2, _, _, hr⟩ | ⟨_, _, rep1, rep2, rep3, _, _, hr⟩ <;>
      · rw [hstep _ _ hr]
        split_ifs <;>
          first
          | exact hcont _ _ _ rfl (by simp)
          | exact ⟨_, rfl, by simp [store_hint], by simp⟩

theorem kbxd_search_cursor (env : Env) (databases : List db_desc_s) (ctrl : ctrl_s)
    (d : List KEYDB_SEARCH_DESC) :
    ∃ evs, (kbxd_search env databases ctrl (some d) false).2.log = ctrl.log ++ evs ∧
      cursor ctrl ≤ cursor (kbxd_search env databases ctrl (some d) false).2 ∧
      ∀ e ∈ evs, ∀ j, e.slot = some j → cursor ctrl ≤ j := by
  cases hq : ctrl.opgp_req with
  | some request =>
    have hk : kbxd_search env databases ctrl (some d) false
        = scan env databases d { request := request, log := ctrl.log } := by
      simp [kbxd_search, get_request, hq]
    obtain ⟨evs, h1, h2, h3⟩ := next_db_cursor env d (databases.drop request.next_dbidx)
      request.next_dbidx false { request := request, log := ctrl.log }
    rw [hk]
    refine ⟨evs, h1, ?_, ?_⟩
    · simpa [cursor, hq, scan, to_ctrl] using h2
    · simpa [cursor, hq] using h3
  | none =>
    by_cases ha : env.xtrycalloc_ok = true
    · have hk : kbxd_search env databases ctrl (some d) false
          = scan env databases d { request := calloc_request, log := ctrl.log } := by
        simp [kbxd_search, get_request, hq, ha]
      obtain ⟨evs, h1, _, _⟩ := next_db_cursor env d
        (databases.drop calloc_request.next_dbidx) calloc_request.next_dbidx false
        { request := calloc_request, log := ctrl.log }
      rw [hk]
      exact ⟨evs, h1, by simp [cursor, hq], by simp [cursor, hq]⟩
    · have hk : kbxd_search env databases ctrl (some d) false = (env.syserror, ctrl) := by
        simp [kbxd_search, get_request, hq, ha]
      rw [hk]
      exact ⟨[], by simp, le_refl _, by simp⟩

theorem search_seq_cursor (env : Env) (databases : List db_desc_s) :
    ∀ (ds : List (List KEYDB_SEARCH_DESC)) (ctrl : ctrl_s),
    ∃ evs, (search_seq env databases ctrl ds).log = ctrl.log ++ evs ∧
      cursor ctrl ≤ cursor (search_seq env databases ctrl ds) ∧
      ∀ e ∈ evs, ∀ j, e.slot = some j → cursor ctrl ≤ j := by
  intro ds
  induction ds with
  | nil =>
    intro ctrl
    exact ⟨[], by simp [search_seq], le_refl _, by simp⟩
  | cons d ds ih =>
    intro ctrl
    obtain ⟨evs1, h1, h2, h3⟩ := kbxd_search_cursor env databases ctrl d
    obtain ⟨evs2, h4, h5, h6⟩ := ih (kbxd_search env databases ctrl (some d) false).2
    refine ⟨evs1 ++ evs2, ?_, ?_, ?_⟩
    · simp only [search_seq]
      rw [h4, h1, List.append_assoc]
    · simp only [search_seq]
      omega
    · intro e he j hj
      rcases List.mem_append.mp he with h | h
      · exact h3 e h j hj
      · have := h6 e h j hj
        omega

/-- Claim C9: a `kbxd_search` with a descriptor and without reset leaves
`next_dbidx` at least where it was and calls no backend of a slot below the
initial `next_dbidx`; the same holds for any sequence of such searches. -/
theorem search_cursor_never_regresses (env : Env) (databases : List db_desc_s) :
    (∀ (request : db_request_s) (log : List be_event) (d : List KEYDB_SEARCH_DESC),
      (∃ request', (kbxd_search env databases { opgp_req := some request, log := log }
            (some d) false).2.opgp_req = some request' ∧
          request.next_dbidx ≤ request'.next_dbidx) ∧
      ∀ e ∈ new_events log
          (kbxd_search env databases { opgp_req := some request, log := log } (some d) false).2,
        ∀ j, e.slot = some j → request.next_dbidx ≤ j) ∧
    (∀ (ds : List (List KEYDB_SEARCH_DESC)) (ctrl : ctrl_s),
      cursor ctrl ≤ cursor (search_seq env databases ctrl ds) ∧
      ∀ e ∈ new_events ctrl.log (search_seq env databases ctrl ds),
        ∀ j, e.slot = some j → cursor ctrl ≤ j) := by
  constructor
  · intro request log d
    obtain ⟨evs, h1, h2, h3⟩ := kbxd_search_cursor env databases
      { opgp_req := some request, log := log } d
    have hn : new_events log
        (kbxd_search env databases { opgp_req := some request, log := log } (some d) false).2
        = evs := by
      unfold new_events
      rw [h1]
      exact List.drop_left' rfl
    refine ⟨?_, by rw [hn]; exact h3⟩
    have hk : kbxd_search env databases { opgp_req := some request, log := log } (some d) false
        = scan env databases d { request := request, log := log } := by
      simp [kbxd_search, get_request]
    rw [hk] at h2 ⊢
    exact ⟨_, rfl, by simpa [cursor, scan, to_ctrl] using h2⟩
  · intro ds ctrl
    obtain ⟨evs, h1, h2, h3⟩ := search_seq_cursor env databases ds ctrl
    refine ⟨h2, ?_⟩
    have hn : new_events ctrl.log (search_seq env databases ctrl ds) = evs := by
      unfold new_events
      rw [h1]
      exact List.drop_left' rfl
    rw [hn]
    exact h3

/-- Witness for `search_cursor_never_regresses`: two searches in a row on the
sample table; the first one moves the cursor from 0 past the end of the table,
where the second one leaves it. -/
theorem search_cursor_never_regresses_witness :
    cursor fresh_ctrl = 0 ∧
    cursor (search_seq resume_env sample_table fresh_ctrl [[5]]) = 5 ∧
    cursor (search_seq resume_env sample_table fresh_ctrl [[5], [6]]) = 5 :=
  ⟨by decide,
   le_antisymm (by decide)
     (((search_cursor_never_regresses resume_env sample_table).2 [[5]]
        (search_seq resume_env sample_table fresh_ctrl [[5]])).1.trans (by decide)),
   by decide⟩

/-! ## A backend that finds the key -/

/-- What a scan guarantees once one of its searches has returned success. -/
theorem found_stop (r : gpg_error_t × session) (log evs1 : List be_event) (dbidx : Nat)
    (hlog : r.2.log = log ++ evs1) (hcur : dbidx ≤ r.2.request.next_dbidx)
    (hc : ∀ e ∈ evs1, is_search e.call = true → e.reply.err = .GPG_ERR_NO_ERROR →
      r.1 = .GPG_ERR_NO_ERROR ∧ r.2.request.any_found = true ∧
      r.2.request.any_search = true ∧ e.slot = some r.2.request.next_dbidx ∧
      (∃ pre, evs1 = pre ++ [e]) ∧
      (∀ e' ∈ evs1, is_mark_not_found e'.call = false) ∧
      (∀ e' ∈ evs1, ∀ j, e'.slot = some j → j ≤ r.2.request.next_dbidx)) :
    ∃ evs, r.2.log = log ++ evs ∧ dbidx ≤ r.2.request.next_dbidx ∧
      ∀ e ∈ evs, is_search e.call = true → e.reply.err = .GPG_ERR_NO_ERROR →
        r.1 = .GPG_ERR_NO_ERROR ∧ r.2.request.any_found = true ∧
        r.2.request.any_search = true ∧ e.slot = some r.2.request.next_dbidx ∧
        (∃ pre, evs = pre ++ [e]) ∧
        (∀ e' ∈ evs, is_mark_not_found e'.call = false) ∧
        (∀ e' ∈ evs, ∀ j, e'.slot = some j → j ≤ r.2.request.next_dbidx) :=
  ⟨evs1, hlog, hcur, hc⟩

theorem found_extend (r : gpg_error_t × session) (log evs1 : List be_event) (dbidx : Nat)
    (hb : ∀ e ∈ evs1, is_mark_not_found e.call = false ∧
      (is_search e.call = true → e.reply.err ≠ .GPG_ERR_NO_ERROR) ∧
      ∀ j, e.slot = some j → j ≤ dbidx)
    (h : ∃ evs, r.2.log = (log ++ evs1) ++ evs ∧ dbidx + 1 ≤ r.2.request.next_dbidx ∧
      ∀ e ∈ evs, is_search e.call = true → e.reply.err = .GPG_ERR_NO_ERROR →
        r.1 = .GPG_ERR_NO_ERROR ∧ r.2.request.any_found = true ∧
        r.2.request.any_search = true ∧ e.slot = some r.2.request.next_dbidx ∧
        (∃ pre, evs = pre ++ [e]) ∧
        (∀ e' ∈ evs, is_mark_not_found e'.call = false) ∧
        (∀ e' ∈ evs, ∀ j, e'.slot = some j → j ≤ r.2.request.next_dbidx)) :
    ∃ evs, r.2.log = log ++ evs ∧ dbidx ≤ r.2.request.next_dbidx ∧
      ∀ e ∈ evs, is_search e.call = true → e.reply.err = .GPG_ERR_NO_ERROR →
        r.1 = .GPG_ERR_NO_ERROR ∧ r.2.request.any_found = true ∧
        r.2.request.any_search = true ∧ e.slot = some r.2.request.next_dbidx ∧
        (∃ pre, evs = pre ++ [e]) ∧
        (∀ e' ∈ evs, is_mark_not_found e'.call = false) ∧
        (∀ e' ∈ evs, ∀ j, e'.slot = some j → j ≤ r.2.request.next_dbidx) := by
  obtain ⟨evs2, hlog, hcur, hc⟩ := h
  refine ⟨evs1 ++ evs2, by rw [hlog, List.append_assoc], by omega, ?_⟩
  intro e he hs hf
  rcases List.mem_append.mp he with h1 | h2
  · exact absurd hf ((hb e h1).2.1 hs)
  · obtain ⟨c1, c2, c3, c4, ⟨pre, c5⟩, c6, c7⟩ := hc e h2 hs hf
    refine ⟨c1, c2, c3, c4, ⟨evs1 ++ pre, by rw [c5, List.append_assoc]⟩, ?_, ?_⟩
    · intro e' he'
      rcases List.mem_append.mp he' with h | h
      · exact (hb e' h).1
      · exact c6 e' h
    · intro e' he' j hj
      rcases List.mem_append.mp he' with h | h
      · have := (hb e' h).2.2 j hj
        omega
      · exact c7 e' h j hj

theorem next_db_found (env : Env) (d : List KEYDB_SEARCH_DESC) :
    ∀ (dbs : List db_desc_s) (dbidx : Nat) (start : Bool) (st : session),
    ∃ evs, (next_db env d dbs dbidx start st).2.log = st.log ++ evs ∧
      dbidx ≤ (next_db env d dbs dbidx start st).2.request.next_dbidx ∧
      ∀ e ∈ evs, is_search e.call = true → e.reply.err = .GPG_ERR_NO_ERROR →
        (next_db env d dbs dbidx start st).1 = .GPG_ERR_NO_ERROR ∧
        (next_db env d dbs dbidx start st).2.request.any_found = true ∧
        (next_db env d dbs dbidx start st).2.request.any_search = true ∧
        e.slot = some (next_db env d dbs dbidx start st).2.request.next_dbidx ∧
        (∃ pre, evs = pre ++ [e]) ∧
        (∀ e' ∈ evs, is_mark_not_found e'.call = false) ∧
        (∀ e' ∈ evs, ∀ j, e'.slot = some j →
          j ≤ (next_db env d dbs dbidx start st).2.request.next_dbidx) := by
  intro dbs
  induction dbs with
  | nil =>
    intro dbidx start st
    rw [next_db_nil]
    refine found_stop _ _ _ dbidx rfl (by simp [store_hint]) ?_
    intro e he hs _
    rw [List.mem_singleton.mp he] at hs
    simp [is_search] at hs
  | cons db rest ih =>
    intro dbidx start st
    by_cases hN : db.db_type = .DB_TYPE_NONE
    · rw [next_db_skip _ _ _ _ _ _ _ hN]
      obtain ⟨evs, h1, h2, h3⟩ := ih (dbidx + 1) start st
      exact ⟨evs, h1, by omega, h3⟩
    · have hstep := next_db_step env d db rest dbidx start st hN
      rcases divert_cases env d db dbidx start
          { st with request := { st.request with next_dbidx := dbidx } } hN with
        ⟨ht, rep, hr⟩ | ⟨ht, _, rep, hr⟩ | ⟨ht, _, rep, h1, hr⟩ |
        ⟨ht, _, rep1, rep2, h1, h2, hr⟩ | ⟨ht, _, rep1, rep2, rep3, h1, h2, hr⟩
      · -- cache lookup
        rw [hstep _ _ hr]
        by_cases e0 : rep.err = .GPG_ERR_NO_ERROR
        · rw [if_pos e0]
          refine found_stop _ _ _ dbidx rfl (by simp [store_hint]) ?_
          intro e he _ _
          rw [List.mem_singleton.mp he]
          simp [store_hint, e0, is_mark_not_found]
        · rw [if_neg e0]
          by_cases e1 : rep.err = .GPG_ERR_EOF
          · rw [if_pos e1]
            by_cases hv : rep.last_cached_valid = true
            · by_cases hf : rep.last_cached_final = true
              · rw [if_pos ⟨ht, by simpa [store_hint] using hv⟩,
                  if_pos (by simpa [store_hint] using hf)]
                refine found_stop _ _ _ dbidx rfl (by simp [store_hint]) ?_
                intro e he _ hf
                rw [List.mem_singleton.mp he] at hf
                exact absurd hf e0
              · rw [if_pos ⟨ht, by simpa [store_hint] using hv⟩,
                  if_neg (by simpa [store_hint] using hf)]
                exact found_extend _ _ _ dbidx (by simp [is_mark_not_found, e0]) (ih _ _ _)
            · rw [if_neg (by simp [store_hint, hv])]
              exact found_extend _ _ _ dbidx (by simp [is_mark_not_found, e0]) (ih _ _ _)
          · rw [if_neg e1]
            refine found_stop _ _ _ dbidx rfl (by simp [store_hint]) ?_
            intro e he _ hf
            rw [List.mem_singleton.mp he] at hf
            exact absurd hf e0
      · -- plain keybox search
        rw [hstep _ _ hr]
        by_cases e0 : rep.err = .GPG_ERR_NO_ERROR
        · rw [if_pos e0]
          refine found_stop _ _ _ dbidx rfl (by simp [store_hint]) ?_
          intro e he _ _
          rw [List.mem_singleton.mp he]
          simp [store_hint, e0, is_mark_not_found]
        · rw [if_neg e0]
          by_cases e1 : rep.err = .GPG_ERR_EOF
          · rw [if_pos e1, if_neg (by simp [ht])]
            exact found_extend _ _ _ dbidx (by simp [is_mark_not_found, e0]) (ih _ _ _)
          · rw [if_neg e1]
            refine found_stop _ _ _ dbidx rfl (by simp [store_hint]) ?_
            intro e he _ hf
            rw [List.mem_singleton.mp he] at hf
            exact absurd hf e0
      · -- failed seek
        rw [hstep _ _ hr, if_neg h1]
        by_cases e1 : rep.err = .GPG_ERR_EOF
        · rw [if_pos e1, if_neg (by simp [ht])]
          exact found_extend _ _ _ dbidx (by simp [is_mark_not_found, is_search]) (ih _ _ _)
        · rw [if_neg e1]
          refine found_stop _ _ _ dbidx rfl (by simp [store_hint]) ?_
          intro e he hs _
          rw [List.mem_singleton.mp he] at hs
          simp [is_search] at hs
      · -- seek, then a search that does not end in eof
        rw [hstep _ _ hr, if_neg h2]
        by_cases e0 : rep2.err = .GPG_ERR_NO_ERROR
        · rw [if_pos e0]
          refine found_stop _ _ _ dbidx rfl (by simp [store_hint]) ?_
          intro e he hs _
          simp only [List.mem_cons, List.mem_singleton, List.not_mem_nil, or_false] at he
          rcases he with he | he
          · rw [he] at hs
            simp [is_search] at hs
          · rw [he]
            refine ⟨e0, by simp, by simp, by simp [store_hint], ⟨[_], rfl⟩, ?_, ?_⟩
            · simp [is_mark_not_found]
            · simp [store_hint]
        · rw [if_neg e0]
          refine found_stop _ _ _ dbidx rfl (by simp [store_hint]) ?_
          intro e he hs hf
          simp only [List.mem_cons, List.mem_singleton, List.not_mem_nil, or_false] at he
          rcases he with he | he
          · rw [he] at hs
            simp [is_search] at hs
          · rw [he] at hf
            exact absurd hf e0
      · -- seek, search ending in eof, final mark
        rw [hstep _ _ hr, if_neg (by simp), if_pos rfl, if_neg (by simp [ht])]
        exact found_extend _ _ _ dbidx
          (by simp [is_mark_not_found, is_search, h2]) (ih _ _ _)

theorem scan_found (env : Env) (databases : List db_desc_s) (d : List KEYDB_SEARCH_DESC)
    (st : session) (log0 evs0 : List be_event) (hl : st.log = log0 ++ evs0)
    (hb : ∀ e ∈ evs0, ∃ h, e.call = .be_kbx_search h none)
    (i : Nat) (e : be_event)
    (he : e ∈ new_events log0 (scan env databases d st).2)
    (hs : is_search e.call = true) (hi : e.slot = some i)
    (hf : e.reply.err = .GPG_ERR_NO_ERROR) :
    (scan env databases d st).1 = .GPG_ERR_NO_ERROR ∧
    (∃ request', (scan env databases d st).2.opgp_req = some request' ∧
      request'.any_found = true ∧ request'.any_search = true ∧ request'.next_dbidx = i) ∧
    (∃ pre, new_events log0 (scan env databases d st).2 = pre ++ [e]) ∧
    (∀ e' ∈ new_events log0 (scan env databases d st).2, is_query e'.call = true →
      ∀ j, e'.slot = some j → j ≤ i) ∧
    (∀ e' ∈ new_events log0 (scan env databases d st).2,
      is_mark_not_found e'.call = false) := by
  obtain ⟨evs, hlog, _, hc⟩ := next_db_found env d (databases.drop st.request.next_dbidx)
    st.request.next_dbidx false st
  rw [hl, List.append_assoc] at hlog
  have hn : new_events log0 (scan env databases d st).2 = evs0 ++ evs :=
    new_events_append log0 _ _ hlog
  rw [hn] at he ⊢
  have he2 : e ∈ evs := by
    rcases List.mem_append.mp he with h | h
    · obtain ⟨h', hh⟩ := hb e h
      rw [hh] at hs
      simp [is_search] at hs
    · exact h
  obtain ⟨c1, c2, c3, c4, ⟨pre, c5⟩, c6, c7⟩ := hc e he2 hs hf
  rw [hi] at c4
  have c4' := (Option.some.inj c4).symm
  refine ⟨c1, ⟨_, rfl, c2, c3, c4'⟩,
    ⟨evs0 ++ pre, by rw [c5, List.append_assoc]⟩, ?_, ?_⟩
  · intro e' he' hq j hj
    rcases List.mem_append.mp he' with h | h
    · obtain ⟨h', hh⟩ := hb e' h
      rw [hh] at hq
      simp [is_query] at hq
    · have := c7 e' h j hj
      rw [c4'] at this
      exact this
  · intro e' he'
    rcases List.mem_append.mp he' with h | h
    · obtain ⟨h', hh⟩ := hb e' h
      simp [hh, is_mark_not_found]
    · exact c6 e' h

/-- Claim C8: when during a `kbxd_search` with a descriptor the search of the
backend in slot `i` returns success, `kbxd_search` returns success with
`any_found` and `any_search` set and `next_dbidx` equal to `i`; that search is
the last backend call, no backend of a slot after `i` is queried, and
`be_cache_not_found` is not called. -/
theorem search_found_stays (env : Env) (databases : List db_desc_s) (ctrl : ctrl_s)
    (d : List KEYDB_SEARCH_DESC) (reset : Bool) (i : Nat) (e : be_event)
    (he : e ∈ new_events ctrl.log (kbxd_search env databases ctrl (some d) reset).2)
    (hs : is_search e.call = true) (hi : e.slot = some i)
    (hf : e.reply.err = .GPG_ERR_NO_ERROR) :
    (kbxd_search env databases ctrl (some d) reset).1 = .GPG_ERR_NO_ERROR ∧
    (∃ request', (kbxd_search env databases ctrl (some d) reset).2.opgp_req = some request' ∧
      request'.any_found = true ∧ request'.any_search = true ∧ request'.next_dbidx = i) ∧
    (∃ pre, new_events ctrl.log (kbxd_search env databases ctrl (some d) reset).2
      = pre ++ [e]) ∧
    (∀ e' ∈ new_events ctrl.log (kbxd_search env databases ctrl (some d) reset).2,
      is_query e'.call = true → ∀ j, e'.slot = some j → j ≤ i) ∧
    (∀ e' ∈ new_events ctrl.log (kbxd_search env databases ctrl (some d) reset).2,
      is_mark_not_found e'.call = false) := by
  cases hq : get_request env ctrl with
  | none =>
    exfalso
    have hk : kbxd_search env databases ctrl (some d) reset = (env.syserror, ctrl) := by
      simp [kbxd_search, hq]
    rw [hk] at he
    simp [new_events] at he
  | some st =>
    have hl : st.log = ctrl.log := by
      unfold get_request at hq
      split at hq
      · cases hq; rfl
      · split at hq
        · cases hq; rfl
        · cases hq
    cases reset with
    | false =>
      have hk : kbxd_search env databases ctrl (some d) false = scan env databases d st := by
        simp [kbxd_search, hq]
      rw [hk] at he ⊢
      exact scan_found env databases d st ctrl.log [] (by rw [hl, List.append_nil])
        (by simp) i e he hs hi hf
    | true =>
      obtain ⟨evs0, hlog0, hcall0, _⟩ := reset_loop_log env databases 0 st
      rw [hl] at hlog0
      by_cases h0 : (reset_loop env databases 0 st).1 = .GPG_ERR_NO_ERROR
      · have hk : kbxd_search env databases ctrl (some d) true =
            scan env databases d
              { request := reset_cursor (reset_loop env databases 0 st).2.request,
                log := (reset_loop env databases 0 st).2.log } := by
          simp [kbxd_search, hq, h0]
        rw [hk] at he ⊢
        exact scan_found env databases d
          { request := reset_cursor (reset_loop env databases 0 st).2.request,
            log := (reset_loop env databases 0 st).2.log }
          ctrl.log evs0 hlog0 hcall0 i e he hs hi hf
      · exfalso
        have hk : kbxd_search env databases ctrl (some d) true =
            ((reset_loop env databases 0 st).1, to_ctrl (reset_loop env databases 0 st).2) := by
          simp [kbxd_search, hq, h0]
        rw [hk] at he
        simp only at he
        rw [new_events_append ctrl.log evs0 _ hlog0] at he
        obtain ⟨h', hh⟩ := hcall0 e he
        rw [hh] at hs
        simp [is_search] at hs

/-- Witness for `search_found_stays`: in a backend environment where every
search succeeds, the cache in slot 0 of the sample table produces the hit. -/
theorem search_found_stays_witness :
    (kbxd_search found_env sample_table fresh_ctrl (some [5]) false).1 = .GPG_ERR_NO_ERROR :=
  (search_found_stays found_env sample_table fresh_ctrl [5] false 0
    ⟨some 0, .be_cache_search 0 [5], ⟨.GPG_ERR_NO_ERROR, false, false, []⟩⟩
    (by decide) (by decide) (by decide) (by decide)).1

/-! ## Storing a blob -/

theorem first_kbx_spec : ∀ (dbs : List db_desc_s) (k i : Nat) (db : db_desc_s),
    dbs[i]? = some db → db.db_type = .DB_TYPE_KBX →
    (∀ j < i, ∀ db', dbs[j]? = some db' → db'.db_type ≠ .DB_TYPE_KBX) →
    first_kbx dbs k = some (k + i, db)
  | [], _, i, _, h, _, _ => by simp at h
  | x :: rest, k, 0, db, h, hk, _ => by
    simp only [List.getElem?_cons_zero, Option.some.injEq] at h
    subst h
    simp [first_kbx, hk]
  | x :: rest, k, i + 1, db, h, hk, hfirst => by
    have hx : x.db_type ≠ .DB_TYPE_KBX := hfirst 0 (Nat.succ_pos i) x (by simp)
    rw [first_kbx, if_neg hx]
    rw [first_kbx_spec rest (k + 1) i db (by simpa using h) hk
      (fun j hj db' hdb' => hfirst (j + 1) (by omega) db' (by simpa using hdb'))]
    congr 2
    omega

/-- Claim C10: with an on-disk backend `db` first at slot `i` of the table and
the identifier of the blob derived, `kbxd_store` seeks that identifier on `db`;
if the seek returns eof in update-only mode or succeeds in insert-only mode the
result is Conflict and the seek is the only backend call; otherwise a seek
returning eof is followed by exactly one insert on `db`, a successful seek by
exactly one update on `db`, nothing else is called, and the result of that
call is returned. -/
theorem store_conflict_or_dispatch (env : Env) (databases : List db_desc_s) (ctrl : ctrl_s)
    (blob : List Nat) (mode : kbxd_store_modes) (i : Nat) (db : db_desc_s) (st : session)
    (hi : databases[i]? = some db) (hk : db.db_type = .DB_TYPE_KBX)
    (hfirst : ∀ j < i, ∀ db', databases[j]? = some db' → db'.db_type ≠ .DB_TYPE_KBX)
    (hreq : get_request env ctrl = some st)
    (hprobe : (env.be_ubid_from_blob blob).1 = .GPG_ERR_NO_ERROR) :
    ((store_seek env st i db blob).reply.err = .GPG_ERR_EOF →
      mode = .KBXD_STORE_UPDATE →
      (kbxd_store env databases ctrl blob mode).1 = .GPG_ERR_CONFLICT ∧
      (kbxd_store env databases ctrl blob mode).2.log
        = ctrl.log ++ [store_seek env st i db blob]) ∧
    ((store_seek env st i db blob).reply.err = .GPG_ERR_NO_ERROR →
      mode = .KBXD_STORE_INSERT →
      (kbxd_store env databases ctrl blob mode).1 = .GPG_ERR_CONFLICT ∧
      (kbxd_store env databases ctrl blob mode).2.log
        = ctrl.log ++ [store_seek env st i db blob]) ∧
    ((store_seek env st i db blob).reply.err = .GPG_ERR_EOF →
      mode ≠ .KBXD_STORE_UPDATE →
      ∃ rep : be_reply,
        (kbxd_store env databases ctrl blob mode).1 = rep.err ∧
        (kbxd_store env databases ctrl blob mode).2.log
          = ctrl.log ++ [store_seek env st i db blob,
              ⟨some i, .be_kbx_insert db.backend_handle (env.be_ubid_from_blob blob).2.1 blob,
                rep⟩]) ∧
    ((store_seek env st i db blob).reply.err = .GPG_ERR_NO_ERROR →
      mode ≠ .KBXD_STORE_INSERT →
      ∃ rep : be_reply,
        (kbxd_store env databases ctrl blob mode).1 = rep.err ∧
        (kbxd_store env databases ctrl blob mode).2.log
          = ctrl.log ++ [store_seek env st i db blob,
              ⟨some i, .be_kbx_update db.backend_handle (env.be_ubid_from_blob blob).2.1 blob,
                rep⟩]) := by
  have hf : first_kbx databases 0 = some (i, db) := by
    have := first_kbx_spec databases 0 i db hi hk hfirst
    rwa [Nat.zero_add] at this
  have hl : st.log = ctrl.log := by
    unfold get_request at hreq
    split at hreq
    · cases hreq; rfl
    · split at hreq
      · cases hreq; rfl
      · cases hreq
  refine ⟨?_, ?_, ?_, ?_⟩
  · intro h1 h2
    simp [kbxd_store, hreq, hprobe, hf, invoke, store_seek, to_ctrl, hl] at h1 ⊢
    simp [h1, h2]
  · intro h1 h2
    simp [kbxd_store, hreq, hprobe, hf, invoke, store_seek, to_ctrl, hl] at h1 ⊢
    simp [h1, h2]
  · intro h1 h2
    simp [kbxd_store, hreq, hprobe, hf, invoke, store_seek, to_ctrl, hl] at h1 ⊢
    simp [h1, h2]
  · intro h1 h2
    simp [kbxd_store, hreq, hprobe, hf, invoke, store_seek, to_ctrl, hl] at h1 ⊢
    simp [h1, h2]

/-- Witness for `store_conflict_or_dispatch`: on the sample table the first
keybox file is in slot 2; the seek succeeds, so an insert-only store is a
conflict and only the seek is logged. -/
theorem store_conflict_or_dispatch_witness :
    (kbxd_store resume_env sample_table fresh_ctrl [1, 2, 3] .KBXD_STORE_INSERT).1
      = .GPG_ERR_CONFLICT ∧
    (kbxd_store resume_env sample_table fresh_ctrl [1, 2, 3] .KBXD_STORE_INSERT).2.log
      = [⟨some 2, .be_kbx_seek 1 [1, 2, 3], ⟨.GPG_ERR_NO_ERROR, false, false, []⟩⟩] :=
  (store_conflict_or_dispatch resume_env sample_table fresh_ctrl [1, 2, 3] .KBXD_STORE_INSERT
    2 ⟨.DB_TYPE_KBX, 1⟩ ⟨calloc_request, []⟩ (by decide) (by decide) (by decide)
    (by decide) (by decide)).2.1 (by decide) (by decide)

/-! ## The resume protocol between the cache and the on-disk backends -/

theorem first_kbx_none : ∀ (dbs : List db_desc_s) (k : Nat),
    (∀ db ∈ dbs, db.db_type ≠ .DB_TYPE_KBX) → first_kbx dbs k = none
  | [], _, _ => rfl
  | x :: rest, k, h => by
    rw [first_kbx, if_neg (h x (List.mem_cons_self _ _))]
    exact first_kbx_none rest (k + 1) (fun db hdb => h db (List.mem_cons_of_mem _ hdb))

theorem get_request_log (env : Env) (ctrl : ctrl_s) (st : session)
    (hreq : get_request env ctrl = some st) : st.log = ctrl.log := by
  unfold get_request at hreq
  split at hreq
  · cases hreq; rfl
  · split at hreq
    · cases hreq; rfl
    · cases hreq

/-- Claim C11: with the request object `st` at hand, `kbxd_delete` returns
NotInitialized without any backend call when no slot of the table is an
on-disk backend; with an on-disk backend `db` first at slot `i` it seeks
`ubid` on `db` and then returns NotFound without a delete when the seek
returns eof, returns the error of the seek without a delete on any other seek
error, and after a seek that succeeded calls delete exactly once on `db` and
returns its result. -/
theorem delete_dispatch (env : Env) (databases : List db_desc_s) (ctrl : ctrl_s)
    (ubid : List Nat) (st : session) (hreq : get_request env ctrl = some st) :
    ((∀ db ∈ databases, db.db_type ≠ .DB_TYPE_KBX) →
      (kbxd_delete env databases ctrl ubid).1 = .GPG_ERR_NOT_INITIALIZED ∧
      (kbxd_delete env databases ctrl ubid).2.log = ctrl.log) ∧
    (∀ (i : Nat) (db : db_desc_s), databases[i]? = some db → db.db_type = .DB_TYPE_KBX →
      (∀ j < i, ∀ db', databases[j]? = some db' → db'.db_type ≠ .DB_TYPE_KBX) →
      ∀ seek : be_event,
        seek = ⟨some i, .be_kbx_seek db.backend_handle ubid,
          env.backend st.log st.request (.be_kbx_seek db.backend_handle ubid)⟩ →
      (seek.reply.err = .GPG_ERR_EOF →
        (kbxd_delete env databases ctrl ubid).1 = .GPG_ERR_NOT_FOUND ∧
        (kbxd_delete env databases ctrl ubid).2.log = ctrl.log ++ [seek]) ∧
      (seek.reply.err ≠ .GPG_ERR_EOF → seek.reply.err ≠ .GPG_ERR_NO_ERROR →
        (kbxd_delete env databases ctrl ubid).1 = seek.reply.err ∧
        (kbxd_delete env databases ctrl ubid).2.log = ctrl.log ++ [seek]) ∧
      (seek.reply.err = .GPG_ERR_NO_ERROR →
        ∃ rep : be_reply,
          (kbxd_delete env databases ctrl ubid).1 = rep.err ∧
          (kbxd_delete env databases ctrl ubid).2.log
            = ctrl.log ++ [seek, ⟨some i, .be_kbx_delete db.backend_handle, rep⟩])) := by
  have hl := get_request_log env ctrl st hreq
  refine ⟨?_, ?_⟩
  · intro hno
    simp [kbxd_delete, hreq, first_kbx_none databases 0 hno, to_ctrl, hl]
  · intro i db hi hk hfirst seek hseek
    have hf : first_kbx databases 0 = some (i, db) := by
      have := first_kbx_spec databases 0 i db hi hk hfirst
      rwa [Nat.zero_add] at this
    subst hseek
    refine ⟨?_, ?_, ?_⟩
    · intro h1
      simp only [hl] at h1
      simp [kbxd_delete, hreq, hf, invoke, to_ctrl, hl, h1]
    · intro h1 h2
      simp only [hl] at h1 h2
      simp [kbxd_delete, hreq, hf, invoke, to_ctrl, hl, h1, h2]
    · intro h1
      simp only [hl] at h1
      simp [kbxd_delete, hreq, hf, invoke, to_ctrl, hl, h1]

/-- Witness for `delete_dispatch`: on the sample table the first keybox file is
in slot 2; its seek succeeds and the delete that follows returns eof. -/
theorem delete_dispatch_witness :
    ∃ rep : be_reply,
      (kbxd_delete resume_env sample_table fresh_ctrl [9]).1 = rep.err ∧
      (kbxd_delete resume_env sample_table fresh_ctrl [9]).2.log
        = [] ++ [⟨some 2, .be_kbx_seek 1 [9], ⟨.GPG_ERR_NO_ERROR, false, false, []⟩⟩,
            ⟨some 2, .be_kbx_delete 1, rep⟩] :=
  ((delete_dispatch resume_env sample_table fresh_ctrl [9] ⟨calloc_request, []⟩ rfl).2
    2 ⟨.DB_TYPE_KBX, 1⟩ (by decide) (by decide) (by decide)
    ⟨some 2, .be_kbx_seek 1 [9], ⟨.GPG_ERR_NO_ERROR, false, false, []⟩⟩ (by decide)).2.2
    (by decide)

/-! ## Adding a resource -/

/-- From the empty table, a successful `kbxd_add_resource` for a file (any
name but `[cache]`) leaves a table of four slots with the keybox descriptor in
slot 0 and nothing else: no slot holds a cache descriptor. -/
theorem add_resource_first_table (env : resource_env) (calls : List resource_call)
    (filename_arg : List Char) (readonly : Bool) (st : resource_state)
    (hname : filename_arg ≠ "[cache]".toList) (hsys : env.syserror ≠ .GPG_ERR_NO_ERROR)
    (h : kbxd_add_resource env { databases := [], calls := calls } filename_arg readonly
          = some (.GPG_ERR_NO_ERROR, st)) :
    (∃ handle, st.databases
        = { db_type := .DB_TYPE_KBX, backend_handle := handle }
          :: List.replicate 3 empty_slot) ∧
    ∀ db ∈ st.databases, db.db_type ≠ .DB_TYPE_CACHE := by
  have key : ∃ handle, st.databases
        = { db_type := .DB_TYPE_KBX, backend_handle := handle }
          :: List.replicate 3 empty_slot := by
    unfold kbxd_add_resource at h
    simp only [hname, decide_False, Bool.false_eq_true, if_false, List.length_nil,
      decide_True, Bool.and_self, if_true, Bool.true_and, Bool.and_true, log_resource,
      List.findIdx_nil] at h
    split_ifs at h <;>
      simp only [add_leave, Option.some.injEq, Prod.mk.injEq, ne_eq, not_true_eq_false,
        if_false, if_true, log_resource] at h <;>
      first
      | (obtain ⟨h1, h2⟩ := h
         subst h2
         exact ⟨_, rfl⟩)
      | (exfalso; split_ifs at h <;> simp_all)
  refine ⟨key, ?_⟩
  obtain ⟨handle, hk⟩ := key
  intro db hdb
  rw [hk] at hdb
  simp only [List.mem_cons, List.mem_replicate] at hdb
  rcases hdb with h1 | ⟨_, h1⟩ <;> rw [h1] <;> simp [empty_slot]

/-- Claim C22: from the empty table, `kbxd_add_resource` for `pubring.kbx`
succeeds after the two calls `be_cache_initialize` and `be_kbx_add_resource`
and leaves the keybox descriptor in slot 0 of a table of four slots; no slot
holds a cache descriptor, and a `kbxd_search` on that table goes straight to
the keybox file, without any call into the cache before it. -/
theorem add_resource_without_cache :
    kbxd_add_resource sample_resource_env no_resources "pubring.kbx".toList false
      = some (.GPG_ERR_NO_ERROR,
          { databases := [{ db_type := .DB_TYPE_KBX, backend_handle := 2 },
              empty_slot, empty_slot, empty_slot]
            calls := [ resource_call.be_cache_initialize,
              .be_kbx_add_resource
                "/home/u/.gnupg/public-keys-v1.d/pubring.kbx".toList false] }) ∧
    (∀ db ∈ [{ db_type := .DB_TYPE_KBX, backend_handle := 2 },
        empty_slot, empty_slot, empty_slot], db.db_type ≠ database_types.DB_TYPE_CACHE) ∧
    (kbxd_search found_env
        [{ db_type := .DB_TYPE_KBX, backend_handle := 2 }, empty_slot, empty_slot, empty_slot]
        fresh_ctrl (some [5]) false).2.log.map (fun e => (e.slot, e.call))
      = [(some 0, .be_kbx_search 2 (some [5]))] := by
  refine ⟨by decide, by decide, by decide⟩

/-! ## A seek that fails -/

theorem get_request_to_ctrl (env : Env) (st : session) :
    get_request env (to_ctrl st) = some st := rfl

/-- Claim C25: a search with a descriptor and the reset flag returns the same
value and leaves the same request object and the same log of backend calls as
the pure reset `kbxd_search (NULL)` followed, when that reset succeeds, by the
search with the descriptor and without the reset flag.  With the request
object at hand, the pure reset calls only the resets of the keybox backends,
and when each of these calls succeeds it returns success with `any_search`,
`any_found` and `next_dbidx` cleared. -/
theorem reset_then_search (env : Env) (databases : List db_desc_s) (ctrl : ctrl_s)
    (d : List KEYDB_SEARCH_DESC) (reset : Bool) :
    kbxd_search env databases ctrl (some d) true
      = (if (kbxd_search env databases ctrl none reset).1 = .GPG_ERR_NO_ERROR then
          kbxd_search env databases (kbxd_search env databases ctrl none reset).2 (some d) false
        else kbxd_search env databases ctrl none reset) ∧
    (∀ st, get_request env ctrl = some st →
      (∀ e ∈ new_events ctrl.log (kbxd_search env databases ctrl none reset).2,
        ∃ h, e.call = .be_kbx_search h none) ∧
      ((∀ e ∈ new_events ctrl.log (kbxd_search env databases ctrl none reset).2,
          e.reply.err = .GPG_ERR_NO_ERROR) →
        (kbxd_search env databases ctrl none reset).1 = .GPG_ERR_NO_ERROR ∧
        ∃ request, (kbxd_search env databases ctrl none reset).2.opgp_req = some request ∧
          request.any_search = false ∧ request.any_found = false ∧
          request.next_dbidx = 0)) := by
  constructor
  · unfold kbxd_search
    cases hreq : get_request env ctrl with
    | none =>
      simp only [hreq]
      split_ifs <;> rfl
    | some st =>
      simp only [Option.isNone_none, Option.isNone_some, Bool.true_or, Bool.or_true, if_true]
      by_cases h0 : (reset_loop env databases 0 st).1 = .GPG_ERR_NO_ERROR
      · simp only [h0, ne_eq, not_true_eq_false, if_false, if_true, get_request_to_ctrl,
          Bool.or_self, Bool.false_eq_true]
      · simp only [h0, ne_eq, not_false_eq_true, if_true, if_false]
  · intro st hreq
    have hlog := get_request_log env ctrl st hreq
    obtain ⟨evs, hl, hc, he⟩ := reset_loop_log env databases 0 st
    have hrun : kbxd_search env databases ctrl none reset
        = if (reset_loop env databases 0 st).1 ≠ .GPG_ERR_NO_ERROR then
            ((reset_loop env databases 0 st).1, to_ctrl (reset_loop env databases 0 st).2)
          else (.GPG_ERR_NO_ERROR,
            to_ctrl { (reset_loop env databases 0 st).2 with
              request := reset_cursor (reset_loop env databases 0 st).2.request }) := by
      unfold kbxd_search
      simp only [hreq, Option.isNone_none, Bool.true_or, if_true]
    have hev : new_events ctrl.log (kbxd_search env databases ctrl none reset).2 = evs := by
      rw [hrun]
      split_ifs
      · exact new_events_append ctrl.log evs _ (by rw [hl, hlog])
      · exact new_events_append ctrl.log evs _ (by simp only [hl, hlog])
    rw [hev]
    refine ⟨hc, fun hok => ?_⟩
    have h0 : (reset_loop env databases 0 st).1 = .GPG_ERR_NO_ERROR := by
      apply he
      intro e hm
      obtain ⟨h, hcall⟩ := hc e hm
      simp only [answers_eof, hcall]
      exact hok e hm
    rw [hrun, if_neg (by simpa using h0)]
    exact ⟨rfl, _, rfl, rfl, rfl, rfl⟩

/-- Witness for `reset_then_search`: a pure reset on the sample table with
backends that succeed. -/
theorem reset_then_search_witness :
    (kbxd_search found_env sample_table fresh_ctrl none false).1 = .GPG_ERR_NO_ERROR ∧
    kbxd_search found_env sample_table fresh_ctrl (some [5]) true
      = kbxd_search found_env sample_table
          (kbxd_search found_env sample_table fresh_ctrl none false).2 (some [5]) false :=
  ⟨(((reset_then_search found_env sample_table fresh_ctrl [5] false).2
      { request := calloc_request, log := [] } (by decide)).2 (by decide)).1,
   by decide⟩

/-! ## Termination and the order of dispatch -/

/-- The for loop at `next_db` stops at the first slot from the cursor on that
is not empty, or at the end of the table. -/
theorem skip_empty_stop (databases : List db_desc_s) (k : Nat)
    (hstop : ∀ db, databases[k]? = some db → db.db_type ≠ .DB_TYPE_NONE) :
    ∀ (n j count : Nat), k = j + n → databases.length - j ≤ count →
    (∀ i, j ≤ i → i < k → ∃ db, databases[i]? = some db ∧ db.db_type = .DB_TYPE_NONE) →
    skip_empty databases count j = k := by
  intro n
  induction n with
  | zero =>
    intro j count hk _ _
    have hkj : k = j := by omega
    subst hkj
    cases count with
    | zero => rfl
    | succ c =>
      rw [skip_empty]
      cases hg : databases[k]? with
      | none => rfl
      | some db => simp only [if_neg (hstop db hg)]
  | succ m ih =>
    intro j count hk hcount hnone
    obtain ⟨db, hg, ht⟩ := hnone j (le_refl _) (by omega)
    have hj : j < databases.length := by
      by_contra hge
      rw [List.getElem?_eq_none (by omega)] at hg
      cases hg
    cases count with
    | zero => omega
    | succ c =>
      rw [skip_empty]
      simp only [hg, ht, if_true]
      exact ih (j + 1) c (by omega) (by omega) (fun i h1 h2 => hnone i (by omega) h2)

theorem divert_next_dbidx (env : Env) (d : List KEYDB_SEARCH_DESC) (db : db_desc_s)
    (dbidx : Nat) (start : Bool) (st : session) :
    (divert env d db dbidx start st).2.request.next_dbidx = st.request.next_dbidx := by
  by_cases hN : db.db_type = .DB_TYPE_NONE
  · simp [divert, hN]
  · rcases divert_cases env d db dbidx start st hN with
      ⟨_, rep, hr⟩ | ⟨_, _, rep, hr⟩ | ⟨_, _, rep, _, hr⟩ |
      ⟨_, _, rep1, rep2, _, _, hr⟩ | ⟨_, _, rep1, rep2, rep3, _, _, hr⟩ <;>
    · rw [hr]; rfl

/-- The loop run pass by pass on the whole table agrees with `next_db` on the
part of the table from slot `k` on, when the cursor stands at or before `k`
with only empty slots in between; it takes at most one pass for each slot left
and one more. -/
theorem next_db_run_eq (env : Env) (databases : List db_desc_s) (d : List KEYDB_SEARCH_DESC) :
    ∀ (l : List db_desc_s) (k : Nat) (start : Bool) (st : session) (fuel : Nat),
    databases.drop k = l → st.request.next_dbidx ≤ k →
    (∀ i, st.request.next_dbidx ≤ i → i < k →
      ∃ db, databases[i]? = some db ∧ db.db_type = .DB_TYPE_NONE) →
    l.length < fuel →
    next_db_run env databases d fuel start st = some (next_db env d l k start st) := by
  intro l
  induction l with
  | nil =>
    intro k start st fuel hdrop hle hnone hfuel
    have hlen : databases.length ≤ k := List.drop_eq_nil_iff.mp hdrop
    have hgk : databases[k]? = none := List.getElem?_eq_none hlen
    have hskip : skip_empty databases (databases.length - st.request.next_dbidx)
        st.request.next_dbidx = k :=
      skip_empty_stop databases k (fun db h => by rw [hgk] at h; cases h)
        (k - st.request.next_dbidx) _ _ (by omega) (le_refl _) hnone
    cases fuel with
    | zero => omega
    | succ f =>
      rw [next_db_run, next_db_pass]
      simp only [hskip, hgk]
      rfl
  | cons db rest ih =>
    intro k start st fuel hdrop hle hnone hfuel
    have hk : k < databases.length := by
      by_contra hge
      rw [List.drop_eq_nil_iff.mpr (by omega)] at hdrop
      cases hdrop
    have hgk : databases[k]? = some db := by
      rw [List.getElem?_eq_getElem hk]
      have := List.drop_eq_getElem_cons hk
      rw [hdrop] at this
      simp only [List.cons.injEq] at this
      rw [this.1]
    have hrest : databases.drop (k + 1) = rest := by
      have := List.drop_eq_getElem_cons hk
      rw [hdrop] at this
      simp only [List.cons.injEq] at this
      exact this.2.symm
    by_cases hN : db.db_type = .DB_TYPE_NONE
    · rw [next_db_skip _ _ _ _ _ _ _ hN]
      apply ih (k + 1) start st fuel hrest (by omega)
      · intro i h1 h2
        by_cases hik : i < k
        · exact hnone i h1 hik
        · have : i = k := by omega
          subst this
          exact ⟨db, hgk, hN⟩
      · simp only [List.length_cons] at hfuel; omega
    · have hskip : skip_empty databases (databases.length - st.request.next_dbidx)
          st.request.next_dbidx = k :=
        skip_empty_stop databases k (fun db2 h => by rw [hgk] at h; cases h; exact hN)
          (k - st.request.next_dbidx) _ _ (by omega) (le_refl _) hnone
      cases fuel with
      | zero => omega
      | succ f =>
        have hf : rest.length < f := by simp only [List.length_cons] at hfuel; omega
        have hdn := divert_next_dbidx env d db k start
          { st with request := { st.request with next_dbidx := k } }
        obtain ⟨err, st1, hd⟩ : ∃ err st1, divert env d db k start
            { st with request := { st.request with next_dbidx := k } } = (err, st1) :=
          ⟨_, _, rfl⟩
        rw [hd] at hdn
        simp only at hdn
        rw [next_db_run, next_db_pass, next_db, if_neg hN]
        simp only [hskip, hgk, hd, hdn]
        by_cases h0 : err = .GPG_ERR_NO_ERROR
        · simp only [h0, if_true]
        · simp only [h0, if_false]
          by_cases h1 : err = .GPG_ERR_EOF
          · simp only [h1, if_true]
            by_cases h2 : (decide (db.db_type = .DB_TYPE_CACHE)
                && st1.request.last_cached_valid) = true
            · simp only [h2, if_true]
              by_cases h3 : st1.request.last_cached_final = true
              · simp only [h3, if_true]
              · simp only [h3, if_false, Bool.false_eq_true]
                exact ih (k + 1) true _ f hrest (le_refl _) (fun i a b => by
                  simp only at a; omega) hf
            · simp only [h2, if_false, Bool.false_eq_true]
              exact ih (k + 1) false _ f hrest (le_refl _) (fun i a b => by
                simp only at a; omega) hf
          · simp only [h1, if_false]

theorem mem_search_slots (evs : List be_event) (j : Nat) :
    j ∈ search_slots evs ↔ ∃ e ∈ evs, is_search e.call = true ∧ e.slot = some j := by
  unfold search_slots
  rw [List.mem_filterMap]
  constructor
  · rintro ⟨e, he, h⟩
    by_cases hs : is_search e.call = true
    · rw [if_pos hs] at h
      exact ⟨e, he, hs, h⟩
    · rw [if_neg hs] at h
      cases h
  · rintro ⟨e, he, hs, h⟩
    exact ⟨e, he, by rw [if_pos hs]; exact h⟩

theorem search_slots_append (a b : List be_event) :
    search_slots (a ++ b) = search_slots a ++ search_slots b := by
  unfold search_slots
  rw [List.filterMap_append]

theorem pairwise_of_length_le_one (l : List Nat) (h : l.length ≤ 1) :
    l.Pairwise (fun i j => i < j) := by
  match l, h with
  | [], _ => exact List.Pairwise.nil
  | [a], _ => exact List.pairwise_singleton _ _

theorem order_stop (db : db_desc_s) (rest : List db_desc_s) (dbidx : Nat)
    (evs1 : List be_event) (err : gpg_error_t) (hN : db.db_type ≠ .DB_TYPE_NONE)
    (h1 : (search_slots evs1).length ≤ 1)
    (h2 : ∀ e ∈ evs1, is_search e.call = true → e.slot = some dbidx ∧ search_of db e.call)
    (h3 : err = .GPG_ERR_INTERNAL → ∃ e ∈ evs1, e.reply.err = .GPG_ERR_INTERNAL) :
    scan_order (db :: rest) dbidx evs1 err := by
  refine ⟨pairwise_of_length_le_one _ h1, ?_, h3⟩
  intro e he hs
  obtain ⟨a, b⟩ := h2 e he hs
  exact ⟨dbidx, db, a, le_refl _, by simp, hN, b⟩

theorem order_skip (db : db_desc_s) (rest : List db_desc_s) (dbidx : Nat)
    (evs : List be_event) (err : gpg_error_t)
    (h : scan_order rest (dbidx + 1) evs err) : scan_order (db :: rest) dbidx evs err := by
  obtain ⟨a, b, c⟩ := h
  refine ⟨a, ?_, c⟩
  intro e he hs
  obtain ⟨j, db2, h1, h2, h3, h4, h5⟩ := b e he hs
  refine ⟨j, db2, h1, by omega, ?_, h4, h5⟩
  have : j - dbidx = (j - (dbidx + 1)) + 1 := by omega
  rw [this, List.getElem?_cons_succ]
  exact h3

theorem order_extend (db : db_desc_s) (rest : List db_desc_s) (dbidx : Nat)
    (evs1 evs2 : List be_event) (err : gpg_error_t) (hN : db.db_type ≠ .DB_TYPE_NONE)
    (h1 : (search_slots evs1).length ≤ 1)
    (h2 : ∀ e ∈ evs1, is_search e.call = true → e.slot = some dbidx ∧ search_of db e.call)
    (h : scan_order rest (dbidx + 1) evs2 err) :
    scan_order (db :: rest) dbidx (evs1 ++ evs2) err := by
  have hs := order_skip db rest dbidx evs2 err h
  obtain ⟨a, b, c⟩ := h
  refine ⟨?_, ?_, ?_⟩
  · rw [search_slots_append, List.pairwise_append]
    refine ⟨pairwise_of_length_le_one _ h1, a, ?_⟩
    intro i hi j hj
    obtain ⟨e, he, hse, hsl⟩ := (mem_search_slots _ _).mp hi
    obtain ⟨e2, he2, hse2, hsl2⟩ := (mem_search_slots _ _).mp hj
    have hi2 := (h2 e he hse).1
    obtain ⟨j2, _, hj2, hle, _⟩ := b e2 he2 hse2
    rw [hsl] at hi2
    rw [hsl2] at hj2
    cases hi2
    cases hj2
    omega
  · intro e he hse
    rcases List.mem_append.mp he with h | h
    · obtain ⟨x, y⟩ := h2 e h hse
      exact ⟨dbidx, db, x, le_refl _, by simp, hN, y⟩
    · exact hs.2.1 e h hse
  · intro hI
    obtain ⟨e, he, hr⟩ := c hI
    exact ⟨e, List.mem_append_right _ he, hr⟩

/-- One round of the loop on a non-empty slot keeps the order of dispatch,
given the calls `evs1` that the dispatch switch has made. -/
theorem order_step (env : Env) (d : List KEYDB_SEARCH_DESC) (db : db_desc_s)
    (rest : List db_desc_s) (dbidx : Nat) (start : Bool) (st : session)
    (hN : db.db_type ≠ .DB_TYPE_NONE) (err : gpg_error_t) (st1 : session)
    (evs1 : List be_event)
    (hd : divert env d db dbidx start
            { st with request := { st.request with next_dbidx := dbidx } } = (err, st1))
    (hl : st1.log = st.log ++ evs1) (h1 : (search_slots evs1).length ≤ 1)
    (h2 : ∀ e ∈ evs1, is_search e.call = true → e.slot = some dbidx ∧ search_of db e.call)
    (h3 : err = .GPG_ERR_INTERNAL → ∃ e ∈ evs1, e.reply.err = .GPG_ERR_INTERNAL)
    (ih : ∀ (b : Bool) (s1 : session),
      ∃ evs, (next_db env d rest (dbidx + 1) b s1).2.log = s1.log ++ evs ∧
        scan_order rest (dbidx + 1) evs (next_db env d rest (dbidx + 1) b s1).1) :
    ∃ evs, (next_db env d (db :: rest) dbidx start st).2.log = st.log ++ evs ∧
      scan_order (db :: rest) dbidx evs (next_db env d (db :: rest) dbidx start st).1 := by
  have hcont : ∀ (b : Bool) (s1 : session), s1.log = st1.log →
      ∃ evs, (next_db env d rest (dbidx + 1) b s1).2.log = st.log ++ evs ∧
        scan_order (db :: rest) dbidx evs (next_db env d rest (dbidx + 1) b s1).1 := by
    intro b s1 hs
    obtain ⟨evs, h4, h5⟩ := ih b s1
    exact ⟨evs1 ++ evs, by rw [h4, hs, hl, List.append_assoc],
      order_extend _ _ _ _ _ _ hN h1 h2 h5⟩
  have hstop : scan_order (db :: rest) dbidx evs1 err := order_stop _ _ _ _ _ hN h1 h2 h3
  rw [next_db_step env d db rest dbidx start st hN err st1 hd]
  by_cases h0 : err = .GPG_ERR_NO_ERROR
  · rw [if_pos h0]
    exact ⟨evs1, hl, hstop⟩
  · rw [if_neg h0]
    by_cases he : err = .GPG_ERR_EOF
    · rw [if_pos he]
      by_cases hc : db.db_type = .DB_TYPE_CACHE ∧ st1.request.last_cached_valid = true
      · rw [if_pos hc]
        by_cases hf : st1.request.last_cached_final = true
        · rw [if_pos hf]
          exact ⟨evs1, hl, hstop⟩
        · rw [if_neg hf]
          exact hcont _ _ rfl
      · rw [if_neg hc]
        exact hcont _ _ rfl
    · rw [if_neg he]
      exact ⟨evs1, hl, hstop⟩

/-- The order of dispatch holds for the calls of the loop from `next_db` on. -/
theorem next_db_order (env : Env) (d : List KEYDB_SEARCH_DESC) :
    ∀ (dbs : List db_desc_s) (dbidx : Nat) (start : Bool) (st : session),
    ∃ evs, (next_db env d dbs dbidx start st).2.log = st.log ++ evs ∧
      scan_order dbs dbidx evs (next_db env d dbs dbidx start st).1 := by
  intro dbs
  induction dbs with
  | nil =>
    intro dbidx start st
    rw [next_db_nil]
    refine ⟨[_], rfl, ?_, ?_, ?_⟩
    · simp [search_slots, is_search]
    · simp [is_search]
    · intro h; cases h
  | cons db rest ih =>
    intro dbidx start st
    by_cases hN : db.db_type = .DB_TYPE_NONE
    · rw [next_db_skip _ _ _ _ _ _ _ hN]
      obtain ⟨evs, h1, h2⟩ := ih (dbidx + 1) start st
      exact ⟨evs, h1, order_skip _ _ _ _ _ h2⟩
    · rcases divert_cases env d db dbidx start
          { st with request := { st.request with next_dbidx := dbidx } } hN with
        ⟨ht, rep, hr⟩ | ⟨ht, _, rep, hr⟩ | ⟨ht, _, rep, _, hr⟩ |
        ⟨ht, _, rep1, rep2, _, _, hr⟩ | ⟨ht, _, rep1, rep2, rep3, _, _, hr⟩
      · exact order_step env d db rest dbidx start st hN _ _ _ hr rfl
          (by simp [search_slots, is_search]) (by simp [is_search, search_of, ht])
          (fun h => ⟨_, List.mem_singleton_self _, h⟩) (ih (dbidx + 1))
      · exact order_step env d db rest dbidx start st hN _ _ _ hr rfl
          (by simp [search_slots, is_search]) (by simp [is_search, search_of, ht])
          (fun h => ⟨_, List.mem_singleton_self _, h⟩) (ih (dbidx + 1))
      · exact order_step env d db rest dbidx start st hN _ _ _ hr rfl
          (by simp [search_slots, is_search]) (by simp [is_search, search_of, ht])
          (fun h => ⟨_, List.mem_singleton_self _, h⟩) (ih (dbidx + 1))
      · exact order_step env d db rest dbidx start st hN _ _ _ hr rfl
          (by simp [search_slots, is_search]) (by simp [is_search, search_of, ht])
          (fun h => ⟨_, List.mem_cons_of_mem _ (List.mem_singleton_self _), h⟩)
          (ih (dbidx + 1))
      · exact order_step env d db rest dbidx start st hN _ _ _ hr rfl
          (by simp [search_slots, is_search]) (by simp [is_search, search_of, ht])
          (fun h => by cases h) (ih (dbidx + 1))

/-- The reset loop logs resets of keybox backends only, and an error it returns
is the error of one of them. -/
theorem reset_loop_err (env : Env) :
    ∀ (dbs : List db_desc_s) (dbidx : Nat) (st : session),
    ∃ evs, (reset_loop env dbs dbidx st).2.log = st.log ++ evs ∧
      (∀ e ∈ evs, is_search e.call = false) ∧
      ((reset_loop env dbs dbidx st).1 ≠ .GPG_ERR_NO_ERROR →
        ∃ e ∈ evs, e.reply.err = (reset_loop env dbs dbidx st).1) := by
  intro dbs
  induction dbs with
  | nil =>
    intro dbidx st
    exact ⟨[], by simp [reset_loop], by simp, fun h => absurd rfl h⟩
  | cons db rest ih =>
    intro dbidx st
    cases ht : db.db_type with
    | DB_TYPE_NONE => simp only [reset_loop, ht]; exact ih _ _
    | DB_TYPE_CACHE => simp only [reset_loop, ht]; exact ih _ _
    | DB_TYPE_KBX =>
      simp only [reset_loop, ht]
      by_cases h0 : (invoke env st (some dbidx) (.be_kbx_search db.backend_handle none)).1
          = .GPG_ERR_NO_ERROR
      · rw [if_neg (by simpa using h0)]
        obtain ⟨evs, hlog, hc, he⟩ := ih (dbidx + 1)
          (invoke env st (some dbidx) (.be_kbx_search db.backend_handle none)).2
        refine ⟨(⟨some dbidx, .be_kbx_search db.backend_handle none,
          env.backend st.log st.request (.be_kbx_search db.backend_handle none)⟩ : be_event)
            :: evs, by rw [hlog]; simp [invoke], ?_, ?_⟩
        · intro e hm
          rcases List.mem_cons.mp hm with h | h
          · rw [h]; rfl
          · exact hc e h
        · intro H
          obtain ⟨e, hm, hr⟩ := he H
          exact ⟨e, List.mem_cons_of_mem _ hm, hr⟩
      · rw [if_pos (by simpa using h0)]
        refine ⟨[_], rfl, ?_, ?_⟩
        · intro e hm
          rw [List.mem_singleton.mp hm]; rfl
        · intro _
          exact ⟨_, List.mem_singleton_self _, rfl⟩

theorem search_slots_of_no_search (evs : List be_event)
    (h : ∀ e ∈ evs, is_search e.call = false) : search_slots evs = [] := by
  unfold search_slots
  rw [List.filterMap_eq_nil_iff]
  intro e he
  simp [h e he]

/-- The order of dispatch of a scan, stated on the whole table. -/
theorem scan_dispatch (env : Env) (databases : List db_desc_s) (d : List KEYDB_SEARCH_DESC)
    (st : session) :
    ∃ evs, (scan env databases d st).2.log = st.log ++ evs ∧
      (search_slots evs).Pairwise (fun i j => i < j) ∧
      (∀ e ∈ evs, is_search e.call = true →
        ∃ j db, e.slot = some j ∧ st.request.next_dbidx ≤ j ∧ databases[j]? = some db ∧
          db.db_type ≠ .DB_TYPE_NONE ∧ search_of db e.call) ∧
      ((scan env databases d st).1 = .GPG_ERR_INTERNAL →
        ∃ e ∈ evs, e.reply.err = .GPG_ERR_INTERNAL) := by
  obtain ⟨evs, hl, hp, hs, hi⟩ := next_db_order env d
    (databases.drop st.request.next_dbidx) st.request.next_dbidx false st
  refine ⟨evs, hl, hp, ?_, hi⟩
  intro e he hse
  obtain ⟨j, db, h1, h2, h3, h4, h5⟩ := hs e he hse
  refine ⟨j, db, h1, h2, ?_, h4, h5⟩
  rw [List.getElem?_drop] at h3
  have : st.request.next_dbidx + (j - st.request.next_dbidx) = j := by omega
  rw [this] at h3
  exact h3

/-- The for loop at `next_db` never stops on an empty slot. -/
theorem skip_empty_not_none (databases : List db_desc_s) :
    ∀ (count j : Nat), databases.length - j ≤ count →
    ∀ db, databases[skip_empty databases count j]? = some db →
      db.db_type ≠ .DB_TYPE_NONE := by
  intro count
  induction count with
  | zero =>
    intro j hc db hg
    rw [skip_empty, List.getElem?_eq_none (by omega)] at hg
    cases hg
  | succ c ih =>
    intro j hc db hg
    rw [skip_empty] at hg
    cases h0 : databases[j]? with
    | none =>
      simp only [h0] at hg
      cases hg
    | some db0 =>
      simp only [h0] at hg
      by_cases hN : db0.db_type = .DB_TYPE_NONE
      · rw [if_pos hN] at hg
        have hj : j < databases.length := by
          by_contra hge
          rw [List.getElem?_eq_none (by omega)] at h0
          cases h0
        exact ih (j + 1) (by omega) db hg
      · rw [if_neg hN, h0] at hg
        cases hg
        exact hN

/-- The backend calls of one `kbxd_search` call, with the order of dispatch
of its searches. -/
theorem kbxd_search_dispatch (env : Env) (databases : List db_desc_s) (ctrl : ctrl_s)
    (desc : Option (List KEYDB_SEARCH_DESC)) (reset : Bool) :
    ∃ evs, (kbxd_search env databases ctrl desc reset).2.log = ctrl.log ++ evs ∧
      (search_slots evs).Pairwise (fun i j => i < j) ∧
      (∀ e ∈ evs, is_search e.call = true →
        ∃ j db, e.slot = some j ∧ databases[j]? = some db ∧
          db.db_type ≠ .DB_TYPE_NONE ∧ search_of db e.call) ∧
      ((kbxd_search env databases ctrl desc reset).1 = .GPG_ERR_INTERNAL →
        env.syserror = .GPG_ERR_INTERNAL ∨ ∃ e ∈ evs, e.reply.err = .GPG_ERR_INTERNAL) := by
  have hscan : ∀ (d : List KEYDB_SEARCH_DESC) (st : session) (evs0 : List be_event),
      st.log = ctrl.log ++ evs0 → (∀ e ∈ evs0, is_search e.call = false) →
      ∃ evs, (scan env databases d st).2.log = ctrl.log ++ evs ∧
        (search_slots evs).Pairwise (fun i j => i < j) ∧
        (∀ e ∈ evs, is_search e.call = true →
          ∃ j db, e.slot = some j ∧ databases[j]? = some db ∧
            db.db_type ≠ .DB_TYPE_NONE ∧ search_of db e.call) ∧
        ((scan env databases d st).1 = .GPG_ERR_INTERNAL →
          env.syserror = .GPG_ERR_INTERNAL ∨
            ∃ e ∈ evs, e.reply.err = .GPG_ERR_INTERNAL) := by
    intro d st evs0 hl h0
    obtain ⟨evs, h1, h2, h3, h4⟩ := scan_dispatch env databases d st
    refine ⟨evs0 ++ evs, by rw [h1, hl, List.append_assoc], ?_, ?_, ?_⟩
    · rw [search_slots_append, search_slots_of_no_search evs0 h0, List.nil_append]
      exact h2
    · intro e he hs
      rcases List.mem_append.mp he with h | h
      · rw [h0 e h] at hs
        cases hs
      · obtain ⟨j, db, a, _, b, c, e2⟩ := h3 e h hs
        exact ⟨j, db, a, b, c, e2⟩
    · intro hI
      obtain ⟨e, he, hr⟩ := h4 hI
      exact Or.inr ⟨e, List.mem_append_right _ he, hr⟩
  have hquiet : ∀ (r : gpg_error_t × ctrl_s) (evs0 : List be_event),
      r.2.log = ctrl.log ++ evs0 → (∀ e ∈ evs0, is_search e.call = false) →
      (r.1 = .GPG_ERR_INTERNAL →
        env.syserror = .GPG_ERR_INTERNAL ∨ ∃ e ∈ evs0, e.reply.err = .GPG_ERR_INTERNAL) →
      ∃ evs, r.2.log = ctrl.log ++ evs ∧
        (search_slots evs).Pairwise (fun i j => i < j) ∧
        (∀ e ∈ evs, is_search e.call = true →
          ∃ j db, e.slot = some j ∧ databases[j]? = some db ∧
            db.db_type ≠ .DB_TYPE_NONE ∧ search_of db e.call) ∧
        (r.1 = .GPG_ERR_INTERNAL →
          env.syserror = .GPG_ERR_INTERNAL ∨
            ∃ e ∈ evs, e.reply.err = .GPG_ERR_INTERNAL) := by
    intro r evs0 hl h0 hI
    refine ⟨evs0, hl, ?_, ?_, hI⟩
    · rw [search_slots_of_no_search evs0 h0]
      exact List.Pairwise.nil
    · intro e he hs
      rw [h0 e he] at hs
      cases hs
  unfold kbxd_search
  cases hreq : get_request env ctrl with
  | none =>
    simp only []
    exact hquiet (env.syserror, ctrl) [] (by simp) (by simp) (fun h => Or.inl h)
  | some st =>
    have hlog := get_request_log env ctrl st hreq
    simp only []
    obtain ⟨evsR, hR1, hR2, hR3⟩ := reset_loop_err env databases 0 st
    by_cases hr : (desc.isNone || reset) = true
    · rw [if_pos hr]
      by_cases h0 : (reset_loop env databases 0 st).1 = .GPG_ERR_NO_ERROR
      · rw [if_neg (by simpa using h0)]
        cases desc with
        | none =>
          exact hquiet (_, _) evsR (by simp only [to_ctrl]; rw [hR1, hlog]) hR2
            (fun h => by cases h)
        | some d =>
          exact hscan d _ evsR (by simp only []; rw [hR1, hlog]) hR2
      · rw [if_pos (by simpa using h0)]
        refine hquiet (_, _) evsR (by simp only [to_ctrl]; rw [hR1, hlog]) hR2 ?_
        intro hI
        obtain ⟨e, he, hre⟩ := hR3 h0
        exact Or.inr ⟨e, he, by rw [hre]; exact hI⟩
    · rw [if_neg hr]
      cases desc with
      | none => simp at hr
      | some d =>
        exact hscan d st [] (by simp [hlog]) (by simp)

/-- The search loop run pass by pass returns what `scan` returns as soon as it
is given one pass for each table slot and one more. -/
theorem scan_run_eq (env : Env) (databases : List db_desc_s) (d : List KEYDB_SEARCH_DESC)
    (st : session) (fuel : Nat) (hfuel : databases.length < fuel) :
    (next_db_run env databases d fuel false st).map (fun r => (r.1, to_ctrl r.2))
      = some (scan env databases d st) := by
  rw [next_db_run_eq env databases d (databases.drop st.request.next_dbidx)
    st.request.next_dbidx false st fuel rfl (le_refl _) (fun i a b => by omega)
    (by rw [List.length_drop]; omega)]
  rfl

/-- Claim C26: for every table, every session context (any cursor value) and
any replies of the backends, `kbxd_search` returns: run pass by pass from the
label `next_db`, its loop has left after at most one pass for each table slot
and one more, with the result of `kbxd_search`.  The searches it dispatches go
to table slots of strictly increasing index, hence to each slot at most once;
each goes to a slot that is not empty and is the search for the backend in
that slot.  The for loop at `next_db` never stops on an empty slot, so the
switch is never entered with `DB_TYPE_NONE`, and `kbxd_search` returns the
Internal error only if the allocation failure code or a backend reply is that
error. -/
theorem search_terminates_in_order (env : Env) (databases : List db_desc_s) (ctrl : ctrl_s)
    (desc : Option (List KEYDB_SEARCH_DESC)) (reset : Bool) :
    (∀ fuel, databases.length < fuel →
      kbxd_search_run env databases ctrl desc reset fuel
        = some (kbxd_search env databases ctrl desc reset)) ∧
    (search_slots (new_events ctrl.log (kbxd_search env databases ctrl desc reset).2)).Pairwise
      (fun i j => i < j) ∧
    (search_slots (new_events ctrl.log (kbxd_search env databases ctrl desc reset).2)).Nodup ∧
    (∀ e ∈ new_events ctrl.log (kbxd_search env databases ctrl desc reset).2,
      is_search e.call = true →
      ∃ j db, e.slot = some j ∧ databases[j]? = some db ∧
        db.db_type ≠ .DB_TYPE_NONE ∧ search_of db e.call) ∧
    (∀ (st : session) (db : db_desc_s),
      databases[skip_empty databases (databases.length - st.request.next_dbidx)
        st.request.next_dbidx]? = some db → db.db_type ≠ .DB_TYPE_NONE) ∧
    ((kbxd_search env databases ctrl desc reset).1 = .GPG_ERR_INTERNAL →
      env.syserror = .GPG_ERR_INTERNAL ∨
      ∃ e ∈ new_events ctrl.log (kbxd_search env databases ctrl desc reset).2,
        e.reply.err = .GPG_ERR_INTERNAL) := by
  obtain ⟨evs, hl, hp, hs, hi⟩ := kbxd_search_dispatch env databases ctrl desc reset
  have hev : new_events ctrl.log (kbxd_search env databases ctrl desc reset).2 = evs := by
    unfold new_events
    rw [hl]
    exact List.drop_left' rfl
  rw [hev]
  refine ⟨?_, hp, ?_, hs, ?_, hi⟩
  · intro fuel hfuel
    unfold kbxd_search_run kbxd_search
    cases hreq : get_request env ctrl with
    | none => rfl
    | some st =>
      simp only []
      cases desc with
      | none => split_ifs <;> rfl
      | some d =>
        split_ifs <;> first | rfl | exact scan_run_eq env databases d _ fuel hfuel
  · exact hp.imp (fun h => Nat.ne_of_lt h)
  · intro st db hg
    exact skip_empty_not_none databases _ _ (le_refl _) db hg

/-- Witness for `search_terminates_in_order`: on the sample table, whose five
slots hold three backends, the loop has left within six passes, and the
searches went to the slots 0, 2 and 3. -/
theorem search_terminates_in_order_witness :
    kbxd_search_run resume_env sample_table fresh_ctrl (some [5]) false 6
      = some (kbxd_search resume_env sample_table fresh_ctrl (some [5]) false) ∧
    search_slots (kbxd_search resume_env sample_table fresh_ctrl (some [5]) false).2.log
      = [0, 2, 3] :=
  ⟨(search_terminates_in_order resume_env sample_table fresh_ctrl (some [5]) false).1 6
      (by decide), by decide⟩

/-! ## What follows a resume hint and a failed seek -/

end Frontend
